import Mathlib

/-!
Adjacency bookkeeping of `AbstractBaseGraph`.

A shallow embedding of the graph container of `src/src/AbstractBaseGraph.h`
(with the helpers it inherits from `src/src/AbstractGraph.h`) and a verification
of its documented contract.

Conventions of the embedding.

* Vertex pointers `V*` and edge pointers `E*` are addresses, modelled as natural
  numbers; `0` is the null pointer.
* `std::set<T*>` is a strictly increasing list of addresses, `std::map<K*, T*>`
  a list of pairs with strictly increasing keys.  The operations below are the
  ones of the standard library (`insert` never replaces an element that is
  already present).
* Objects that the container allocates with `new` live in heaps that are part of
  the state: the `IntrusiveEdge` objects, the `DirectedEdgeContainer` objects and
  the `UndirectedEdgeContainer` objects.  The address of the object stored at
  index `i` of a heap is `i + 1`; allocation appends to the heap.
* A member function becomes a function from the state to an `Outcome`: it
  returns a value, throws an exception, or has undefined behaviour (an end
  iterator is dereferenced, iterators of two different sets are compared, an
  iterator is advanced after its element was erased).
* The edge class `E` is any class other than `IntrusiveEdge<V>` itself (the
  program instantiates `DefaultEdge<int>`), so the test
  `typeid(e) == typeid(IntrusiveEdge<V>*)`, which compares static pointer types,
  is false.
* The edge set factory is the default `ArrayListFactory` installed by the
  constructor: every call creates a new empty set.
* The edge factory is not part of the state: `addEdge` takes the pointer that
  `edgeFactory->createEdge` returns in that call as an argument, so a statement
  about all arguments covers every factory (`ClassBasedEdgeFactory` returns the
  address of a new object at each call).
* A member function of one strategy is only called, through the virtual call
  on `specifics`, on a container with that strategy; the case of the other
  strategy in its definition is never reached.
* The views of `src/src/GraphDelegator.h` and
  `src/cppgrapht/src/AsUndirectedGraph.h` own no storage: their functions take
  the state of the backing container.  Both files write member access on a
  pointer with a dot (`delegate.f(x)`, `sourceVertex.equals(targetVertex)`);
  this is read as the call through the pointer and as the comparison of the
  two pointers.
* The utilities of `src/src/Graphs.h` take the state of the container they are
  given; `edges(it)` and `vertices(it)` are read as `*it`.
* The weight of an edge is a field of the edge object, outside the container:
  the memory of edge objects is the `Environment`.  The operands of the `typeid`
  tests are the static types of the expressions (`TypeInfo`).
-/

namespace VPC

/-- The null pointer. -/
def NULL : Nat := 0

/-- The exceptions thrown by the container, named after their C++ classes. -/
inductive Exception where
  | invalid_argument (what : String)
  | logic_error (what : String)
  | domain_error (what : String)
deriving DecidableEq, Repr

/-! ## Standard containers -/

/-- The call `s->insert(x)` on a `std::set`: no effect when `x` is present. -/
def setInsert (x : Nat) : List Nat → List Nat
  | [] => [x]
  | y :: ys =>
    if x < y then x :: y :: ys
    else if x = y then y :: ys
    else y :: setInsert x ys

/-- The call `s->erase(x)` on a `std::set`. -/
def setErase (x : Nat) : List Nat → List Nat
  | [] => []
  | y :: ys => if x = y then ys else y :: setErase x ys

/-- The call `s->count(x)` on a `std::set`: zero or one. -/
def setCount (x : Nat) (s : List Nat) : Nat :=
  if x ∈ s then 1 else 0

/-- The call `m->count(k)` on a `std::map`: zero or one. -/
def mapCount (k : Nat) (m : List (Nat × Nat)) : Nat :=
  if k ∈ m.map Prod.fst then 1 else 0

/-- The value `m->find(k)->second`; `none` when `find` returns `end()`. -/
def mapFind (k : Nat) : List (Nat × Nat) → Option Nat
  | [] => none
  | p :: m => if p.1 = k then some p.2 else mapFind k m

/-- Places a new pair at its position in key order. -/
def mapPlace (k v : Nat) : List (Nat × Nat) → List (Nat × Nat)
  | [] => [(k, v)]
  | p :: m => if k < p.1 then (k, v) :: p :: m else p :: mapPlace k v m

/-- The call `m->insert(pair(k, v))` on a `std::map`: the map is left as it is
when it already holds the key `k`; the mapped value is not replaced. -/
def mapInsert (k v : Nat) (m : List (Nat × Nat)) : List (Nat × Nat) :=
  if mapCount k m = 1 then m else mapPlace k v m

/-- The call `m->erase(k)` on a `std::map`. -/
def mapErase (k : Nat) : List (Nat × Nat) → List (Nat × Nat)
  | [] => []
  | p :: m => if p.1 = k then m else p :: mapErase k m

/-- Reads the object at address `p` of a heap; `none` for the null pointer and
for an address at which nothing was allocated. -/
def load {α : Type} (heap : List α) (p : Nat) : Option α :=
  if p = NULL then none else heap[p - 1]?

/-- Overwrites the object at address `p` of a heap. -/
def store {α : Type} (heap : List α) (p : Nat) (x : α) : List α :=
  heap.set (p - 1) x

/-! ## Data model -/

/-- The class `IntrusiveEdge<V>` of `IntrusiveEdge.h`. -/
structure IntrusiveEdge where
  source : Nat
  target : Nat
deriving DecidableEq, Repr

/-- The class `DirectedEdgeContainer`: the two sets it owns.  The fields
`unmodifiableIncoming` and `unmodifiableOutgoing` are aliases of the same two
sets and are not represented. -/
structure DirectedEdgeContainer where
  incoming : List Nat
  outgoing : List Nat
deriving DecidableEq, Repr

/-- The class `UndirectedEdgeContainer`: the set it owns. -/
structure UndirectedEdgeContainer where
  vertexEdges : List Nat
deriving DecidableEq, Repr

/-- The two subclasses of `Specifics`, each with its vertex map from a vertex to
the address of its edge container (`NULL` until one is stored). -/
inductive Specifics where
  | DirectedSpecifics (vertexMapDirected : List (Nat × Nat))
  | UndirectedSpecifics (vertexMapUndirected : List (Nat × Nat))
deriving DecidableEq, Repr

/-- The fields of `AbstractBaseGraph` (the two factories apart), followed by the
three heaps of objects the container allocates. -/
structure AbstractBaseGraph where
  edgeMap : List (Nat × Nat)
  unmodifiableEdgeSet : Option (List Nat)
  unmodifiableVertexSet : Option (List Nat)
  allowingMultipleEdges : Bool
  specifics : Specifics
  allowingLoops : Bool
  intrusiveEdges : List IntrusiveEdge
  directedContainers : List DirectedEdgeContainer
  undirectedContainers : List UndirectedEdgeContainer
deriving DecidableEq, Repr

/-- A pointer to a set of edges, as returned by the queries: null, a set built
by the call itself, or one of the live sets owned by an edge container. -/
inductive SetRef where
  | null
  | fresh (elements : List Nat)
  | incoming (ec : Nat)
  | outgoing (ec : Nat)
  | vertexEdges (ec : Nat)
deriving DecidableEq, Repr

/-- What a call does: it returns, it throws, or its behaviour is undefined. -/
inductive Outcome (α : Type) where
  | returns (value : α) (g : AbstractBaseGraph)
  | throws (ex : Exception) (g : AbstractBaseGraph)
  | undefined
deriving DecidableEq, Repr

/-- Sequencing of two calls: an exception or undefined behaviour of the first
ends the computation. -/
def Outcome.bind {α β : Type} (o : Outcome α)
    (f : α → AbstractBaseGraph → Outcome β) : Outcome β :=
  match o with
  | .returns a g => f a g
  | .throws ex g => .throws ex g
  | .undefined => .undefined

/-- The state in which a call leaves the container, when it returns or throws. -/
def Outcome.state {α : Type} : Outcome α → Option AbstractBaseGraph
  | .returns _ g => some g
  | .throws _ g => some g
  | .undefined => none

/-- The value a call returns, when it returns. -/
def Outcome.value {α : Type} : Outcome α → Option α
  | .returns a _ => some a
  | .throws _ _ => none
  | .undefined => none

/-- The set a pointer refers to in the given state; `none` for a null or
dangling pointer. -/
def deref (g : AbstractBaseGraph) : SetRef → Option (List Nat)
  | .null => none
  | .fresh s => some s
  | .incoming ec => (load g.directedContainers ec).map (fun c => c.incoming)
  | .outgoing ec => (load g.directedContainers ec).map (fun c => c.outgoing)
  | .vertexEdges ec => (load g.undirectedContainers ec).map (fun c => c.vertexEdges)

/-! ## Membership tests and endpoint lookup -/

/-- The loop of `getVertexSet`: inserts the key of every map entry. -/
def collectKeys : List (Nat × Nat) → List Nat → List Nat
  | [], vset => vset
  | p :: m, vset => collectKeys m (setInsert p.1 vset)

/-- The functions `DirectedSpecifics::getVertexSet` and
`UndirectedSpecifics::getVertexSet`: a new set holding the keys of the vertex
map. -/
def Specifics.getVertexSet : Specifics → List Nat
  | .DirectedSpecifics vertexMapDirected => collectKeys vertexMapDirected []
  | .UndirectedSpecifics vertexMapUndirected => collectKeys vertexMapUndirected []

/-- The function `AbstractBaseGraph::containsVertex`. -/
def containsVertex (g : AbstractBaseGraph) (v : Nat) : Bool :=
  setCount v g.specifics.getVertexSet == 1

/-- The function `AbstractBaseGraph::containsEdge`. -/
def containsEdge (g : AbstractBaseGraph) (e : Nat) : Bool :=
  mapCount e g.edgeMap == 1

/-- The function `AbstractGraph::assertVertexExist`. -/
def assertVertexExist (g : AbstractBaseGraph) (v : Nat) : Outcome Bool :=
  if containsVertex g v then .returns true g
  else if v = NULL then .throws (.invalid_argument "Null pointer given") g
  else .throws (.invalid_argument "No such vertex in graph") g

/-- The function `AbstractBaseGraph::getIntrusiveEdge`, followed by the
dereference of the pointer it returns: `edgeMap->find(e)->second`.  The result
is `none` when `find` returns `end()`, whose dereference is undefined. -/
def getIntrusiveEdge (g : AbstractBaseGraph) (e : Nat) : Option IntrusiveEdge :=
  match mapFind e g.edgeMap with
  | none => none
  | some ie => load g.intrusiveEdges ie

/-- The function `AbstractBaseGraph::getEdgeSource`. -/
def getEdgeSource (g : AbstractBaseGraph) (e : Nat) : Option Nat :=
  (getIntrusiveEdge g e).map (fun ie => ie.source)

/-- The function `AbstractBaseGraph::getEdgeTarget`. -/
def getEdgeTarget (g : AbstractBaseGraph) (e : Nat) : Option Nat :=
  (getIntrusiveEdge g e).map (fun ie => ie.target)

/-! ## The directed strategy -/

/-- The function `DirectedSpecifics::addVertex`. -/
def DirectedSpecifics.addVertex (g : AbstractBaseGraph) (v : Nat) : AbstractBaseGraph :=
  match g.specifics with
  | .DirectedSpecifics vertexMapDirected =>
    { g with specifics := .DirectedSpecifics (mapInsert v NULL vertexMapDirected) }
  | .UndirectedSpecifics _ => g

/-- The function `DirectedSpecifics::getEdgeContainer`.  When the map holds
`NULL` for the vertex a new container is allocated and handed to
`vertexMapDirected->insert`, and the new container is returned. -/
def DirectedSpecifics.getEdgeContainer (g : AbstractBaseGraph) (vertex : Nat) : Outcome Nat :=
  (assertVertexExist g vertex).bind fun _ g =>
    match g.specifics with
    | .DirectedSpecifics vertexMapDirected =>
      match mapFind vertex vertexMapDirected with
      | none => .undefined
      | some stored =>
        if stored = NULL then
          let ec := g.directedContainers.length + 1
          .returns ec { g with
            directedContainers := g.directedContainers ++ [⟨[], []⟩]
            specifics := .DirectedSpecifics (mapInsert vertex ec vertexMapDirected) }
        else .returns stored g
    | .UndirectedSpecifics _ => .undefined

/-- Applies a member function of `DirectedEdgeContainer` through the pointer
`ec`. -/
def DirectedSpecifics.update (g : AbstractBaseGraph) (ec : Nat)
    (f : DirectedEdgeContainer → DirectedEdgeContainer) : Outcome Unit :=
  match load g.directedContainers ec with
  | none => .undefined
  | some c => .returns () { g with directedContainers := store g.directedContainers ec (f c) }

/-- The function `DirectedEdgeContainer::addIncomingEdge`. -/
def DirectedEdgeContainer.addIncomingEdge (c : DirectedEdgeContainer) (e : Nat) :
    DirectedEdgeContainer :=
  { c with incoming := setInsert e c.incoming }

/-- The function `DirectedEdgeContainer::addOutgoingEdge`. -/
def DirectedEdgeContainer.addOutgoingEdge (c : DirectedEdgeContainer) (e : Nat) :
    DirectedEdgeContainer :=
  { c with outgoing := setInsert e c.outgoing }

/-- The function `DirectedEdgeContainer::removeIncomingEdge`. -/
def DirectedEdgeContainer.removeIncomingEdge (c : DirectedEdgeContainer) (e : Nat) :
    DirectedEdgeContainer :=
  { c with incoming := setErase e c.incoming }

/-- The function `DirectedEdgeContainer::removeOutgoingEdge`. -/
def DirectedEdgeContainer.removeOutgoingEdge (c : DirectedEdgeContainer) (e : Nat) :
    DirectedEdgeContainer :=
  { c with outgoing := setErase e c.outgoing }

/-- The loop of `DirectedSpecifics::getAllEdges` over the outgoing edges. -/
def DirectedSpecifics.getAllEdgesLoop (g : AbstractBaseGraph) (targetVertex : Nat) :
    List Nat → List Nat → Option (List Nat)
  | [], edges => some edges
  | e :: rest, edges =>
    match getEdgeTarget g e with
    | none => none
    | some t =>
      if t = targetVertex then
        DirectedSpecifics.getAllEdgesLoop g targetVertex rest (setInsert e edges)
      else DirectedSpecifics.getAllEdgesLoop g targetVertex rest edges

/-- The function `DirectedSpecifics::getAllEdges`. -/
def DirectedSpecifics.getAllEdges (g : AbstractBaseGraph) (sourceVertex targetVertex : Nat) :
    Outcome SetRef :=
  if containsVertex g sourceVertex && containsVertex g targetVertex then
    (DirectedSpecifics.getEdgeContainer g sourceVertex).bind fun ec g =>
      match load g.directedContainers ec with
      | none => .undefined
      | some c =>
        match DirectedSpecifics.getAllEdgesLoop g targetVertex c.outgoing [] with
        | none => .undefined
        | some edges => .returns (.fresh edges) g
  else .returns .null g

/-- The loop of `DirectedSpecifics::getEdge` over the outgoing edges. -/
def DirectedSpecifics.getEdgeLoop (g : AbstractBaseGraph) (targetVertex : Nat) :
    List Nat → Outcome Nat
  | [] => .returns NULL g
  | e :: rest =>
    match getEdgeTarget g e with
    | none => .undefined
    | some t =>
      if t = targetVertex then .returns e g
      else DirectedSpecifics.getEdgeLoop g targetVertex rest

/-- The function `DirectedSpecifics::getEdge`. -/
def DirectedSpecifics.getEdge (g : AbstractBaseGraph) (sourceVertex targetVertex : Nat) :
    Outcome Nat :=
  if containsVertex g sourceVertex && containsVertex g targetVertex then
    (DirectedSpecifics.getEdgeContainer g sourceVertex).bind fun ec g =>
      match load g.directedContainers ec with
      | none => .undefined
      | some c => DirectedSpecifics.getEdgeLoop g targetVertex c.outgoing
  else .returns NULL g

/-- The function `DirectedSpecifics::addEdgeToTouchingVertices`. -/
def DirectedSpecifics.addEdgeToTouchingVertices (g : AbstractBaseGraph) (e : Nat) :
    Outcome Unit :=
  match getEdgeSource g e, getEdgeTarget g e with
  | some source, some target =>
    (DirectedSpecifics.getEdgeContainer g source).bind fun ec g =>
    (DirectedSpecifics.update g ec (fun c => c.addOutgoingEdge e)).bind fun _ g =>
    (DirectedSpecifics.getEdgeContainer g target).bind fun ec g =>
    DirectedSpecifics.update g ec (fun c => c.addIncomingEdge e)
  | _, _ => .undefined

/-- The function `DirectedSpecifics::removeEdgeFromTouchingVertices`. -/
def DirectedSpecifics.removeEdgeFromTouchingVertices (g : AbstractBaseGraph) (e : Nat) :
    Outcome Unit :=
  match getEdgeSource g e, getEdgeTarget g e with
  | some source, some target =>
    (DirectedSpecifics.getEdgeContainer g source).bind fun ec g =>
    (DirectedSpecifics.update g ec (fun c => c.removeOutgoingEdge e)).bind fun _ g =>
    (DirectedSpecifics.getEdgeContainer g target).bind fun ec g =>
    DirectedSpecifics.update g ec (fun c => c.removeIncomingEdge e)
  | _, _ => .undefined

/-- The first loop of `DirectedSpecifics::edgesOf`.  The iterator walks the
outgoing set of the container `first`; before every step the loop condition
calls `getEdgeContainer` again and compares the iterator with the end of the
outgoing set of the container that call returns, which is undefined when that
is another container.  The body inserts the edge into the set `inAndOut`, the
incoming set of the container `inAndOut`. -/
def DirectedSpecifics.edgesOfLoop (vertex inAndOut first : Nat) :
    List Nat → AbstractBaseGraph → Outcome Unit
  | [], g =>
    (DirectedSpecifics.getEdgeContainer g vertex).bind fun last g =>
      if last = first then .returns () g else .undefined
  | e :: rest, g =>
    (DirectedSpecifics.getEdgeContainer g vertex).bind fun last g =>
      if last = first then
        (DirectedSpecifics.update g inAndOut (fun c => c.addIncomingEdge e)).bind fun _ g =>
          DirectedSpecifics.edgesOfLoop vertex inAndOut first rest g
      else .undefined

/-- The function `DirectedSpecifics::edgesOf`.  The result is the live incoming
set of the container.  In the second loop an edge found in `loops` is erased
through the loop iterator, which the loop then advances: undefined. -/
def DirectedSpecifics.edgesOf (g : AbstractBaseGraph) (vertex : Nat) : Outcome SetRef :=
  (DirectedSpecifics.getEdgeContainer g vertex).bind fun inAndOut g =>
  (DirectedSpecifics.getEdgeContainer g vertex).bind fun first g =>
    match load g.directedContainers first with
    | none => .undefined
    | some c =>
      (DirectedSpecifics.edgesOfLoop vertex inAndOut first c.outgoing g).bind fun _ g =>
        if g.allowingLoops then
          (DirectedSpecifics.getAllEdges g vertex vertex).bind fun loops g =>
            match deref g loops, deref g (.incoming inAndOut) with
            | some loops, some edges =>
              if edges.any (fun e => decide (setCount e loops > 0)) then .undefined
              else .returns (.incoming inAndOut) g
            | _, _ => .undefined
        else .returns (.incoming inAndOut) g

/-- The function `DirectedSpecifics::inDegreeOf`. -/
def DirectedSpecifics.inDegreeOf (g : AbstractBaseGraph) (vertex : Nat) : Outcome Nat :=
  (DirectedSpecifics.getEdgeContainer g vertex).bind fun ec g =>
    match load g.directedContainers ec with
    | none => .undefined
    | some c => .returns c.incoming.length g

/-- The function `DirectedSpecifics::incomingEdgesOf`. -/
def DirectedSpecifics.incomingEdgesOf (g : AbstractBaseGraph) (vertex : Nat) : Outcome SetRef :=
  (DirectedSpecifics.getEdgeContainer g vertex).bind fun ec g => .returns (.incoming ec) g

/-- The function `DirectedSpecifics::outDegreeOf`. -/
def DirectedSpecifics.outDegreeOf (g : AbstractBaseGraph) (vertex : Nat) : Outcome Nat :=
  (DirectedSpecifics.getEdgeContainer g vertex).bind fun ec g =>
    match load g.directedContainers ec with
    | none => .undefined
    | some c => .returns c.outgoing.length g

/-- The function `DirectedSpecifics::outgoingEdgesOf`. -/
def DirectedSpecifics.outgoingEdgesOf (g : AbstractBaseGraph) (vertex : Nat) : Outcome SetRef :=
  (DirectedSpecifics.getEdgeContainer g vertex).bind fun ec g => .returns (.outgoing ec) g

/-- The function `DirectedSpecifics::degreeOf`. -/
def DirectedSpecifics.degreeOf (g : AbstractBaseGraph) (_vertex : Nat) : Outcome Nat :=
  .throws (.logic_error "No such operation in a directed graph") g

/-! ## The undirected strategy -/

/-- The function `UndirectedSpecifics::addVertex`. -/
def UndirectedSpecifics.addVertex (g : AbstractBaseGraph) (v : Nat) : AbstractBaseGraph :=
  match g.specifics with
  | .UndirectedSpecifics vertexMapUndirected =>
    { g with specifics := .UndirectedSpecifics (mapInsert v NULL vertexMapUndirected) }
  | .DirectedSpecifics _ => g

/-- The function `UndirectedSpecifics::getEdgeContainer`.  When the map holds
`NULL` for the vertex a new container is allocated and handed to
`vertexMapUndirected->insert`, and the new container is returned. -/
def UndirectedSpecifics.getEdgeContainer (g : AbstractBaseGraph) (vertex : Nat) : Outcome Nat :=
  (assertVertexExist g vertex).bind fun _ g =>
    match g.specifics with
    | .UndirectedSpecifics vertexMapUndirected =>
      match mapFind vertex vertexMapUndirected with
      | none => .undefined
      | some stored =>
        if stored = NULL then
          let ec := g.undirectedContainers.length + 1
          .returns ec { g with
            undirectedContainers := g.undirectedContainers ++ [⟨[]⟩]
            specifics := .UndirectedSpecifics (mapInsert vertex ec vertexMapUndirected) }
        else .returns stored g
    | .DirectedSpecifics _ => .undefined

/-- Applies a member function of `UndirectedEdgeContainer` through the pointer
`ec`. -/
def UndirectedSpecifics.update (g : AbstractBaseGraph) (ec : Nat)
    (f : UndirectedEdgeContainer → UndirectedEdgeContainer) : Outcome Unit :=
  match load g.undirectedContainers ec with
  | none => .undefined
  | some c => .returns () { g with undirectedContainers := store g.undirectedContainers ec (f c) }

/-- The function `UndirectedEdgeContainer::addEdge`. -/
def UndirectedEdgeContainer.addEdge (c : UndirectedEdgeContainer) (e : Nat) :
    UndirectedEdgeContainer :=
  { c with vertexEdges := setInsert e c.vertexEdges }

/-- The function `UndirectedEdgeContainer::removeEdge`. -/
def UndirectedEdgeContainer.removeEdge (c : UndirectedEdgeContainer) (e : Nat) :
    UndirectedEdgeContainer :=
  { c with vertexEdges := setErase e c.vertexEdges }

/-- The function `UndirectedEdgeContainer::edgeCount`. -/
def UndirectedEdgeContainer.edgeCount (c : UndirectedEdgeContainer) : Nat :=
  c.vertexEdges.length

/-- The test `equalStraight || equalInverted` of the undirected lookups; `none`
when the endpoint lookup of the edge is undefined. -/
def UndirectedSpecifics.connects (g : AbstractBaseGraph) (sourceVertex targetVertex e : Nat) :
    Option Bool :=
  match getEdgeSource g e, getEdgeTarget g e with
  | some s, some t =>
    some ((sourceVertex == s && targetVertex == t) || (sourceVertex == t && targetVertex == s))
  | _, _ => none

/-- The loop of `UndirectedSpecifics::getAllEdges`.  The iterator walks the set
of the container `first`; before every step the loop condition calls
`getEdgeContainer` again and compares the iterator with the end of the set of
the container that call returns, which is undefined when that is another
container. -/
def UndirectedSpecifics.getAllEdgesLoop (sourceVertex targetVertex first : Nat) :
    List Nat → List Nat → AbstractBaseGraph → Outcome SetRef
  | [], edges, g =>
    (UndirectedSpecifics.getEdgeContainer g sourceVertex).bind fun last g =>
      if last = first then .returns (.fresh edges) g else .undefined
  | e :: rest, edges, g =>
    (UndirectedSpecifics.getEdgeContainer g sourceVertex).bind fun last g =>
      if last = first then
        match UndirectedSpecifics.connects g sourceVertex targetVertex e with
        | none => .undefined
        | some true =>
          UndirectedSpecifics.getAllEdgesLoop sourceVertex targetVertex first rest
            (setInsert e edges) g
        | some false =>
          UndirectedSpecifics.getAllEdgesLoop sourceVertex targetVertex first rest edges g
      else .undefined

/-- The function `UndirectedSpecifics::getAllEdges`. -/
def UndirectedSpecifics.getAllEdges (g : AbstractBaseGraph) (sourceVertex targetVertex : Nat) :
    Outcome SetRef :=
  if containsVertex g sourceVertex && containsVertex g targetVertex then
    (UndirectedSpecifics.getEdgeContainer g sourceVertex).bind fun first g =>
      match load g.undirectedContainers first with
      | none => .undefined
      | some c =>
        UndirectedSpecifics.getAllEdgesLoop sourceVertex targetVertex first c.vertexEdges [] g
  else .returns .null g

/-- The loop of `UndirectedSpecifics::getEdge`, with the same loop condition as
the loop of `getAllEdges`. -/
def UndirectedSpecifics.getEdgeLoop (sourceVertex targetVertex first : Nat) :
    List Nat → AbstractBaseGraph → Outcome Nat
  | [], g =>
    (UndirectedSpecifics.getEdgeContainer g sourceVertex).bind fun last g =>
      if last = first then .returns NULL g else .undefined
  | e :: rest, g =>
    (UndirectedSpecifics.getEdgeContainer g sourceVertex).bind fun last g =>
      if last = first then
        match UndirectedSpecifics.connects g sourceVertex targetVertex e with
        | none => .undefined
        | some true => .returns e g
        | some false => UndirectedSpecifics.getEdgeLoop sourceVertex targetVertex first rest g
      else .undefined

/-- The function `UndirectedSpecifics::getEdge`. -/
def UndirectedSpecifics.getEdge (g : AbstractBaseGraph) (sourceVertex targetVertex : Nat) :
    Outcome Nat :=
  if containsVertex g sourceVertex && containsVertex g targetVertex then
    (UndirectedSpecifics.getEdgeContainer g sourceVertex).bind fun first g =>
      match load g.undirectedContainers first with
      | none => .undefined
      | some c => UndirectedSpecifics.getEdgeLoop sourceVertex targetVertex first c.vertexEdges g
  else .returns NULL g

/-- The function `UndirectedSpecifics::addEdgeToTouchingVertices`. -/
def UndirectedSpecifics.addEdgeToTouchingVertices (g : AbstractBaseGraph) (e : Nat) :
    Outcome Unit :=
  match getEdgeSource g e, getEdgeTarget g e with
  | some source, some target =>
    (UndirectedSpecifics.getEdgeContainer g source).bind fun ec g =>
    (UndirectedSpecifics.update g ec (fun c => c.addEdge e)).bind fun _ g =>
      if source ≠ target then
        (UndirectedSpecifics.getEdgeContainer g target).bind fun ec g =>
          UndirectedSpecifics.update g ec (fun c => c.addEdge e)
      else .returns () g
  | _, _ => .undefined

/-- The function `UndirectedSpecifics::removeEdgeFromTouchingVertices`. -/
def UndirectedSpecifics.removeEdgeFromTouchingVertices (g : AbstractBaseGraph) (e : Nat) :
    Outcome Unit :=
  match getEdgeSource g e, getEdgeTarget g e with
  | some source, some target =>
    (UndirectedSpecifics.getEdgeContainer g source).bind fun ec g =>
    (UndirectedSpecifics.update g ec (fun c => c.removeEdge e)).bind fun _ g =>
      if source ≠ target then
        (UndirectedSpecifics.getEdgeContainer g target).bind fun ec g =>
          UndirectedSpecifics.update g ec (fun c => c.removeEdge e)
      else .returns () g
  | _, _ => .undefined

/-- The counting loop of `UndirectedSpecifics::degreeOf`. -/
def UndirectedSpecifics.degreeOfLoop (g : AbstractBaseGraph) : List Nat → Nat → Option Nat
  | [], degree => some degree
  | e :: rest, degree =>
    match getEdgeSource g e, getEdgeTarget g e with
    | some s, some t =>
      if s = t then UndirectedSpecifics.degreeOfLoop g rest (degree + 2)
      else UndirectedSpecifics.degreeOfLoop g rest (degree + 1)
    | _, _ => none

/-- The function `UndirectedSpecifics::degreeOf`. -/
def UndirectedSpecifics.degreeOf (g : AbstractBaseGraph) (vertex : Nat) : Outcome Nat :=
  if g.allowingLoops then
    (UndirectedSpecifics.getEdgeContainer g vertex).bind fun ec g =>
      match load g.undirectedContainers ec with
      | none => .undefined
      | some c =>
        match UndirectedSpecifics.degreeOfLoop g c.vertexEdges 0 with
        | none => .undefined
        | some degree => .returns degree g
  else
    (UndirectedSpecifics.getEdgeContainer g vertex).bind fun ec g =>
      match load g.undirectedContainers ec with
      | none => .undefined
      | some c => .returns c.edgeCount g

/-- The function `UndirectedSpecifics::edgesOf`: the live set of the container. -/
def UndirectedSpecifics.edgesOf (g : AbstractBaseGraph) (vertex : Nat) : Outcome SetRef :=
  (UndirectedSpecifics.getEdgeContainer g vertex).bind fun ec g => .returns (.vertexEdges ec) g

/-- The functions `inDegreeOf`, `incomingEdgesOf`, `outDegreeOf` and
`outgoingEdgesOf` of `UndirectedSpecifics`, which all throw. -/
def UndirectedSpecifics.noSuchOperation {α : Type} (g : AbstractBaseGraph) : Outcome α :=
  .throws (.logic_error "No such operation in an undirected graph") g

/-! ## The container -/

/-- The state after the constructor `AbstractBaseGraph(ef, allowMultipleEdges,
allowLoops, directed)` called with a non-null edge factory. -/
def AbstractBaseGraph.create (allowMultipleEdges allowLoops directed : Bool) :
    AbstractBaseGraph where
  edgeMap := []
  unmodifiableEdgeSet := none
  unmodifiableVertexSet := none
  allowingMultipleEdges := allowMultipleEdges
  specifics := if directed then .DirectedSpecifics [] else .UndirectedSpecifics []
  allowingLoops := allowLoops
  intrusiveEdges := []
  directedContainers := []
  undirectedContainers := []

/-- The function `AbstractBaseGraph::getAllEdges`. -/
def getAllEdges (g : AbstractBaseGraph) (sourceVertex targetVertex : Nat) : Outcome SetRef :=
  match g.specifics with
  | .DirectedSpecifics _ => DirectedSpecifics.getAllEdges g sourceVertex targetVertex
  | .UndirectedSpecifics _ => UndirectedSpecifics.getAllEdges g sourceVertex targetVertex

/-- The function `AbstractBaseGraph::getEdge`. -/
def getEdge (g : AbstractBaseGraph) (sourceVertex targetVertex : Nat) : Outcome Nat :=
  match g.specifics with
  | .DirectedSpecifics _ => DirectedSpecifics.getEdge g sourceVertex targetVertex
  | .UndirectedSpecifics _ => UndirectedSpecifics.getEdge g sourceVertex targetVertex

/-- The function `AbstractGraph::containsEdgeV`. -/
def containsEdgeV (g : AbstractBaseGraph) (sourceVertex targetVertex : Nat) : Outcome Bool :=
  (getEdge g sourceVertex targetVertex).bind fun e g => .returns (e != NULL) g

/-- The virtual call `specifics->addEdgeToTouchingVertices(e)`. -/
def addEdgeToTouchingVertices (g : AbstractBaseGraph) (e : Nat) : Outcome Unit :=
  match g.specifics with
  | .DirectedSpecifics _ => DirectedSpecifics.addEdgeToTouchingVertices g e
  | .UndirectedSpecifics _ => UndirectedSpecifics.addEdgeToTouchingVertices g e

/-- The virtual call `specifics->removeEdgeFromTouchingVertices(e)`. -/
def removeEdgeFromTouchingVertices (g : AbstractBaseGraph) (e : Nat) : Outcome Unit :=
  match g.specifics with
  | .DirectedSpecifics _ => DirectedSpecifics.removeEdgeFromTouchingVertices g e
  | .UndirectedSpecifics _ => UndirectedSpecifics.removeEdgeFromTouchingVertices g e

/-- The function `AbstractBaseGraph::createIntrusiveEdge`: the `typeid` test is
false, so a new `IntrusiveEdge` is allocated and its two fields are set. -/
def createIntrusiveEdge (g : AbstractBaseGraph) (_e sourceVertex targetVertex : Nat) :
    Outcome Nat :=
  .returns (g.intrusiveEdges.length + 1)
    { g with intrusiveEdges := g.intrusiveEdges ++ [⟨sourceVertex, targetVertex⟩] }

/-- The function `AbstractBaseGraph::addEdge(V*, V*)`.  The argument `created`
is the pointer that `edgeFactory->createEdge(sourceVertex, targetVertex)`
returns in this call. -/
def addEdge (g : AbstractBaseGraph) (sourceVertex targetVertex created : Nat) : Outcome Nat :=
  (assertVertexExist g sourceVertex).bind fun _ g =>
  (assertVertexExist g targetVertex).bind fun _ g =>
  (if !g.allowingMultipleEdges then containsEdgeV g sourceVertex targetVertex
    else .returns false g).bind fun connected g =>
    if connected then .returns NULL g
    else if !g.allowingLoops && sourceVertex == targetVertex then
      .throws (.invalid_argument "Loops not allowed") g
    else
      let e := created
      if containsEdge g e then .returns NULL g
      else
        (createIntrusiveEdge g e sourceVertex targetVertex).bind fun intrusiveEdge g =>
        (addEdgeToTouchingVertices
          { g with edgeMap := mapInsert e intrusiveEdge g.edgeMap } e).bind fun _ g =>
          .returns e g

/-- The function `AbstractBaseGraph::addEdge(V*, V*, E*)`. -/
def addEdgeE (g : AbstractBaseGraph) (sourceVertex targetVertex e : Nat) : Outcome Bool :=
  if e = NULL then .throws (.invalid_argument "NULL-pointer given for e") g
  else if containsEdge g e then .returns false g
  else
    (assertVertexExist g sourceVertex).bind fun _ g =>
    (assertVertexExist g targetVertex).bind fun _ g =>
    (if !g.allowingMultipleEdges then containsEdgeV g sourceVertex targetVertex
      else .returns false g).bind fun connected g =>
      if connected then .returns false g
      else if !g.allowingLoops && sourceVertex == targetVertex then
        .throws (.invalid_argument "Loops not allowed") g
      else
        (createIntrusiveEdge g e sourceVertex targetVertex).bind fun intrusiveEdge g =>
        (addEdgeToTouchingVertices
          { g with edgeMap := mapInsert e intrusiveEdge g.edgeMap } e).bind fun _ g =>
          .returns true g

/-- The function `AbstractBaseGraph::addVertex`. -/
def addVertex (g : AbstractBaseGraph) (v : Nat) : Outcome Bool :=
  if v = NULL then .throws (.invalid_argument "NULL-pointer given for v") g
  else if containsVertex g v then .returns false g
  else
    match g.specifics with
    | .DirectedSpecifics _ => .returns true (DirectedSpecifics.addVertex g v)
    | .UndirectedSpecifics _ => .returns true (UndirectedSpecifics.addVertex g v)

/-- The function `AbstractBaseGraph::degreeOf`. -/
def degreeOf (g : AbstractBaseGraph) (vertex : Nat) : Outcome Nat :=
  match g.specifics with
  | .DirectedSpecifics _ => DirectedSpecifics.degreeOf g vertex
  | .UndirectedSpecifics _ => UndirectedSpecifics.degreeOf g vertex

/-- The loop of `AbstractBaseGraph::edgeSet`: inserts the mapped value
`iter->second` of every entry of the edge map. -/
def collectValues : List (Nat × Nat) → List Nat → List Nat
  | [], eset => eset
  | p :: m, eset => collectValues m (setInsert p.2 eset)

/-- The function `AbstractBaseGraph::edgeSet`.  While `unmodifiableEdgeSet` is
null a new set is built and returned; the assignment to the field stands after
the `return` and is never executed.  The elements are the addresses of the
`IntrusiveEdge` objects, cast to `E*`. -/
def edgeSet (g : AbstractBaseGraph) : List Nat :=
  match g.unmodifiableEdgeSet with
  | none => collectValues g.edgeMap []
  | some eset => eset

/-- The function `AbstractBaseGraph::edgesOf`. -/
def edgesOf (g : AbstractBaseGraph) (vertex : Nat) : Outcome SetRef :=
  match g.specifics with
  | .DirectedSpecifics _ => DirectedSpecifics.edgesOf g vertex
  | .UndirectedSpecifics _ => UndirectedSpecifics.edgesOf g vertex

/-- The function `AbstractBaseGraph::inDegreeOf`. -/
def inDegreeOf (g : AbstractBaseGraph) (vertex : Nat) : Outcome Nat :=
  match g.specifics with
  | .DirectedSpecifics _ => DirectedSpecifics.inDegreeOf g vertex
  | .UndirectedSpecifics _ => UndirectedSpecifics.noSuchOperation g

/-- The function `AbstractBaseGraph::incomingEdgesOf`. -/
def incomingEdgesOf (g : AbstractBaseGraph) (vertex : Nat) : Outcome SetRef :=
  match g.specifics with
  | .DirectedSpecifics _ => DirectedSpecifics.incomingEdgesOf g vertex
  | .UndirectedSpecifics _ => UndirectedSpecifics.noSuchOperation g

/-- The function `AbstractBaseGraph::outDegreeOf`. -/
def outDegreeOf (g : AbstractBaseGraph) (vertex : Nat) : Outcome Nat :=
  match g.specifics with
  | .DirectedSpecifics _ => DirectedSpecifics.outDegreeOf g vertex
  | .UndirectedSpecifics _ => UndirectedSpecifics.noSuchOperation g

/-- The function `AbstractBaseGraph::outgoingEdgesOf`. -/
def outgoingEdgesOf (g : AbstractBaseGraph) (vertex : Nat) : Outcome SetRef :=
  match g.specifics with
  | .DirectedSpecifics _ => DirectedSpecifics.outgoingEdgesOf g vertex
  | .UndirectedSpecifics _ => UndirectedSpecifics.noSuchOperation g

/-- The function `AbstractBaseGraph::removeEdge(V*, V*)`. -/
def removeEdgeV (g : AbstractBaseGraph) (sourceVertex targetVertex : Nat) : Outcome Nat :=
  (getEdge g sourceVertex targetVertex).bind fun e g =>
    if e ≠ NULL then
      (removeEdgeFromTouchingVertices g e).bind fun _ g =>
        .returns e { g with edgeMap := mapErase e g.edgeMap }
    else .returns e g

/-- The function `AbstractBaseGraph::removeEdge(E*)`. -/
def removeEdge (g : AbstractBaseGraph) (e : Nat) : Outcome Bool :=
  if containsEdge g e then
    (removeEdgeFromTouchingVertices g e).bind fun _ g =>
      .returns true { g with edgeMap := mapErase e g.edgeMap }
  else .returns false g

/-- The loop of `AbstractGraph::removeAllEdges(set<E*>*)` over the set `edges`,
of which `rest` is what the iterator has not visited yet.  The body removes the
edge under the iterator from the graph; when that erases the element from the
very set the loop walks, the iterator is invalid and advancing it is
undefined. -/
def removeAllEdgesLoop (edges : SetRef) :
    List Nat → Bool → AbstractBaseGraph → Outcome Bool
  | [], modified, g => .returns modified g
  | e :: rest, modified, g =>
    (removeEdge g e).bind fun removed g =>
      match deref g edges with
      | none => .undefined
      | some now =>
        if e ∈ now then removeAllEdgesLoop edges rest (modified || removed) g
        else .undefined

/-- The function `AbstractGraph::removeAllEdges(set<E*>*)`. -/
def removeAllEdges (g : AbstractBaseGraph) (edges : SetRef) : Outcome Bool :=
  match deref g edges with
  | none => .undefined
  | some elements => removeAllEdgesLoop edges elements false g

/-- The function `AbstractBaseGraph::removeVertex`.  The statement
`specifics->getVertexSet()->erase(v)` erases `v` from the set that
`getVertexSet` has just built, which no one else refers to; the vertex map is
not touched. -/
def removeVertex (g : AbstractBaseGraph) (v : Nat) : Outcome Bool :=
  if containsVertex g v then
    (edgesOf g v).bind fun touchingEdgesList g =>
    (removeAllEdges g touchingEdgesList).bind fun _ g =>
      let _erased := setErase v g.specifics.getVertexSet
      .returns true g
  else .returns false g

/-- The function `AbstractBaseGraph::vertexSet`: the set built at the first
call is kept in `unmodifiableVertexSet` and returned by every later call. -/
def vertexSet (g : AbstractBaseGraph) : Outcome (List Nat) :=
  match g.unmodifiableVertexSet with
  | none =>
    let vset := g.specifics.getVertexSet
    .returns vset { g with unmodifiableVertexSet := some vset }
  | some vset => .returns vset g

/-! ## Sequences of calls -/

/-- The mutating calls of the public contract. -/
inductive Call where
  | addVertex (v : Nat)
  | addEdge (sourceVertex targetVertex created : Nat)
  | addEdgeE (sourceVertex targetVertex e : Nat)
  | removeEdgeV (sourceVertex targetVertex : Nat)
  | removeEdge (e : Nat)
  | removeVertex (v : Nat)
deriving DecidableEq, Repr

/-- The state after a call that returns or throws; `none` when the behaviour of
the call is undefined. -/
def Call.run (g : AbstractBaseGraph) : Call → Option AbstractBaseGraph
  | .addVertex v => (VPC.addVertex g v).state
  | .addEdge s t created => (VPC.addEdge g s t created).state
  | .addEdgeE s t e => (VPC.addEdgeE g s t e).state
  | .removeEdgeV s t => (VPC.removeEdgeV g s t).state
  | .removeEdge e => (VPC.removeEdge g e).state
  | .removeVertex v => (VPC.removeVertex g v).state

/-- The state after a sequence of calls, each of which returns or throws. -/
def runCalls (g : AbstractBaseGraph) : List Call → Option AbstractBaseGraph
  | [] => some g
  | c :: cs =>
    match c.run g with
    | none => none
    | some g1 => runCalls g1 cs

/-- The states reachable from a freshly constructed container by a finite
sequence of `addVertex`, `addEdge`, `removeEdge` and `removeVertex` calls. -/
inductive Reachable : AbstractBaseGraph → Prop where
  | create (allowMultipleEdges allowLoops directed : Bool) :
    Reachable (AbstractBaseGraph.create allowMultipleEdges allowLoops directed)
  | call {g g1 : AbstractBaseGraph} (c : Call) :
    Reachable g → c.run g = some g1 → Reachable g1

/-- The vertex map of the active strategy. -/
def Specifics.vertexMap : Specifics → List (Nat × Nat)
  | .DirectedSpecifics vertexMapDirected => vertexMapDirected
  | .UndirectedSpecifics vertexMapUndirected => vertexMapUndirected

/-- The state without the heaps of edge containers: the edge map with the
endpoint records, the policy, the cached sets and the vertex map. -/
def AbstractBaseGraph.core (g : AbstractBaseGraph) : AbstractBaseGraph :=
  { g with directedContainers := [], undirectedContainers := [] }

/-- Every state in which the call can leave the container satisfies `P`. -/
def Outcome.Sat {α : Type} (o : Outcome α) (P : AbstractBaseGraph → Prop) : Prop :=
  ∀ g, o.state = some g → P g

/-- The call changes nothing but the heaps of edge containers. -/
def Frame {α : Type} (g : AbstractBaseGraph) (o : Outcome α) : Prop :=
  o.Sat (fun g1 => g1.core = g.core)

/-- Every entry of the edge map refers to an endpoint record whose source and
target are members of the vertex set and, when loops are not allowed, differ. -/
def EdgesSound (g : AbstractBaseGraph) : Prop :=
  ∀ e a, (e, a) ∈ g.edgeMap →
    ∃ ie, load g.intrusiveEdges a = some ie
      ∧ containsVertex g ie.source = true ∧ containsVertex g ie.target = true
      ∧ (g.allowingLoops = false → ie.source ≠ ie.target)

/-- A property of the state that the calls of the contract preserve: it does
not depend on the heaps of edge containers, and it survives the insertion of a
vertex into the vertex map, the registration of an edge between two member
vertices that the loop policy admits, and the erasure of an edge map entry. -/
structure Stable (P : AbstractBaseGraph → Prop) : Prop where
  of_core : ∀ g g1 : AbstractBaseGraph, g1.core = g.core → P g → P g1
  directedVertex : ∀ (g : AbstractBaseGraph) (v : Nat), P g → P (DirectedSpecifics.addVertex g v)
  undirectedVertex : ∀ (g : AbstractBaseGraph) (v : Nat),
    P g → P (UndirectedSpecifics.addVertex g v)
  register : ∀ (g : AbstractBaseGraph) (e s t : Nat), containsVertex g s = true →
    containsVertex g t = true → (g.allowingLoops = false → s ≠ t) → P g →
    P { g with
      intrusiveEdges := g.intrusiveEdges ++ [⟨s, t⟩]
      edgeMap := mapInsert e (g.intrusiveEdges.length + 1) g.edgeMap }
  erase : ∀ (g : AbstractBaseGraph) (e : Nat), P g → P { g with edgeMap := mapErase e g.edgeMap }

/-- The state after a sequence of calls; the start state when the behaviour of
one of the calls is undefined. -/
def after (g : AbstractBaseGraph) (calls : List Call) : AbstractBaseGraph :=
  (runCalls g calls).getD g

/-- The elements of the set that a query returns; `none` when the query does
not return, or returns a null pointer. -/
def elementsOf (o : Outcome SetRef) : Option (List Nat) :=
  match o with
  | .returns r g => deref g r
  | .throws _ _ => none
  | .undefined => none

/-- The vertex map holds the null pointer for every vertex: no edge container
has been stored. -/
def NoContainerStored (g : AbstractBaseGraph) : Prop :=
  ∀ p ∈ g.specifics.vertexMap, p.2 = NULL

/-- Every address held by the edge map was allocated in the heap of
`IntrusiveEdge` objects. -/
def ValuesAllocated (g : AbstractBaseGraph) : Prop :=
  ∀ p ∈ g.edgeMap, p.2 ≤ g.intrusiveEdges.length

/-- No two entries of the edge map have the same key. -/
def KeysDistinct (g : AbstractBaseGraph) : Prop :=
  (g.edgeMap.map Prod.fst).Nodup

/-! ## The remaining operations of `Graph` on the container -/

/-- The function `AbstractGraph::removeAllEdges(V*, V*)`. -/
def removeAllEdgesV (g : AbstractBaseGraph) (sourceVertex targetVertex : Nat) :
    Outcome SetRef :=
  (getAllEdges g sourceVertex targetVertex).bind fun removed g =>
    (removeAllEdges g removed).bind fun _ g => .returns removed g

/-- The loop of `AbstractGraph::removeAllVertices` over the elements of the
caller's set. -/
def removeAllVerticesLoop : List Nat → Bool → AbstractBaseGraph → Outcome Bool
  | [], modified, g => .returns modified g
  | v :: rest, modified, g =>
    (removeVertex g v).bind fun removed g =>
      removeAllVerticesLoop rest (modified || removed) g

/-- The function `AbstractGraph::removeAllVertices`.  The argument is the set
the caller's pointer refers to, `none` for a null pointer, on which
`vertices->begin()` is undefined. -/
def removeAllVertices (g : AbstractBaseGraph) (vertices : Option (List Nat)) : Outcome Bool :=
  match vertices with
  | none => .undefined
  | some elements => removeAllVerticesLoop elements false g

/-- What the container reads outside the state modelled here: the pointer
`edgeFactory` that the constructor stored, whether the edge class `E` is
`DefaultWeightedEdge<V>`, and the field `weight` of the edge object at an
address (`none` where no such object lives).  A `double` is only stored and
returned, never computed with; it is represented by a rational number. -/
structure Environment where
  edgeFactory : Nat
  weightedEdges : Bool
  weight : Nat → Option ℚ

/-- The constant `WeightedGraph::DEFAULT_EDGE_WEIGHT`. -/
def WeightedGraph.DEFAULT_EDGE_WEIGHT : ℚ := 1

/-- The function `AbstractBaseGraph::getEdgeFactory`. -/
def getEdgeFactory (env : Environment) (g : AbstractBaseGraph) : Outcome Nat :=
  .returns env.edgeFactory g

/-- The function `AbstractBaseGraph::getEdgeWeight`.  The test
`typeid(e) == typeid(DefaultWeightedEdge<V>*)` compares the static type `E*`
of the argument. -/
def getEdgeWeight (env : Environment) (g : AbstractBaseGraph) (e : Nat) : Outcome ℚ :=
  if env.weightedEdges then
    match env.weight e with
    | some w => .returns w g
    | none => .undefined
  else .returns WeightedGraph.DEFAULT_EDGE_WEIGHT g

/-! ## The delegator

`GraphDelegator` has one field, the pointer `delegate` to the backing graph,
and no storage of its own.  Its functions are written `delegate.f(...)`; with
`delegate` a pointer this is read as `delegate->f(...)`.  The functions below
take the state of the backing container in the place of the pointer. -/

/-- The function `GraphDelegator::getAllEdges`. -/
def GraphDelegator.getAllEdges (delegate : AbstractBaseGraph)
    (sourceVertex targetVertex : Nat) : Outcome SetRef :=
  VPC.getAllEdges delegate sourceVertex targetVertex

/-- The function `GraphDelegator::getEdge`. -/
def GraphDelegator.getEdge (delegate : AbstractBaseGraph)
    (sourceVertex targetVertex : Nat) : Outcome Nat :=
  VPC.getEdge delegate sourceVertex targetVertex

/-- The function `GraphDelegator::getEdgeFactory`. -/
def GraphDelegator.getEdgeFactory (env : Environment) (delegate : AbstractBaseGraph) :
    Outcome Nat :=
  VPC.getEdgeFactory env delegate

/-- The function `GraphDelegator::addEdge(V*, V*)`; `created` is the edge that
the factory of the backing graph builds in this call. -/
def GraphDelegator.addEdge (delegate : AbstractBaseGraph)
    (sourceVertex targetVertex created : Nat) : Outcome Nat :=
  VPC.addEdge delegate sourceVertex targetVertex created

/-- The function `GraphDelegator::addEdge(V*, V*, E*)`. -/
def GraphDelegator.addEdgeE (delegate : AbstractBaseGraph)
    (sourceVertex targetVertex e : Nat) : Outcome Bool :=
  VPC.addEdgeE delegate sourceVertex targetVertex e

/-- The function `GraphDelegator::addVertex`. -/
def GraphDelegator.addVertex (delegate : AbstractBaseGraph) (v : Nat) : Outcome Bool :=
  VPC.addVertex delegate v

/-- The function `GraphDelegator::containsEdge`. -/
def GraphDelegator.containsEdge (delegate : AbstractBaseGraph) (e : Nat) : Bool :=
  VPC.containsEdge delegate e

/-- The function `GraphDelegator::containsVertex`. -/
def GraphDelegator.containsVertex (delegate : AbstractBaseGraph) (v : Nat) : Bool :=
  VPC.containsVertex delegate v

/-- The function `GraphDelegator::edgeSet`. -/
def GraphDelegator.edgeSet (delegate : AbstractBaseGraph) : List Nat :=
  VPC.edgeSet delegate

/-- The function `GraphDelegator::edgesOf`. -/
def GraphDelegator.edgesOf (delegate : AbstractBaseGraph) (vertex : Nat) : Outcome SetRef :=
  VPC.edgesOf delegate vertex

/-- The function `GraphDelegator::removeEdge(E*)`. -/
def GraphDelegator.removeEdge (delegate : AbstractBaseGraph) (e : Nat) : Outcome Bool :=
  VPC.removeEdge delegate e

/-- The function `GraphDelegator::removeEdge(V*, V*)`. -/
def GraphDelegator.removeEdgeV (delegate : AbstractBaseGraph)
    (sourceVertex targetVertex : Nat) : Outcome Nat :=
  VPC.removeEdgeV delegate sourceVertex targetVertex

/-- The function `GraphDelegator::removeVertex`. -/
def GraphDelegator.removeVertex (delegate : AbstractBaseGraph) (v : Nat) : Outcome Bool :=
  VPC.removeVertex delegate v

/-- The function `GraphDelegator::vertexSet`. -/
def GraphDelegator.vertexSet (delegate : AbstractBaseGraph) : Outcome (List Nat) :=
  VPC.vertexSet delegate

/-- The function `GraphDelegator::getEdgeSource`. -/
def GraphDelegator.getEdgeSource (delegate : AbstractBaseGraph) (e : Nat) : Option Nat :=
  VPC.getEdgeSource delegate e

/-- The function `GraphDelegator::getEdgeTarget`. -/
def GraphDelegator.getEdgeTarget (delegate : AbstractBaseGraph) (e : Nat) : Option Nat :=
  VPC.getEdgeTarget delegate e

/-- The function `GraphDelegator::getEdgeWeight`. -/
def GraphDelegator.getEdgeWeight (env : Environment) (delegate : AbstractBaseGraph)
    (e : Nat) : Outcome ℚ :=
  VPC.getEdgeWeight env delegate e

/-- The function `AbstractGraph::containsEdgeV`, which the delegator inherits:
it calls the delegator's own `getEdge`. -/
def GraphDelegator.containsEdgeV (delegate : AbstractBaseGraph)
    (sourceVertex targetVertex : Nat) : Outcome Bool :=
  (GraphDelegator.getEdge delegate sourceVertex targetVertex).bind fun e g =>
    .returns (e != NULL) g

/-- The loop of `AbstractGraph::removeAllEdges(set<E*>*)` run on the delegator:
the body calls the delegator's own `removeEdge`. -/
def GraphDelegator.removeAllEdgesLoop (edges : SetRef) :
    List Nat → Bool → AbstractBaseGraph → Outcome Bool
  | [], modified, delegate => .returns modified delegate
  | e :: rest, modified, delegate =>
    (GraphDelegator.removeEdge delegate e).bind fun removed delegate =>
      match deref delegate edges with
      | none => .undefined
      | some now =>
        if e ∈ now then
          GraphDelegator.removeAllEdgesLoop edges rest (modified || removed) delegate
        else .undefined

/-- The function `AbstractGraph::removeAllEdges(set<E*>*)` run on the
delegator. -/
def GraphDelegator.removeAllEdges (delegate : AbstractBaseGraph) (edges : SetRef) :
    Outcome Bool :=
  match deref delegate edges with
  | none => .undefined
  | some elements => GraphDelegator.removeAllEdgesLoop edges elements false delegate

/-- The function `AbstractGraph::removeAllEdges(V*, V*)` run on the delegator:
it calls the delegator's own `getAllEdges` and `removeAllEdges`. -/
def GraphDelegator.removeAllEdgesV (delegate : AbstractBaseGraph)
    (sourceVertex targetVertex : Nat) : Outcome SetRef :=
  (GraphDelegator.getAllEdges delegate sourceVertex targetVertex).bind fun removed g =>
    (GraphDelegator.removeAllEdges g removed).bind fun _ g => .returns removed g

/-- The loop of `AbstractGraph::removeAllVertices` run on the delegator: the
body calls the delegator's own `removeVertex`. -/
def GraphDelegator.removeAllVerticesLoop :
    List Nat → Bool → AbstractBaseGraph → Outcome Bool
  | [], modified, delegate => .returns modified delegate
  | v :: rest, modified, delegate =>
    (GraphDelegator.removeVertex delegate v).bind fun removed delegate =>
      GraphDelegator.removeAllVerticesLoop rest (modified || removed) delegate

/-- The function `AbstractGraph::removeAllVertices` run on the delegator. -/
def GraphDelegator.removeAllVertices (delegate : AbstractBaseGraph)
    (vertices : Option (List Nat)) : Outcome Bool :=
  match vertices with
  | none => .undefined
  | some elements => GraphDelegator.removeAllVerticesLoop elements false delegate

/-- The call of `GraphDelegator::inDegreeOf`:
`((DirectedGraph<V, E>*) delegate).inDegreeOf(vertex)`.  This is the call that
follows the cast, on the container that the cast is meant to yield; what the
cast itself yields is `GraphDelegator.throughCast`. -/
def GraphDelegator.inDegreeOf (delegate : AbstractBaseGraph) (vertex : Nat) : Outcome Nat :=
  VPC.inDegreeOf delegate vertex

/-- The call of `GraphDelegator::outDegreeOf`, without its cast as in
`GraphDelegator.inDegreeOf`. -/
def GraphDelegator.outDegreeOf (delegate : AbstractBaseGraph) (vertex : Nat) : Outcome Nat :=
  VPC.outDegreeOf delegate vertex

/-! ## The undirected projection

`AsUndirectedGraph` derives from `GraphDelegator` and adds no field.  Its
functions call the delegator's functions with a qualified name, and take the
state of the backing directed container here. -/

/-- The text `NO_EDGE_ADD`. -/
def AsUndirectedGraph.NO_EDGE_ADD : String := "this graph does not support edge addition"

/-- The text `UNDIRECTED`. -/
def AsUndirectedGraph.UNDIRECTED : String := "this graph only supports undirected operations"

/-- The function `AsUndirectedGraph::getAllEdges`.  The test
`sourceVertex.equals(targetVertex)` is read as the comparison of the two
pointers.  For different vertices a second lookup follows; the pointer `list`
is declared without an initialiser and no set is allocated for it, so the two
loops insert through an indeterminate pointer and the function returns that
pointer: the behaviour is undefined from there on. -/
def AsUndirectedGraph.getAllEdges (delegate : AbstractBaseGraph)
    (sourceVertex targetVertex : Nat) : Outcome SetRef :=
  (GraphDelegator.getAllEdges delegate sourceVertex targetVertex).bind fun forwardList g =>
    if sourceVertex = targetVertex then .returns forwardList g
    else
      (GraphDelegator.getAllEdges g targetVertex sourceVertex).bind fun _reverseList _ =>
        .undefined

/-- The function `AsUndirectedGraph::getEdge`. -/
def AsUndirectedGraph.getEdge (delegate : AbstractBaseGraph)
    (sourceVertex targetVertex : Nat) : Outcome Nat :=
  (GraphDelegator.getEdge delegate sourceVertex targetVertex).bind fun edge g =>
    if edge ≠ NULL then .returns edge g
    else GraphDelegator.getEdge g targetVertex sourceVertex

/-- The function `AsUndirectedGraph::addEdge(V*, V*)`. -/
def AsUndirectedGraph.addEdge (delegate : AbstractBaseGraph)
    (_sourceVertex _targetVertex : Nat) : Outcome Nat :=
  .throws (.domain_error AsUndirectedGraph.NO_EDGE_ADD) delegate

/-- The function `AsUndirectedGraph::addEdge(V*, V*, E*)`. -/
def AsUndirectedGraph.addEdgeE (delegate : AbstractBaseGraph)
    (_sourceVertex _targetVertex _e : Nat) : Outcome Bool :=
  .throws (.domain_error AsUndirectedGraph.NO_EDGE_ADD) delegate

/-- The function `AsUndirectedGraph::degreeOf`: the sum of the delegator's
`inDegreeOf` and `outDegreeOf`, evaluated here from left to right.  The casts
inside the two functions are taken to yield the backing container here; as
they are written they do not (`GraphDelegator.throughCast`). -/
def AsUndirectedGraph.degreeOf (delegate : AbstractBaseGraph) (vertex : Nat) : Outcome Nat :=
  (GraphDelegator.inDegreeOf delegate vertex).bind fun inDegree g =>
    (GraphDelegator.outDegreeOf g vertex).bind fun outDegree g =>
      .returns (inDegree + outDegree) g

/-- The functions `inDegreeOf`, `incomingEdgesOf`, `outDegreeOf` and
`outgoingEdgesOf` of `AsUndirectedGraph`, which all throw. -/
def AsUndirectedGraph.directedOperation {α : Type} (delegate : AbstractBaseGraph) :
    Outcome α :=
  .throws (.domain_error AsUndirectedGraph.UNDIRECTED) delegate

/-! ## Helpers for outcomes -/

/-- The outcome with the returned value wrapped. -/
def Outcome.map {α β : Type} (f : α → β) (o : Outcome α) : Outcome β :=
  o.bind fun a g => .returns (f a) g

/-- The outcome of reading a field through a pointer that may be invalid. -/
def Outcome.ofOption {α : Type} (g : AbstractBaseGraph) : Option α → Outcome α
  | some a => .returns a g
  | none => .undefined

/-- Every address held by the edge map was allocated, and no two entries of
the edge map hold the same address. -/
def ValuesDistinct (g : AbstractBaseGraph) : Prop :=
  ValuesAllocated g ∧ (g.edgeMap.map Prod.snd).Nodup

/-! ## Edge weights -/

/-- The types that the `typeid` tests of the weight functions compare: the edge
class `E`, of which only whether it is `DefaultWeightedEdge<V>` matters, and
pointer types. -/
inductive TypeInfo where
  | DefaultWeightedEdge
  | otherEdgeClass
  | pointer (pointee : TypeInfo)
deriving DecidableEq, Repr

/-- The edge class `E` of the container. -/
def Environment.edgeClass (env : Environment) : TypeInfo :=
  if env.weightedEdges then .DefaultWeightedEdge else .otherEdgeClass

/-- The memory after the constructor `DefaultWeightedEdge()` has run on a new
object at the address `e`: its field `weight` holds `DEFAULT_EDGE_WEIGHT`. -/
def DefaultWeightedEdge.create (env : Environment) (e : Nat) : Environment :=
  { env with
    weight := fun x => if x = e then some WeightedGraph.DEFAULT_EDGE_WEIGHT else env.weight x }

/-- The function `AbstractBaseGraph::setEdgeWeight`.  The guard compares
`typeid(e)`, the type `E*` of the argument, with `typeid(DefaultWeightedEdge<V>)`,
the type of a class.  The value returned is the memory of edge objects after the
assignment to the field `weight`. -/
def setEdgeWeight (env : Environment) (g : AbstractBaseGraph) (e : Nat) (weight : ℚ) :
    Outcome Environment :=
  if TypeInfo.pointer env.edgeClass ≠ TypeInfo.DefaultWeightedEdge then
    .throws (.invalid_argument "Given edge is not a valid DefaultWeightedEdge") g
  else
    match env.weight e with
    | none => .undefined
    | some _ =>
      .returns { env with weight := fun x => if x = e then some weight else env.weight x } g

/-- What the program can do to the weight of an edge object: construct a
`DefaultWeightedEdge` at an address, or call `setEdgeWeight`. -/
inductive WeightEvent where
  | construct (e : Nat)
  | setEdgeWeight (e : Nat) (weight : ℚ)

/-- The memory of edge objects after one event; a call of `setEdgeWeight` that
throws leaves the memory as it was. -/
def WeightEvent.run (g : AbstractBaseGraph) (env : Environment) : WeightEvent → Environment
  | .construct e => DefaultWeightedEdge.create env e
  | .setEdgeWeight e weight =>
    match VPC.setEdgeWeight env g e weight with
    | .returns env1 _ => env1
    | .throws _ _ => env
    | .undefined => env

/-- The memory of edge objects after a sequence of events. -/
def runWeightEvents (g : AbstractBaseGraph) : Environment → List WeightEvent → Environment
  | env, [] => env
  | env, event :: rest => runWeightEvents g (event.run g env) rest

/-! ## The utilities of `Graphs`

The functions take the graph they are given as the state of a container.  The
source writes `edges(it)` and `vertices(it)` for the element under an iterator;
this is read as `*it`. -/

/-- The function `Graphs::testIncidence`; the second comparison is evaluated
only when the first is false. -/
def Graphs.testIncidence (g : AbstractBaseGraph) (e v : Nat) : Outcome Bool :=
  (Outcome.ofOption g (getEdgeSource g e)).bind fun source g =>
    if source = v then .returns true g
    else
      (Outcome.ofOption g (getEdgeTarget g e)).bind fun target g =>
        .returns (decide (target = v)) g

/-- The function `Graphs::getOppositeVertex`. -/
def Graphs.getOppositeVertex (g : AbstractBaseGraph) (e v : Nat) : Outcome Nat :=
  (Outcome.ofOption g (getEdgeSource g e)).bind fun source g =>
    (Outcome.ofOption g (getEdgeTarget g e)).bind fun target g =>
      if v = source then .returns target g
      else if v = target then .returns source g
      else .throws (.invalid_argument "no such vertex") g

/-- The loop of `Graphs::addAllVertices`. -/
def Graphs.addAllVerticesLoop : List Nat → Bool → AbstractBaseGraph → Outcome Bool
  | [], modified, destination => .returns modified destination
  | v :: rest, modified, destination =>
    (addVertex destination v).bind fun added destination =>
      Graphs.addAllVerticesLoop rest (modified || added) destination

/-- The function `Graphs::addAllVertices`; `vertices` is the set the pointer
refers to, `none` for a null pointer. -/
def Graphs.addAllVertices (destination : AbstractBaseGraph) (vertices : Option (List Nat)) :
    Outcome Bool :=
  match vertices with
  | none => .undefined
  | some elements => Graphs.addAllVerticesLoop elements false destination

/-- The loop of `Graphs::addAllEdges`.  The endpoints are read from the source
graph, whose state the loop does not change; the outcome carries the state of
the destination. -/
def Graphs.addAllEdgesLoop (source : AbstractBaseGraph) :
    List Nat → Bool → AbstractBaseGraph → Outcome Bool
  | [], modified, destination => .returns modified destination
  | e :: rest, modified, destination =>
    match getEdgeSource source e, getEdgeTarget source e with
    | some s, some t =>
      (addVertex destination s).bind fun _ destination =>
      (addVertex destination t).bind fun _ destination =>
      (addEdgeE destination s t e).bind fun added destination =>
        Graphs.addAllEdgesLoop source rest (modified || added) destination
    | _, _ => .undefined

/-- The function `Graphs::addAllEdges`; `edges` is the set the pointer refers
to, `none` for a null pointer. -/
def Graphs.addAllEdges (destination source : AbstractBaseGraph) (edges : Option (List Nat)) :
    Outcome Bool :=
  match edges with
  | none => .undefined
  | some elements => Graphs.addAllEdgesLoop source elements false destination

/-- The function `Graphs::addGraph` on two different containers.  The outcome
carries the state of the destination; the source changes only by the set that
its `vertexSet()` caches. -/
def Graphs.addGraph (destination source : AbstractBaseGraph) : Outcome Bool :=
  match vertexSet source with
  | .returns vertices source =>
    (Graphs.addAllVertices destination (some vertices)).bind fun modified destination =>
      (Graphs.addAllEdges destination source (some (edgeSet source))).bind
        fun added destination => .returns (modified || added) destination
  | .throws ex _ => .throws ex destination
  | .undefined => .undefined

/-- The adjacency queries of the active strategy return for the vertex `v` in
the state `g1` what they return in the state `g`, and they do return: the
incoming and outgoing sets and the two degrees with the directed strategy, the
set of touching edges and the degree with the undirected strategy. -/
def SameAdjacency (g g1 : AbstractBaseGraph) (v : Nat) : Prop :=
  match g.specifics with
  | .DirectedSpecifics _ =>
    elementsOf (incomingEdgesOf g1 v) = elementsOf (incomingEdgesOf g v)
    ∧ (elementsOf (incomingEdgesOf g v)).isSome = true
    ∧ elementsOf (outgoingEdgesOf g1 v) = elementsOf (outgoingEdgesOf g v)
    ∧ (elementsOf (outgoingEdgesOf g v)).isSome = true
    ∧ (inDegreeOf g1 v).value = (inDegreeOf g v).value
    ∧ ((inDegreeOf g v).value).isSome = true
    ∧ (outDegreeOf g1 v).value = (outDegreeOf g v).value
    ∧ ((outDegreeOf g v).value).isSome = true
  | .UndirectedSpecifics _ =>
    elementsOf (edgesOf g1 v) = elementsOf (edgesOf g v)
    ∧ (elementsOf (edgesOf g v)).isSome = true
    ∧ (degreeOf g1 v).value = (degreeOf g v).value
    ∧ ((degreeOf g v).value).isSome = true

/-! ## The casts of the delegator

Six functions of `GraphDelegator` reach the backing graph through a C-style
cast of `delegate`: `degreeOf` through `(UndirectedGraph<V, E>*)`, `inDegreeOf`,
`incomingEdgesOf`, `outDegreeOf` and `outgoingEdgesOf` through
`(DirectedGraph<V, E>*)`, `setEdgeWeight` through `(WeightedGraph<V, E>*)`.  Each
is embedded in two parts: the call that follows the cast (`GraphDelegator.degreeOf`
and so on) and the cast in front of it (`GraphDelegator.throughCast`). -/

/-- The classes of the graph hierarchy. -/
inductive GraphClass where
  | Graph
  | AbstractGraph
  | AbstractBaseGraph
  | DirectedGraph
  | UndirectedGraph
  | WeightedGraph
  | DefaultDirectedGraph
  | DefaultDirectedWeightedGraph
  | DirectedMultigraph
  | DirectedWeightedMultigraph
  | GraphDelegator
  | AsUndirectedGraph
deriving DecidableEq, Repr

/-- The direct base classes, as the class heads declare them.  In
`DirectedGraph.h` the base `Graph<V, E>` is commented out. -/
def GraphClass.bases : GraphClass → List GraphClass
  | .Graph => []
  | .AbstractGraph => [.Graph]
  | .AbstractBaseGraph => [.AbstractGraph]
  | .DirectedGraph => []
  | .UndirectedGraph => [.Graph]
  | .WeightedGraph => [.Graph]
  | .DefaultDirectedGraph => [.AbstractBaseGraph, .DirectedGraph]
  | .DefaultDirectedWeightedGraph => [.DefaultDirectedGraph, .WeightedGraph]
  | .DirectedMultigraph => [.AbstractBaseGraph, .DirectedGraph]
  | .DirectedWeightedMultigraph => [.DirectedMultigraph, .WeightedGraph]
  | .GraphDelegator => [.AbstractGraph, .Graph]
  | .AsUndirectedGraph => [.GraphDelegator, .UndirectedGraph]

/-- Whether `c` is `b` or reaches `b` in at most the given number of steps
along direct bases. -/
def GraphClass.derivesFromWithin : Nat → GraphClass → GraphClass → Bool
  | 0, c, b => decide (c = b)
  | n + 1, c, b => decide (c = b) || c.bases.any fun d => GraphClass.derivesFromWithin n d b

/-- Whether `c` is `b` or has `b` among its direct and indirect bases. -/
def GraphClass.derivesFrom (c b : GraphClass) : Bool :=
  GraphClass.derivesFromWithin 12 c b

/-- Whether the C-style cast `(Target*) p` of a pointer `p` of type `Source*`
is a `static_cast`: the two classes are related by inheritance.  Between
unrelated classes it is a `reinterpret_cast`, which leaves the address as it
is. -/
def cStyleCastIsStatic (source target : GraphClass) : Bool :=
  target.derivesFrom source || source.derivesFrom target

/-- Whether `(Target*) delegate` points to the backing container, an object of
the class `backing`.  The pointer `delegate` has the type `Graph<V, E>*` and
refers to the `Graph` base of the `AbstractGraph` base of the container.  The
cast yields the container when it is a `static_cast`, that `Graph` base is the
one of a `Target` (the class `Target` is `Graph` or derives from
`AbstractGraph`), and the container is a `Target`. -/
def GraphDelegator.castReachesBacking (target backing : GraphClass) : Bool :=
  cStyleCastIsStatic .Graph target
    && ((decide (target = .Graph) || target.derivesFrom .AbstractGraph)
      && backing.derivesFrom target)

/-- A member call through `(Target*) delegate`: the call on the backing
container when the cast yields it; otherwise the function is called for an
object that is not a `Target`, which is undefined. -/
def GraphDelegator.throughCast {α : Type} (target backing : GraphClass) (call : Outcome α) :
    Outcome α :=
  if GraphDelegator.castReachesBacking target backing then call else .undefined

/-- The call of `GraphDelegator::degreeOf`, which follows the cast
`(UndirectedGraph<V, E>*) delegate`. -/
def GraphDelegator.degreeOf (delegate : AbstractBaseGraph) (vertex : Nat) : Outcome Nat :=
  VPC.degreeOf delegate vertex

/-- The call of `GraphDelegator::incomingEdgesOf`, which follows the cast
`(DirectedGraph<V, E>*) delegate`. -/
def GraphDelegator.incomingEdgesOf (delegate : AbstractBaseGraph) (vertex : Nat) :
    Outcome SetRef :=
  VPC.incomingEdgesOf delegate vertex

/-- The call of `GraphDelegator::outgoingEdgesOf`, which follows the cast
`(DirectedGraph<V, E>*) delegate`. -/
def GraphDelegator.outgoingEdgesOf (delegate : AbstractBaseGraph) (vertex : Nat) :
    Outcome SetRef :=
  VPC.outgoingEdgesOf delegate vertex

/-- The call of `GraphDelegator::setEdgeWeight`, which follows the cast
`(WeightedGraph<V, E>*) delegate`. -/
def GraphDelegator.setEdgeWeight (env : Environment) (delegate : AbstractBaseGraph)
    (e : Nat) (weight : ℚ) : Outcome Environment :=
  VPC.setEdgeWeight env delegate e weight

/-! ## The functions of the delegator as data -/

/-- A call of one of the functions of `GraphDelegator`, with its arguments: the
21 functions that the class `Graph` declares, and the six that the delegator
implements through a cast.  `created` is the edge the factory of the container
builds in the call; `vertices` is the caller's set of vertices, `none` for a
null pointer. -/
inductive Operation where
  | getAllEdges (sourceVertex targetVertex : Nat)
  | getEdge (sourceVertex targetVertex : Nat)
  | getEdgeFactory
  | addEdge (sourceVertex targetVertex created : Nat)
  | addEdgeE (sourceVertex targetVertex e : Nat)
  | addVertex (v : Nat)
  | containsEdgeV (sourceVertex targetVertex : Nat)
  | containsEdge (e : Nat)
  | containsVertex (v : Nat)
  | edgeSet
  | edgesOf (vertex : Nat)
  | removeAllEdges (edges : SetRef)
  | removeAllEdgesV (sourceVertex targetVertex : Nat)
  | removeAllVertices (vertices : Option (List Nat))
  | removeEdgeV (sourceVertex targetVertex : Nat)
  | removeEdge (e : Nat)
  | removeVertex (v : Nat)
  | vertexSet
  | getEdgeSource (e : Nat)
  | getEdgeTarget (e : Nat)
  | getEdgeWeight (e : Nat)
  | degreeOf (vertex : Nat)
  | inDegreeOf (vertex : Nat)
  | incomingEdgesOf (vertex : Nat)
  | outDegreeOf (vertex : Nat)
  | outgoingEdgesOf (vertex : Nat)
  | setEdgeWeight (e : Nat) (weight : ℚ)
deriving DecidableEq, Repr

/-- Whether the function is one of those that the class `Graph` declares. -/
def Operation.declaredByGraph : Operation → Bool
  | .degreeOf _ => false
  | .inDegreeOf _ => false
  | .incomingEdgesOf _ => false
  | .outDegreeOf _ => false
  | .outgoingEdgesOf _ => false
  | .setEdgeWeight _ _ => false
  | _ => true

/-- What a call returns: a truth value, a pointer to a vertex, an edge or the
factory, a pointer to a set of edges, the elements of a set built for the
caller, a weight, a degree, or for `setEdgeWeight` the field `weight` of the
edge objects after the call. -/
inductive Answer where
  | flag (b : Bool)
  | pointer (p : Nat)
  | set (r : SetRef)
  | elements (l : List Nat)
  | weight (w : ℚ)
  | number (n : Nat)
  | memory (weight : Nat → Option ℚ)

/-- The call issued on the container itself. -/
def Operation.run (env : Environment) (g : AbstractBaseGraph) : Operation → Outcome Answer
  | .getAllEdges s t => (VPC.getAllEdges g s t).map .set
  | .getEdge s t => (VPC.getEdge g s t).map .pointer
  | .getEdgeFactory => (VPC.getEdgeFactory env g).map .pointer
  | .addEdge s t created => (VPC.addEdge g s t created).map .pointer
  | .addEdgeE s t e => (VPC.addEdgeE g s t e).map .flag
  | .addVertex v => (VPC.addVertex g v).map .flag
  | .containsEdgeV s t => (VPC.containsEdgeV g s t).map .flag
  | .containsEdge e => .returns (.flag (VPC.containsEdge g e)) g
  | .containsVertex v => .returns (.flag (VPC.containsVertex g v)) g
  | .edgeSet => .returns (.elements (VPC.edgeSet g)) g
  | .edgesOf v => (VPC.edgesOf g v).map .set
  | .removeAllEdges edges => (VPC.removeAllEdges g edges).map .flag
  | .removeAllEdgesV s t => (VPC.removeAllEdgesV g s t).map .set
  | .removeAllVertices vertices => (VPC.removeAllVertices g vertices).map .flag
  | .removeEdgeV s t => (VPC.removeEdgeV g s t).map .pointer
  | .removeEdge e => (VPC.removeEdge g e).map .flag
  | .removeVertex v => (VPC.removeVertex g v).map .flag
  | .vertexSet => (VPC.vertexSet g).map .elements
  | .getEdgeSource e => (Outcome.ofOption g (VPC.getEdgeSource g e)).map .pointer
  | .getEdgeTarget e => (Outcome.ofOption g (VPC.getEdgeTarget g e)).map .pointer
  | .getEdgeWeight e => (VPC.getEdgeWeight env g e).map .weight
  | .degreeOf v => (VPC.degreeOf g v).map .number
  | .inDegreeOf v => (VPC.inDegreeOf g v).map .number
  | .incomingEdgesOf v => (VPC.incomingEdgesOf g v).map .set
  | .outDegreeOf v => (VPC.outDegreeOf g v).map .number
  | .outgoingEdgesOf v => (VPC.outgoingEdgesOf g v).map .set
  | .setEdgeWeight e weight =>
    (VPC.setEdgeWeight env g e weight).map fun env1 => .memory env1.weight

/-- The call issued on a delegator whose `delegate` points to a container of
the class `backing` in the state `delegate`. -/
def Operation.runOnDelegator (env : Environment) (backing : GraphClass)
    (delegate : AbstractBaseGraph) : Operation → Outcome Answer
  | .getAllEdges s t => (GraphDelegator.getAllEdges delegate s t).map .set
  | .getEdge s t => (GraphDelegator.getEdge delegate s t).map .pointer
  | .getEdgeFactory => (GraphDelegator.getEdgeFactory env delegate).map .pointer
  | .addEdge s t created => (GraphDelegator.addEdge delegate s t created).map .pointer
  | .addEdgeE s t e => (GraphDelegator.addEdgeE delegate s t e).map .flag
  | .addVertex v => (GraphDelegator.addVertex delegate v).map .flag
  | .containsEdgeV s t => (GraphDelegator.containsEdgeV delegate s t).map .flag
  | .containsEdge e => .returns (.flag (GraphDelegator.containsEdge delegate e)) delegate
  | .containsVertex v => .returns (.flag (GraphDelegator.containsVertex delegate v)) delegate
  | .edgeSet => .returns (.elements (GraphDelegator.edgeSet delegate)) delegate
  | .edgesOf v => (GraphDelegator.edgesOf delegate v).map .set
  | .removeAllEdges edges => (GraphDelegator.removeAllEdges delegate edges).map .flag
  | .removeAllEdgesV s t => (GraphDelegator.removeAllEdgesV delegate s t).map .set
  | .removeAllVertices vertices =>
    (GraphDelegator.removeAllVertices delegate vertices).map .flag
  | .removeEdgeV s t => (GraphDelegator.removeEdgeV delegate s t).map .pointer
  | .removeEdge e => (GraphDelegator.removeEdge delegate e).map .flag
  | .removeVertex v => (GraphDelegator.removeVertex delegate v).map .flag
  | .vertexSet => (GraphDelegator.vertexSet delegate).map .elements
  | .getEdgeSource e =>
    (Outcome.ofOption delegate (GraphDelegator.getEdgeSource delegate e)).map .pointer
  | .getEdgeTarget e =>
    (Outcome.ofOption delegate (GraphDelegator.getEdgeTarget delegate e)).map .pointer
  | .getEdgeWeight e => (GraphDelegator.getEdgeWeight env delegate e).map .weight
  | .degreeOf v =>
    (GraphDelegator.throughCast .UndirectedGraph backing
      (GraphDelegator.degreeOf delegate v)).map .number
  | .inDegreeOf v =>
    (GraphDelegator.throughCast .DirectedGraph backing
      (GraphDelegator.inDegreeOf delegate v)).map .number
  | .incomingEdgesOf v =>
    (GraphDelegator.throughCast .DirectedGraph backing
      (GraphDelegator.incomingEdgesOf delegate v)).map .set
  | .outDegreeOf v =>
    (GraphDelegator.throughCast .DirectedGraph backing
      (GraphDelegator.outDegreeOf delegate v)).map .number
  | .outgoingEdgesOf v =>
    (GraphDelegator.throughCast .DirectedGraph backing
      (GraphDelegator.outgoingEdgesOf delegate v)).map .set
  | .setEdgeWeight e weight =>
    (GraphDelegator.throughCast .WeightedGraph backing
      (GraphDelegator.setEdgeWeight env delegate e weight)).map fun env1 =>
        .memory env1.weight

/-- The outcomes of a sequence of calls on one container, each issued either
on a delegator over it (`true`) or on the container itself (`false`).  The
sequence ends with the first call whose behaviour is undefined. -/
def runOperations (env : Environment) (backing : GraphClass) :
    AbstractBaseGraph → List (Bool × Operation) → List (Outcome Answer)
  | _, [] => []
  | g, (onDelegator, op) :: rest =>
    match (if onDelegator then op.runOnDelegator env backing g else op.run env g) with
    | .returns a g1 => .returns a g1 :: runOperations env backing g1 rest
    | .throws ex g1 => .throws ex g1 :: runOperations env backing g1 rest
    | .undefined => [.undefined]

/-! ## Facts about the standard containers -/

theorem mem_setInsert (x y : Nat) (l : List Nat) : y ∈ setInsert x l ↔ y = x ∨ y ∈ l := by
  induction l with
  | nil => simp [setInsert]
  | cons z zs ih =>
    simp only [setInsert]
    split_ifs with h1 h2
    · simp
    · subst h2; simp
    · simp only [List.mem_cons, ih]; tauto

theorem mem_collectKeys (m : List (Nat × Nat)) (vset : List Nat) (y : Nat) :
    y ∈ collectKeys m vset ↔ y ∈ vset ∨ y ∈ m.map Prod.fst := by
  induction m generalizing vset with
  | nil => simp [collectKeys]
  | cons p m ih =>
    simp only [collectKeys, ih, mem_setInsert, List.map_cons, List.mem_cons]; tauto

theorem mapCount_eq_one_iff (k : Nat) (m : List (Nat × Nat)) :
    mapCount k m = 1 ↔ k ∈ m.map Prod.fst := by
  unfold mapCount; split_ifs with h <;> simp [h]

theorem mapFind_mem {k a : Nat} {m : List (Nat × Nat)} (h : mapFind k m = some a) :
    (k, a) ∈ m := by
  induction m with
  | nil => simp [mapFind] at h
  | cons p m ih =>
    simp only [mapFind] at h
    split_ifs at h with hk
    · obtain ⟨p1, p2⟩ := p
      simp only [Option.some.injEq] at h
      simp only at hk
      subst hk; subst h; simp
    · exact List.mem_cons_of_mem _ (ih h)

theorem mapFind_of_key {k : Nat} {m : List (Nat × Nat)} (h : k ∈ m.map Prod.fst) :
    ∃ a, mapFind k m = some a := by
  induction m with
  | nil => simp at h
  | cons p m ih =>
    simp only [mapFind]
    split_ifs with hk
    · exact ⟨p.2, rfl⟩
    · simp only [List.map_cons, List.mem_cons] at h
      rcases h with h | h
      · exact absurd h.symm hk
      · exact ih h

theorem key_of_mapFind {k a : Nat} {m : List (Nat × Nat)} (h : mapFind k m = some a) :
    k ∈ m.map Prod.fst :=
  List.mem_map.mpr ⟨(k, a), mapFind_mem h, rfl⟩

theorem mem_mapPlace (k v : Nat) (m : List (Nat × Nat)) (p : Nat × Nat) :
    p ∈ mapPlace k v m ↔ p = (k, v) ∨ p ∈ m := by
  induction m with
  | nil => simp [mapPlace]
  | cons q m ih =>
    simp only [mapPlace]
    split_ifs with h
    · simp
    · simp only [List.mem_cons, ih]; tauto

theorem mem_mapInsert {k v : Nat} {m : List (Nat × Nat)} {p : Nat × Nat}
    (h : p ∈ mapInsert k v m) : p = (k, v) ∨ p ∈ m := by
  unfold mapInsert at h
  split_ifs at h with hc
  · exact Or.inr h
  · exact (mem_mapPlace k v m p).mp h

theorem keys_mapInsert (k v : Nat) (m : List (Nat × Nat)) (y : Nat) :
    y ∈ (mapInsert k v m).map Prod.fst ↔ y = k ∨ y ∈ m.map Prod.fst := by
  unfold mapInsert
  split_ifs with hc
  · rw [mapCount_eq_one_iff] at hc
    constructor
    · exact Or.inr
    · rintro (h | h)
      · subst h; exact hc
      · exact h
  · simp only [List.mem_map, mem_mapPlace]
    constructor
    · rintro ⟨p, hp | hp, rfl⟩
      · subst hp; exact Or.inl rfl
      · exact Or.inr ⟨p, hp, rfl⟩
    · rintro (h | ⟨p, hp, rfl⟩)
      · exact ⟨(k, v), Or.inl rfl, h.symm⟩
      · exact ⟨p, Or.inr hp, rfl⟩

theorem mapInsert_of_key {k v : Nat} {m : List (Nat × Nat)} (h : k ∈ m.map Prod.fst) :
    mapInsert k v m = m := by
  unfold mapInsert
  rw [if_pos ((mapCount_eq_one_iff k m).mpr h)]

theorem mem_mapErase {k : Nat} {m : List (Nat × Nat)} {p : Nat × Nat}
    (h : p ∈ mapErase k m) : p ∈ m := by
  induction m with
  | nil => simp [mapErase] at h
  | cons q m ih =>
    simp only [mapErase] at h
    split_ifs at h with hk
    · exact List.mem_cons_of_mem _ h
    · rcases List.mem_cons.mp h with h | h
      · subst h; exact List.mem_cons_self _ _
      · exact List.mem_cons_of_mem _ (ih h)

theorem load_append {α : Type} {heap : List α} {p : Nat} {x : α} (more : List α)
    (h : load heap p = some x) : load (heap ++ more) p = some x := by
  unfold load at *
  split_ifs at h with hp
  rw [if_neg hp]
  have hlt : p - 1 < heap.length := by
    by_contra hge
    rw [List.getElem?_eq_none (by omega)] at h
    exact absurd h (by simp)
  rw [List.getElem?_append_left hlt]
  exact h

theorem load_new {α : Type} (heap : List α) (x : α) :
    load (heap ++ [x]) (heap.length + 1) = some x := by
  unfold load NULL
  simp

/-! ## Facts about membership -/

theorem containsVertex_iff (g : AbstractBaseGraph) (v : Nat) :
    containsVertex g v = true ↔ v ∈ g.specifics.vertexMap.map Prod.fst := by
  unfold containsVertex setCount
  have hk : v ∈ g.specifics.getVertexSet ↔ v ∈ g.specifics.vertexMap.map Prod.fst := by
    cases hs : g.specifics <;>
      simp [Specifics.getVertexSet, Specifics.vertexMap, mem_collectKeys]
  split_ifs with h
  · simpa using hk.mp h
  · simpa using fun h2 => h (hk.mpr h2)

theorem containsEdge_iff (g : AbstractBaseGraph) (e : Nat) :
    containsEdge g e = true ↔ e ∈ g.edgeMap.map Prod.fst := by
  unfold containsEdge
  rw [← mapCount_eq_one_iff]
  simp

/-! ## The contract of `addVertex` and the vertex check of `addEdge` -/

/-- C9: for a non-null vertex `v`, `addVertex(v)` returns true exactly when `v`
was not a member before the call; afterwards `v` is a member; when `v` was a
member already the call returns false and the state of the container is the one
before the call; a second consecutive call returns false and changes nothing.
`addVertex(NULL)` throws `invalid_argument` and changes nothing. -/
theorem addVertex_contract (g : AbstractBaseGraph) (v : Nat) (hv : v ≠ NULL) :
    (∃ g1, addVertex g v = .returns (!containsVertex g v) g1
      ∧ containsVertex g1 v = true
      ∧ (containsVertex g v = true → g1 = g)
      ∧ addVertex g1 v = .returns false g1)
    ∧ addVertex g NULL = .throws (.invalid_argument "NULL-pointer given for v") g := by
  refine ⟨?_, by simp [addVertex]⟩
  have again : ∀ g1, containsVertex g1 v = true → addVertex g1 v = .returns false g1 := by
    intro g1 h1
    simp [addVertex, hv, h1]
  cases hc : containsVertex g v with
  | true =>
    exact ⟨g, by simp [addVertex, hv, hc], hc, fun _ => rfl, again g hc⟩
  | false =>
    cases hs : g.specifics with
    | DirectedSpecifics vm =>
      have hin : containsVertex (DirectedSpecifics.addVertex g v) v = true := by
        rw [containsVertex_iff]
        simp only [DirectedSpecifics.addVertex, hs, Specifics.vertexMap]
        exact (keys_mapInsert v NULL vm v).mpr (Or.inl rfl)
      exact ⟨DirectedSpecifics.addVertex g v, by simp [addVertex, hv, hc, hs], hin,
        fun h => by simp at h, again _ hin⟩
    | UndirectedSpecifics vm =>
      have hin : containsVertex (UndirectedSpecifics.addVertex g v) v = true := by
        rw [containsVertex_iff]
        simp only [UndirectedSpecifics.addVertex, hs, Specifics.vertexMap]
        exact (keys_mapInsert v NULL vm v).mpr (Or.inl rfl)
      exact ⟨UndirectedSpecifics.addVertex g v, by simp [addVertex, hv, hc, hs], hin,
        fun h => by simp at h, again _ hin⟩

/-- C8: when `s` or `t` is not a member of the vertex set, `addEdge(s, t)`
throws `invalid_argument` and the state of the container (vertex set, edge set,
adjacency containers) is the one before the call. -/
theorem addEdge_missing_vertex (g : AbstractBaseGraph) (s t created : Nat)
    (h : containsVertex g s = false ∨ containsVertex g t = false) :
    ∃ what, addEdge g s t created = .throws (.invalid_argument what) g := by
  unfold addEdge assertVertexExist
  cases hs : containsVertex g s with
  | false =>
    by_cases h0 : s = NULL
    · exact ⟨"Null pointer given", by simp [h0, Outcome.bind]⟩
    · exact ⟨"No such vertex in graph", by simp [h0, Outcome.bind]⟩
  | true =>
    have ht : containsVertex g t = false := by
      rcases h with h | h
      · rw [hs] at h; exact absurd h (by simp)
      · exact h
    by_cases h0 : t = NULL
    · have ht0 : containsVertex g NULL = false := h0 ▸ ht
      exact ⟨"Null pointer given", by simp [h0, ht0, Outcome.bind]⟩
    · exact ⟨"No such vertex in graph", by simp [h0, ht, Outcome.bind]⟩

/-! ## Calls that only touch the heaps of edge containers -/

theorem Sat_bind {α β : Type} {o : Outcome α} {f : α → AbstractBaseGraph → Outcome β}
    {Q P : AbstractBaseGraph → Prop} (ho : o.Sat Q) (hthrow : ∀ g1, Q g1 → P g1)
    (hf : ∀ a g1, Q g1 → (f a g1).Sat P) : (o.bind f).Sat P := by
  cases o with
  | returns a g1 => exact hf a g1 (ho g1 rfl)
  | throws ex g1 =>
    intro g2 h2
    simp only [Outcome.bind, Outcome.state, Option.some.injEq] at h2
    subst h2
    exact hthrow g1 (ho g1 rfl)
  | undefined =>
    intro g2 h2
    simp [Outcome.bind, Outcome.state] at h2

theorem Frame_bind {α β : Type} {g : AbstractBaseGraph} {o : Outcome α}
    {f : α → AbstractBaseGraph → Outcome β} (ho : Frame g o)
    (hf : ∀ a g1, g1.core = g.core → Frame g1 (f a g1)) : Frame g (o.bind f) := by
  refine Sat_bind ho (fun _ h => h) ?_
  intro a g1 h1 g2 h2
  exact (hf a g1 h1 g2 h2).trans h1

theorem Frame_returns {α : Type} {g g1 : AbstractBaseGraph} (a : α)
    (h : g1.core = g.core) : Frame g (Outcome.returns a g1) := by
  intro g2 h2
  simp only [Outcome.state, Option.some.injEq] at h2
  subst h2; exact h

theorem Frame_throws {α : Type} {g g1 : AbstractBaseGraph} (ex : Exception)
    (h : g1.core = g.core) : Frame g (Outcome.throws ex g1 : Outcome α) := by
  intro g2 h2
  simp only [Outcome.state, Option.some.injEq] at h2
  subst h2; exact h

theorem Frame_undefined {α : Type} {g : AbstractBaseGraph} :
    Frame g (Outcome.undefined : Outcome α) := by
  intro g2 h2
  simp [Outcome.state] at h2

theorem Frame_of_core {α : Type} {g g1 : AbstractBaseGraph} {o : Outcome α}
    (h : g1.core = g.core) (ho : Frame g1 o) : Frame g o :=
  fun g2 h2 => (ho g2 h2).trans h

theorem frame_assertVertexExist (g : AbstractBaseGraph) (v : Nat) :
    Frame g (assertVertexExist g v) := by
  unfold assertVertexExist
  split_ifs
  · exact Frame_returns _ rfl
  · exact Frame_throws _ rfl
  · exact Frame_throws _ rfl

theorem frame_directed_getEdgeContainer (g : AbstractBaseGraph) (v : Nat) :
    Frame g (DirectedSpecifics.getEdgeContainer g v) := by
  unfold DirectedSpecifics.getEdgeContainer
  apply Frame_bind (frame_assertVertexExist g v)
  intro _ g1 _
  cases hs : g1.specifics with
  | UndirectedSpecifics vm => exact Frame_undefined
  | DirectedSpecifics vm =>
    simp only
    cases hf : mapFind v vm with
    | none => exact Frame_undefined
    | some stored =>
      simp only
      split_ifs with h0
      · apply Frame_returns
        rw [mapInsert_of_key (key_of_mapFind hf)]
        simp [AbstractBaseGraph.core, hs]
      · exact Frame_returns _ rfl

theorem frame_undirected_getEdgeContainer (g : AbstractBaseGraph) (v : Nat) :
    Frame g (UndirectedSpecifics.getEdgeContainer g v) := by
  unfold UndirectedSpecifics.getEdgeContainer
  apply Frame_bind (frame_assertVertexExist g v)
  intro _ g1 _
  cases hs : g1.specifics with
  | DirectedSpecifics vm => exact Frame_undefined
  | UndirectedSpecifics vm =>
    simp only
    cases hf : mapFind v vm with
    | none => exact Frame_undefined
    | some stored =>
      simp only
      split_ifs with h0
      · apply Frame_returns
        rw [mapInsert_of_key (key_of_mapFind hf)]
        simp [AbstractBaseGraph.core, hs]
      · exact Frame_returns _ rfl

theorem frame_directed_update (g : AbstractBaseGraph) (ec : Nat)
    (f : DirectedEdgeContainer → DirectedEdgeContainer) :
    Frame g (DirectedSpecifics.update g ec f) := by
  unfold DirectedSpecifics.update
  cases load g.directedContainers ec with
  | none => exact Frame_undefined
  | some c => exact Frame_returns _ rfl

theorem frame_undirected_update (g : AbstractBaseGraph) (ec : Nat)
    (f : UndirectedEdgeContainer → UndirectedEdgeContainer) :
    Frame g (UndirectedSpecifics.update g ec f) := by
  unfold UndirectedSpecifics.update
  cases load g.undirectedContainers ec with
  | none => exact Frame_undefined
  | some c => exact Frame_returns _ rfl

theorem frame_directed_getEdgeLoop (g : AbstractBaseGraph) (t : Nat) (l : List Nat) :
    Frame g (DirectedSpecifics.getEdgeLoop g t l) := by
  induction l with
  | nil => exact Frame_returns _ rfl
  | cons e rest ih =>
    unfold DirectedSpecifics.getEdgeLoop
    split
    · exact Frame_undefined
    · split_ifs
      · exact Frame_returns _ rfl
      · exact ih

theorem frame_directed_getEdge (g : AbstractBaseGraph) (s t : Nat) :
    Frame g (DirectedSpecifics.getEdge g s t) := by
  unfold DirectedSpecifics.getEdge
  split_ifs
  · apply Frame_bind (frame_directed_getEdgeContainer g s)
    intro ec g1 _
    split
    · exact Frame_undefined
    · exact frame_directed_getEdgeLoop g1 t _
  · exact Frame_returns _ rfl

theorem frame_directed_getAllEdges (g : AbstractBaseGraph) (s t : Nat) :
    Frame g (DirectedSpecifics.getAllEdges g s t) := by
  unfold DirectedSpecifics.getAllEdges
  split_ifs
  · apply Frame_bind (frame_directed_getEdgeContainer g s)
    intro ec g1 _
    split
    · exact Frame_undefined
    · split
      · exact Frame_undefined
      · exact Frame_returns _ rfl
  · exact Frame_returns _ rfl

theorem frame_directed_addEdgeToTouchingVertices (g : AbstractBaseGraph) (e : Nat) :
    Frame g (DirectedSpecifics.addEdgeToTouchingVertices g e) := by
  unfold DirectedSpecifics.addEdgeToTouchingVertices
  split
  · apply Frame_bind (frame_directed_getEdgeContainer g _)
    intro ec g1 _
    apply Frame_bind (frame_directed_update g1 ec _)
    intro _ g2 _
    apply Frame_bind (frame_directed_getEdgeContainer g2 _)
    intro ec2 g3 _
    exact frame_directed_update g3 ec2 _
  · exact Frame_undefined

theorem frame_directed_removeEdgeFromTouchingVertices (g : AbstractBaseGraph)
    (e : Nat) : Frame g (DirectedSpecifics.removeEdgeFromTouchingVertices g e) := by
  unfold DirectedSpecifics.removeEdgeFromTouchingVertices
  split
  · apply Frame_bind (frame_directed_getEdgeContainer g _)
    intro ec g1 _
    apply Frame_bind (frame_directed_update g1 ec _)
    intro _ g2 _
    apply Frame_bind (frame_directed_getEdgeContainer g2 _)
    intro ec2 g3 _
    exact frame_directed_update g3 ec2 _
  · exact Frame_undefined

theorem frame_directed_edgesOfLoop (vertex inAndOut first : Nat) (l : List Nat)
    (g : AbstractBaseGraph) :
    Frame g (DirectedSpecifics.edgesOfLoop vertex inAndOut first l g) := by
  induction l generalizing g with
  | nil =>
    unfold DirectedSpecifics.edgesOfLoop
    apply Frame_bind (frame_directed_getEdgeContainer g vertex)
    intro last g1 _
    split_ifs
    · exact Frame_returns _ rfl
    · exact Frame_undefined
  | cons e rest ih =>
    unfold DirectedSpecifics.edgesOfLoop
    apply Frame_bind (frame_directed_getEdgeContainer g vertex)
    intro last g1 _
    split_ifs
    · apply Frame_bind (frame_directed_update g1 inAndOut _)
      intro _ g2 _
      exact ih g2
    · exact Frame_undefined

theorem frame_directed_edgesOf (g : AbstractBaseGraph) (vertex : Nat) :
    Frame g (DirectedSpecifics.edgesOf g vertex) := by
  unfold DirectedSpecifics.edgesOf
  apply Frame_bind (frame_directed_getEdgeContainer g vertex)
  intro inAndOut g1 _
  apply Frame_bind (frame_directed_getEdgeContainer g1 vertex)
  intro first g2 _
  split
  · exact Frame_undefined
  · apply Frame_bind (frame_directed_edgesOfLoop vertex inAndOut first _ g2)
    intro _ g3 _
    split_ifs
    · apply Frame_bind (frame_directed_getAllEdges g3 vertex vertex)
      intro loops g4 _
      split
      · split_ifs
        · exact Frame_undefined
        · exact Frame_returns _ rfl
      · exact Frame_undefined
    · exact Frame_returns _ rfl

theorem frame_undirected_getEdgeLoop (s t first : Nat) (l : List Nat)
    (g : AbstractBaseGraph) :
    Frame g (UndirectedSpecifics.getEdgeLoop s t first l g) := by
  induction l generalizing g with
  | nil =>
    unfold UndirectedSpecifics.getEdgeLoop
    apply Frame_bind (frame_undirected_getEdgeContainer g s)
    intro last g1 _
    split_ifs
    · exact Frame_returns _ rfl
    · exact Frame_undefined
  | cons e rest ih =>
    unfold UndirectedSpecifics.getEdgeLoop
    apply Frame_bind (frame_undirected_getEdgeContainer g s)
    intro last g1 _
    split_ifs
    · split
      · exact Frame_undefined
      · exact Frame_returns _ rfl
      · exact ih g1
    · exact Frame_undefined

theorem frame_undirected_getEdge (g : AbstractBaseGraph) (s t : Nat) :
    Frame g (UndirectedSpecifics.getEdge g s t) := by
  unfold UndirectedSpecifics.getEdge
  split_ifs
  · apply Frame_bind (frame_undirected_getEdgeContainer g s)
    intro ec g1 _
    split
    · exact Frame_undefined
    · exact frame_undirected_getEdgeLoop s t ec _ g1
  · exact Frame_returns _ rfl

theorem frame_undirected_addEdgeToTouchingVertices (g : AbstractBaseGraph)
    (e : Nat) : Frame g (UndirectedSpecifics.addEdgeToTouchingVertices g e) := by
  unfold UndirectedSpecifics.addEdgeToTouchingVertices
  split
  · apply Frame_bind (frame_undirected_getEdgeContainer g _)
    intro ec g1 _
    apply Frame_bind (frame_undirected_update g1 ec _)
    intro _ g2 _
    split_ifs
    · apply Frame_bind (frame_undirected_getEdgeContainer g2 _)
      intro ec2 g3 _
      exact frame_undirected_update g3 ec2 _
    · exact Frame_returns _ rfl
  · exact Frame_undefined

theorem frame_undirected_removeEdgeFromTouchingVertices (g : AbstractBaseGraph)
    (e : Nat) : Frame g (UndirectedSpecifics.removeEdgeFromTouchingVertices g e) := by
  unfold UndirectedSpecifics.removeEdgeFromTouchingVertices
  split
  · apply Frame_bind (frame_undirected_getEdgeContainer g _)
    intro ec g1 _
    apply Frame_bind (frame_undirected_update g1 ec _)
    intro _ g2 _
    split_ifs
    · apply Frame_bind (frame_undirected_getEdgeContainer g2 _)
      intro ec2 g3 _
      exact frame_undirected_update g3 ec2 _
    · exact Frame_returns _ rfl
  · exact Frame_undefined

theorem frame_undirected_edgesOf (g : AbstractBaseGraph) (vertex : Nat) :
    Frame g (UndirectedSpecifics.edgesOf g vertex) := by
  unfold UndirectedSpecifics.edgesOf
  apply Frame_bind (frame_undirected_getEdgeContainer g vertex)
  intro ec g1 _
  exact Frame_returns _ rfl

theorem frame_getEdge (g : AbstractBaseGraph) (s t : Nat) : Frame g (getEdge g s t) := by
  unfold getEdge
  split
  · exact frame_directed_getEdge g s t
  · exact frame_undirected_getEdge g s t

theorem frame_containsEdgeV (g : AbstractBaseGraph) (s t : Nat) :
    Frame g (containsEdgeV g s t) := by
  unfold containsEdgeV
  apply Frame_bind (frame_getEdge g s t)
  intro e g1 _
  exact Frame_returns _ rfl

theorem frame_addEdgeToTouchingVertices (g : AbstractBaseGraph) (e : Nat) :
    Frame g (addEdgeToTouchingVertices g e) := by
  unfold addEdgeToTouchingVertices
  split
  · exact frame_directed_addEdgeToTouchingVertices g e
  · exact frame_undirected_addEdgeToTouchingVertices g e

theorem frame_removeEdgeFromTouchingVertices (g : AbstractBaseGraph) (e : Nat) :
    Frame g (removeEdgeFromTouchingVertices g e) := by
  unfold removeEdgeFromTouchingVertices
  split
  · exact frame_directed_removeEdgeFromTouchingVertices g e
  · exact frame_undirected_removeEdgeFromTouchingVertices g e

theorem frame_edgesOf (g : AbstractBaseGraph) (vertex : Nat) : Frame g (edgesOf g vertex) := by
  unfold edgesOf
  split
  · exact frame_directed_edgesOf g vertex
  · exact frame_undirected_edgesOf g vertex

/-! ## Properties preserved by every call -/

theorem core_edgeMap {g g1 : AbstractBaseGraph} (h : g1.core = g.core) :
    g1.edgeMap = g.edgeMap := by
  have h2 := congrArg AbstractBaseGraph.edgeMap h
  exact h2

theorem core_intrusiveEdges {g g1 : AbstractBaseGraph} (h : g1.core = g.core) :
    g1.intrusiveEdges = g.intrusiveEdges := by
  have h2 := congrArg AbstractBaseGraph.intrusiveEdges h
  exact h2

theorem core_allowingLoops {g g1 : AbstractBaseGraph} (h : g1.core = g.core) :
    g1.allowingLoops = g.allowingLoops := by
  have h2 := congrArg AbstractBaseGraph.allowingLoops h
  exact h2

theorem core_allowingMultipleEdges {g g1 : AbstractBaseGraph} (h : g1.core = g.core) :
    g1.allowingMultipleEdges = g.allowingMultipleEdges := by
  have h2 := congrArg AbstractBaseGraph.allowingMultipleEdges h
  exact h2

theorem core_specifics {g g1 : AbstractBaseGraph} (h : g1.core = g.core) :
    g1.specifics = g.specifics := by
  have h2 := congrArg AbstractBaseGraph.specifics h
  exact h2

theorem core_containsVertex {g g1 : AbstractBaseGraph} (h : g1.core = g.core) (v : Nat) :
    containsVertex g1 v = containsVertex g v := by
  unfold containsVertex
  rw [core_specifics h]

theorem core_containsEdge {g g1 : AbstractBaseGraph} (h : g1.core = g.core) (e : Nat) :
    containsEdge g1 e = containsEdge g e := by
  unfold containsEdge
  rw [core_edgeMap h]

theorem Sat_of_Frame {α : Type} {g : AbstractBaseGraph} {o : Outcome α}
    {P : AbstractBaseGraph → Prop} (ho : Frame g o) (hP : ∀ g1, g1.core = g.core → P g1) :
    o.Sat P :=
  fun g1 h1 => hP g1 (ho g1 h1)

theorem Sat_returns {α : Type} {P : AbstractBaseGraph → Prop} {g : AbstractBaseGraph} (a : α)
    (h : P g) : (Outcome.returns a g).Sat P := by
  intro g2 h2
  simp only [Outcome.state, Option.some.injEq] at h2
  subst h2; exact h

theorem Sat_throws {α : Type} {P : AbstractBaseGraph → Prop} {g : AbstractBaseGraph}
    (ex : Exception) (h : P g) : (Outcome.throws ex g : Outcome α).Sat P := by
  intro g2 h2
  simp only [Outcome.state, Option.some.injEq] at h2
  subst h2; exact h

theorem Sat_undefined {α : Type} {P : AbstractBaseGraph → Prop} :
    (Outcome.undefined : Outcome α).Sat P := by
  intro g2 h2
  simp [Outcome.state] at h2

theorem assertVertexExist_of_member {g : AbstractBaseGraph} {v : Nat}
    (h : containsVertex g v = true) : assertVertexExist g v = .returns true g := by
  simp [assertVertexExist, h]

theorem assertVertexExist_of_not_member {g : AbstractBaseGraph} {v : Nat}
    (h : containsVertex g v = false) : ∃ ex, assertVertexExist g v = .throws ex g := by
  unfold assertVertexExist
  by_cases h0 : v = NULL
  · exact ⟨.invalid_argument "Null pointer given", by rw [h, if_pos h0]; rfl⟩
  · exact ⟨.invalid_argument "No such vertex in graph", by rw [h, if_neg h0]; rfl⟩

section StableCalls

variable {P : AbstractBaseGraph → Prop}

theorem stable_addVertex (hP : Stable P) {g : AbstractBaseGraph} (v : Nat) (hg : P g) :
    (addVertex g v).Sat P := by
  unfold addVertex
  split_ifs
  · exact Sat_throws _ hg
  · exact Sat_returns _ hg
  · split
    · exact Sat_returns _ (hP.directedVertex g v hg)
    · exact Sat_returns _ (hP.undirectedVertex g v hg)

theorem stable_register (hP : Stable P) {α : Type} {g : AbstractBaseGraph} (e s t : Nat)
    (r : α) (hs : containsVertex g s = true) (ht : containsVertex g t = true)
    (hl : g.allowingLoops = false → s ≠ t) (hg : P g) :
    ((createIntrusiveEdge g e s t).bind fun intrusiveEdge g =>
      (addEdgeToTouchingVertices
        { g with edgeMap := mapInsert e intrusiveEdge g.edgeMap } e).bind fun _ g =>
        Outcome.returns r g).Sat P := by
  simp only [createIntrusiveEdge, Outcome.bind]
  have hnew := hP.register g e s t hs ht hl hg
  have hf := frame_addEdgeToTouchingVertices { g with
      intrusiveEdges := g.intrusiveEdges ++ [⟨s, t⟩]
      edgeMap := mapInsert e (g.intrusiveEdges.length + 1) g.edgeMap } e
  refine Sat_bind hf (fun g1 h1 => hP.of_core _ g1 h1 hnew) ?_
  intro _ g1 h1
  exact Sat_returns _ (hP.of_core _ g1 h1 hnew)

theorem stable_addEdge_tail (hP : Stable P) {α : Type} {g : AbstractBaseGraph}
    (s t e : Nat) (absent r : α) (check : Bool) (hs : containsVertex g s = true)
    (ht : containsVertex g t = true) (hg : P g) :
    ((if !g.allowingMultipleEdges then containsEdgeV g s t
      else .returns false g).bind fun connected g =>
      if connected then Outcome.returns absent g
      else if !g.allowingLoops && s == t then
        Outcome.throws (.invalid_argument "Loops not allowed") g
      else if check && containsEdge g e then Outcome.returns absent g
      else
        (createIntrusiveEdge g e s t).bind fun intrusiveEdge g =>
        (addEdgeToTouchingVertices
          { g with edgeMap := mapInsert e intrusiveEdge g.edgeMap } e).bind fun _ g =>
          Outcome.returns r g).Sat P := by
  have hfirst : Frame g (if !g.allowingMultipleEdges then containsEdgeV g s t
      else .returns false g) := by
    split_ifs
    · exact frame_containsEdgeV g s t
    · exact Frame_returns _ rfl
  refine Sat_bind hfirst (fun g1 h1 => hP.of_core g g1 h1 hg) ?_
  intro connected g1 h1
  have hg1 := hP.of_core g g1 h1 hg
  split_ifs with hc hloop hdup
  · exact Sat_returns _ hg1
  · exact Sat_throws _ hg1
  · exact Sat_returns _ hg1
  · apply stable_register hP e s t r _ _ _ hg1
    · rw [core_containsVertex h1]; exact hs
    · rw [core_containsVertex h1]; exact ht
    · intro hl hst
      apply hloop
      simp [hl, hst]

theorem stable_addEdge (hP : Stable P) {g : AbstractBaseGraph} (s t created : Nat)
    (hg : P g) : (addEdge g s t created).Sat P := by
  unfold addEdge
  cases hs : containsVertex g s with
  | false =>
    obtain ⟨ex, hex⟩ := assertVertexExist_of_not_member hs
    rw [hex]
    exact Sat_throws _ hg
  | true =>
    rw [assertVertexExist_of_member hs]
    simp only [Outcome.bind]
    cases ht : containsVertex g t with
    | false =>
      obtain ⟨ex, hex⟩ := assertVertexExist_of_not_member ht
      rw [hex]
      exact Sat_throws _ hg
    | true =>
      rw [assertVertexExist_of_member ht]
      have h := stable_addEdge_tail hP s t created NULL created true hs ht hg
      simpa using h

theorem stable_addEdgeE (hP : Stable P) {g : AbstractBaseGraph} (s t e : Nat) (hg : P g) :
    (addEdgeE g s t e).Sat P := by
  unfold addEdgeE
  split_ifs with h0 hc
  · exact Sat_throws _ hg
  · exact Sat_returns _ hg
  · cases hs : containsVertex g s with
    | false =>
      obtain ⟨ex, hex⟩ := assertVertexExist_of_not_member hs
      rw [hex]
      exact Sat_throws _ hg
    | true =>
      rw [assertVertexExist_of_member hs]
      simp only [Outcome.bind]
      cases ht : containsVertex g t with
      | false =>
        obtain ⟨ex, hex⟩ := assertVertexExist_of_not_member ht
        rw [hex]
        exact Sat_throws _ hg
      | true =>
        rw [assertVertexExist_of_member ht]
        have h := stable_addEdge_tail hP s t e false true false hs ht hg
        simpa using h

theorem stable_removeEdge (hP : Stable P) {g : AbstractBaseGraph} (e : Nat) (hg : P g) :
    (removeEdge g e).Sat P := by
  unfold removeEdge
  split_ifs
  · refine Sat_bind (frame_removeEdgeFromTouchingVertices g e)
      (fun g1 h1 => hP.of_core g g1 h1 hg) ?_
    intro _ g1 h1
    exact Sat_returns _ (hP.erase g1 e (hP.of_core g g1 h1 hg))
  · exact Sat_returns _ hg

theorem stable_removeEdgeV (hP : Stable P) {g : AbstractBaseGraph} (s t : Nat) (hg : P g) :
    (removeEdgeV g s t).Sat P := by
  unfold removeEdgeV
  refine Sat_bind (frame_getEdge g s t) (fun g1 h1 => hP.of_core g g1 h1 hg) ?_
  intro e g1 h1
  have hg1 := hP.of_core g g1 h1 hg
  split_ifs
  · refine Sat_bind (frame_removeEdgeFromTouchingVertices g1 e)
      (fun g2 h2 => hP.of_core g1 g2 h2 hg1) ?_
    intro _ g2 h2
    exact Sat_returns _ (hP.erase g2 e (hP.of_core g1 g2 h2 hg1))
  · exact Sat_returns _ hg1

theorem stable_removeAllEdgesLoop (hP : Stable P) (edges : SetRef) (l : List Nat)
    (modified : Bool) {g : AbstractBaseGraph} (hg : P g) :
    (removeAllEdgesLoop edges l modified g).Sat P := by
  induction l generalizing g modified with
  | nil => exact Sat_returns _ hg
  | cons e rest ih =>
    unfold removeAllEdgesLoop
    refine Sat_bind (stable_removeEdge hP e hg) (fun _ h => h) ?_
    intro removed g1 hg1
    split
    · exact Sat_undefined
    · split_ifs
      · exact ih _ hg1
      · exact Sat_undefined

theorem stable_removeVertex (hP : Stable P) {g : AbstractBaseGraph} (v : Nat) (hg : P g) :
    (removeVertex g v).Sat P := by
  unfold removeVertex
  split_ifs
  · refine Sat_bind (frame_edgesOf g v) (fun g1 h1 => hP.of_core g g1 h1 hg) ?_
    intro touching g1 h1
    have hg1 := hP.of_core g g1 h1 hg
    have hall : (removeAllEdges g1 touching).Sat P := by
      unfold removeAllEdges
      split
      · exact Sat_undefined
      · exact stable_removeAllEdgesLoop hP touching _ false hg1
    refine Sat_bind hall (fun _ h => h) ?_
    intro _ g2 hg2
    exact Sat_returns _ hg2
  · exact Sat_returns _ hg

theorem stable_run (hP : Stable P) {g g1 : AbstractBaseGraph} (c : Call) (hg : P g)
    (h : c.run g = some g1) : P g1 := by
  cases c with
  | addVertex v => exact stable_addVertex hP v hg g1 h
  | addEdge s t created => exact stable_addEdge hP s t created hg g1 h
  | addEdgeE s t e => exact stable_addEdgeE hP s t e hg g1 h
  | removeEdgeV s t => exact stable_removeEdgeV hP s t hg g1 h
  | removeEdge e => exact stable_removeEdge hP e hg g1 h
  | removeVertex v => exact stable_removeVertex hP v hg g1 h

theorem stable_runCalls (hP : Stable P) {g g1 : AbstractBaseGraph} (calls : List Call)
    (hg : P g) (h : runCalls g calls = some g1) : P g1 := by
  induction calls generalizing g with
  | nil =>
    simp only [runCalls, Option.some.injEq] at h
    subst h; exact hg
  | cons c cs ih =>
    simp only [runCalls] at h
    cases hc : c.run g with
    | none => rw [hc] at h; simp at h
    | some g2 =>
      rw [hc] at h
      exact ih (stable_run hP c hg hc) h

end StableCalls

theorem reachable_iff_runCalls (g : AbstractBaseGraph) :
    Reachable g ↔ ∃ m l d calls, runCalls (AbstractBaseGraph.create m l d) calls = some g := by
  constructor
  · intro h
    induction h with
    | create m l d => exact ⟨m, l, d, [], rfl⟩
    | @call g0 g1 c _ hrun ih =>
      obtain ⟨m, l, d, calls, hc⟩ := ih
      refine ⟨m, l, d, calls ++ [c], ?_⟩
      generalize AbstractBaseGraph.create m l d = start at hc
      induction calls generalizing start with
      | nil =>
        simp only [runCalls, Option.some.injEq] at hc
        subst hc
        simp [runCalls, hrun]
      | cons c1 cs ih2 =>
        simp only [runCalls, List.cons_append] at hc ⊢
        cases h1 : c1.run start with
        | none => rw [h1] at hc; simp at hc
        | some g2 =>
          rw [h1] at hc
          exact ih2 g2 hc
  · rintro ⟨m, l, d, calls, hc⟩
    have start : Reachable (AbstractBaseGraph.create m l d) := Reachable.create m l d
    generalize AbstractBaseGraph.create m l d = g0 at hc start
    induction calls generalizing g0 with
    | nil =>
      simp only [runCalls, Option.some.injEq] at hc
      subst hc; exact start
    | cons c cs ih =>
      simp only [runCalls] at hc
      cases h1 : c.run g0 with
      | none => rw [h1] at hc; simp at hc
      | some g2 =>
        rw [h1] at hc
        exact ih g2 hc (Reachable.call c start h1)

/-! ## Soundness of the edge map in every reachable state -/

theorem stable_EdgesSound : Stable EdgesSound where
  of_core := by
    intro g g1 h hg e a hea
    rw [core_edgeMap h] at hea
    obtain ⟨ie, h1, h2, h3, h4⟩ := hg e a hea
    refine ⟨ie, ?_, ?_, ?_, ?_⟩
    · rw [core_intrusiveEdges h]; exact h1
    · rw [core_containsVertex h]; exact h2
    · rw [core_containsVertex h]; exact h3
    · rw [core_allowingLoops h]; exact h4
  directedVertex := by
    intro g v hg e a hea
    unfold DirectedSpecifics.addVertex at hea ⊢
    cases hs : g.specifics with
    | UndirectedSpecifics vm => rw [hs] at hea; simpa [hs] using hg e a hea
    | DirectedSpecifics vm =>
      rw [hs] at hea
      obtain ⟨ie, k1, k2, k3, k4⟩ := hg e a hea
      have grow : ∀ w, containsVertex g w = true → containsVertex
          { g with specifics := .DirectedSpecifics (mapInsert v NULL vm) } w = true := by
        intro w hw
        rw [containsVertex_iff] at hw ⊢
        rw [hs] at hw
        exact (keys_mapInsert v NULL vm w).mpr (Or.inr hw)
      exact ⟨ie, k1, grow _ k2, grow _ k3, k4⟩
  undirectedVertex := by
    intro g v hg e a hea
    unfold UndirectedSpecifics.addVertex at hea ⊢
    cases hs : g.specifics with
    | DirectedSpecifics vm => rw [hs] at hea; simpa [hs] using hg e a hea
    | UndirectedSpecifics vm =>
      rw [hs] at hea
      obtain ⟨ie, k1, k2, k3, k4⟩ := hg e a hea
      have grow : ∀ w, containsVertex g w = true → containsVertex
          { g with specifics := .UndirectedSpecifics (mapInsert v NULL vm) } w = true := by
        intro w hw
        rw [containsVertex_iff] at hw ⊢
        rw [hs] at hw
        exact (keys_mapInsert v NULL vm w).mpr (Or.inr hw)
      exact ⟨ie, k1, grow _ k2, grow _ k3, k4⟩
  register := by
    intro g e s t hs ht hl hg e1 a1 h1
    rcases mem_mapInsert h1 with h | h
    · simp only [Prod.mk.injEq] at h
      obtain ⟨_, rfl⟩ := h
      exact ⟨⟨s, t⟩, load_new _ _, hs, ht, hl⟩
    · obtain ⟨ie, k1, k2, k3, k4⟩ := hg e1 a1 h
      exact ⟨ie, load_append _ k1, k2, k3, k4⟩
  erase := by
    intro g e hg e1 a1 h1
    exact hg e1 a1 (mem_mapErase h1)

theorem stable_allowingLoops (l : Bool) : Stable (fun g => g.allowingLoops = l) where
  of_core := by
    intro g g1 h hg
    rw [core_allowingLoops h]; exact hg
  directedVertex := by
    intro g v hg
    unfold DirectedSpecifics.addVertex
    split <;> exact hg
  undirectedVertex := by
    intro g v hg
    unfold UndirectedSpecifics.addVertex
    split <;> exact hg
  register := by
    intro g e s t _ _ _ hg
    exact hg
  erase := by
    intro g e hg
    exact hg

theorem EdgesSound_create (m l d : Bool) : EdgesSound (AbstractBaseGraph.create m l d) := by
  intro e a h
  simp [AbstractBaseGraph.create] at h

theorem endpoints_of_sound {g : AbstractBaseGraph} (hg : EdgesSound g) (e : Nat)
    (he : containsEdge g e = true) :
    ∃ s t, getEdgeSource g e = some s ∧ getEdgeTarget g e = some t
      ∧ containsVertex g s = true ∧ containsVertex g t = true
      ∧ (g.allowingLoops = false → s ≠ t) := by
  rw [containsEdge_iff] at he
  obtain ⟨a, ha⟩ := mapFind_of_key he
  obtain ⟨ie, h1, h2, h3, h4⟩ := hg e a (mapFind_mem ha)
  refine ⟨ie.source, ie.target, ?_, ?_, h2, h3, h4⟩
  · simp [getEdgeSource, getIntrusiveEdge, ha, h1]
  · simp [getEdgeTarget, getIntrusiveEdge, ha, h1]

/-- C2: in every state reached from a freshly constructed container by a finite
sequence of `addVertex`, `addEdge` (both forms), `removeEdge` (both forms) and
`removeVertex` calls, each of which returns or throws, every registered edge has
a recorded source and a recorded target, and both are members of the vertex
set. -/
theorem registered_endpoints_are_members (allowMultipleEdges allowLoops directed : Bool)
    (calls : List Call) (g : AbstractBaseGraph)
    (hrun : runCalls (AbstractBaseGraph.create allowMultipleEdges allowLoops directed) calls
      = some g)
    (e : Nat) (he : containsEdge g e = true) :
    ∃ s t, getEdgeSource g e = some s ∧ getEdgeTarget g e = some t
      ∧ containsVertex g s = true ∧ containsVertex g t = true := by
  have hg := stable_runCalls stable_EdgesSound calls (EdgesSound_create _ _ _) hrun
  obtain ⟨s, t, h1, h2, h3, h4, _⟩ := endpoints_of_sound hg e he
  exact ⟨s, t, h1, h2, h3, h4⟩

/-- C4: in every state reached from a container constructed with
`allowLoops = false`, by calls of either form of `addEdge` and of the other
mutating operations, each of which returns or throws, no registered edge has its
recorded source equal to its recorded target. -/
theorem no_loop_when_loops_disallowed (allowMultipleEdges directed : Bool)
    (calls : List Call) (g : AbstractBaseGraph)
    (hrun : runCalls (AbstractBaseGraph.create allowMultipleEdges false directed) calls
      = some g)
    (e : Nat) (he : containsEdge g e = true) :
    ∃ s t, getEdgeSource g e = some s ∧ getEdgeTarget g e = some t ∧ s ≠ t := by
  have hg := stable_runCalls stable_EdgesSound calls (EdgesSound_create _ _ _) hrun
  have hl : g.allowingLoops = false :=
    stable_runCalls (stable_allowingLoops false) calls rfl hrun
  obtain ⟨s, t, h1, h2, _, _, h5⟩ := endpoints_of_sound hg e he
  exact ⟨s, t, h1, h2, h5 hl⟩

theorem registered_endpoints_are_members_witness :
    ∃ g, runCalls (AbstractBaseGraph.create false true true)
        [.addVertex 1, .addVertex 2, .addEdge 1 2 101] = some g
      ∧ containsEdge g 101 = true
      ∧ ∃ s t, getEdgeSource g 101 = some s ∧ getEdgeTarget g 101 = some t
        ∧ containsVertex g s = true ∧ containsVertex g t = true :=
  ⟨_, rfl, rfl, registered_endpoints_are_members false true true
    [.addVertex 1, .addVertex 2, .addEdge 1 2 101] _ rfl 101 rfl⟩

theorem no_loop_when_loops_disallowed_witness :
    ∃ g, runCalls (AbstractBaseGraph.create false false true)
        [.addVertex 1, .addVertex 2, .addEdge 1 2 101, .addEdgeE 2 1 102] = some g
      ∧ containsEdge g 102 = true
      ∧ ∃ s t, getEdgeSource g 102 = some s ∧ getEdgeTarget g 102 = some t ∧ s ≠ t :=
  ⟨_, rfl, rfl, no_loop_when_loops_disallowed false true
    [.addVertex 1, .addVertex 2, .addEdge 1 2 101, .addEdgeE 2 1 102] _ rfl 102 rfl⟩

theorem addVertex_contract_witness :
    (1 ≠ NULL)
    ∧ (∃ g1, addVertex (AbstractBaseGraph.create false true true) 1
          = .returns (!containsVertex (AbstractBaseGraph.create false true true) 1) g1
        ∧ containsVertex g1 1 = true
        ∧ (containsVertex (AbstractBaseGraph.create false true true) 1 = true
            → g1 = AbstractBaseGraph.create false true true)
        ∧ addVertex g1 1 = .returns false g1)
    ∧ addVertex (AbstractBaseGraph.create false true true) NULL
        = .throws (.invalid_argument "NULL-pointer given for v")
            (AbstractBaseGraph.create false true true) :=
  ⟨by decide, addVertex_contract (AbstractBaseGraph.create false true true) 1 (by decide)⟩

theorem addEdge_missing_vertex_witness :
    (containsVertex (after (AbstractBaseGraph.create false true true) [.addVertex 1]) 1 = false
      ∨ containsVertex (after (AbstractBaseGraph.create false true true) [.addVertex 1]) 2
        = false)
    ∧ ∃ what, addEdge (after (AbstractBaseGraph.create false true true) [.addVertex 1]) 1 2 101
        = .throws (.invalid_argument what)
            (after (AbstractBaseGraph.create false true true) [.addVertex 1]) :=
  ⟨Or.inr rfl, addEdge_missing_vertex
    (after (AbstractBaseGraph.create false true true) [.addVertex 1]) 1 2 101 (Or.inr rfl)⟩

/-! ## Where the code departs from the contract -/

/-- C1: on a directed container, after `addVertex(1)`, `addVertex(2)` and a
successful `addEdge(1, 2)`, the new edge is registered with source 1 and
target 2, yet `outgoingEdgesOf(1)` and `incomingEdgesOf(2)` return empty sets;
on an undirected container `edgesOf(1)` and `edgesOf(2)` are empty as well. -/
theorem registered_edge_missing_from_adjacency :
    (runCalls (AbstractBaseGraph.create false true true)
        [.addVertex 1, .addVertex 2, .addEdge 1 2 101]).isSome = true
    ∧ containsEdge (after (AbstractBaseGraph.create false true true)
        [.addVertex 1, .addVertex 2, .addEdge 1 2 101]) 101 = true
    ∧ getEdgeSource (after (AbstractBaseGraph.create false true true)
        [.addVertex 1, .addVertex 2, .addEdge 1 2 101]) 101 = some 1
    ∧ getEdgeTarget (after (AbstractBaseGraph.create false true true)
        [.addVertex 1, .addVertex 2, .addEdge 1 2 101]) 101 = some 2
    ∧ elementsOf (outgoingEdgesOf (after (AbstractBaseGraph.create false true true)
        [.addVertex 1, .addVertex 2, .addEdge 1 2 101]) 1) = some []
    ∧ elementsOf (incomingEdgesOf (after (AbstractBaseGraph.create false true true)
        [.addVertex 1, .addVertex 2, .addEdge 1 2 101]) 2) = some []
    ∧ (runCalls (AbstractBaseGraph.create true true false)
        [.addVertex 1, .addVertex 2, .addEdge 1 2 101]).isSome = true
    ∧ containsEdge (after (AbstractBaseGraph.create true true false)
        [.addVertex 1, .addVertex 2, .addEdge 1 2 101]) 101 = true
    ∧ elementsOf (edgesOf (after (AbstractBaseGraph.create true true false)
        [.addVertex 1, .addVertex 2, .addEdge 1 2 101]) 1) = some []
    ∧ elementsOf (edgesOf (after (AbstractBaseGraph.create true true false)
        [.addVertex 1, .addVertex 2, .addEdge 1 2 101]) 2) = some [] := by
  decide

/-- C3: on a directed container constructed with `allowMultipleEdges = false`,
after `addVertex(1)`, `addVertex(2)` and two calls `addEdge(1, 2)` for which the
edge factory builds the distinct edges 101 and 102, both edges are registered
with source 1 and target 2. -/
theorem two_edges_share_endpoints_without_multiplicity :
    (runCalls (AbstractBaseGraph.create false true true)
        [.addVertex 1, .addVertex 2, .addEdge 1 2 101, .addEdge 1 2 102]).isSome = true
    ∧ (after (AbstractBaseGraph.create false true true)
        [.addVertex 1, .addVertex 2, .addEdge 1 2 101, .addEdge 1 2 102]).allowingMultipleEdges
        = false
    ∧ containsEdge (after (AbstractBaseGraph.create false true true)
        [.addVertex 1, .addVertex 2, .addEdge 1 2 101, .addEdge 1 2 102]) 101 = true
    ∧ containsEdge (after (AbstractBaseGraph.create false true true)
        [.addVertex 1, .addVertex 2, .addEdge 1 2 101, .addEdge 1 2 102]) 102 = true
    ∧ getEdgeSource (after (AbstractBaseGraph.create false true true)
        [.addVertex 1, .addVertex 2, .addEdge 1 2 101, .addEdge 1 2 102]) 101 = some 1
    ∧ getEdgeTarget (after (AbstractBaseGraph.create false true true)
        [.addVertex 1, .addVertex 2, .addEdge 1 2 101, .addEdge 1 2 102]) 101 = some 2
    ∧ getEdgeSource (after (AbstractBaseGraph.create false true true)
        [.addVertex 1, .addVertex 2, .addEdge 1 2 101, .addEdge 1 2 102]) 102 = some 1
    ∧ getEdgeTarget (after (AbstractBaseGraph.create false true true)
        [.addVertex 1, .addVertex 2, .addEdge 1 2 101, .addEdge 1 2 102]) 102 = some 2 := by
  decide

/-- C5: on an undirected container constructed with `allowMultipleEdges = false`,
with member vertices 1 and 2 and no edge at all, the behaviour of `addEdge(1, 2)`
is undefined: the call does not return the edge 101 built by the factory. -/
theorem addEdge_undefined_on_undirected_simple :
    containsVertex (after (AbstractBaseGraph.create false true false)
        [.addVertex 1, .addVertex 2]) 1 = true
    ∧ containsVertex (after (AbstractBaseGraph.create false true false)
        [.addVertex 1, .addVertex 2]) 2 = true
    ∧ (after (AbstractBaseGraph.create false true false)
        [.addVertex 1, .addVertex 2]).edgeMap = []
    ∧ addEdge (after (AbstractBaseGraph.create false true false)
        [.addVertex 1, .addVertex 2]) 1 2 101 = .undefined := by
  decide

/-- C6: Scenario A on a directed container constructed with
`allowMultipleEdges = false`: after `addEdge(1, 2)` and `addEdge(1, 3)` on the
vertices 1, 2, 3, the third call `addEdge(1, 2)`, for which the factory builds
the new edge 103, returns 103 instead of null, and afterwards `edgeSet()` has
three elements. -/
theorem second_addEdge_is_accepted :
    (addEdge (after (AbstractBaseGraph.create false true true)
        [.addVertex 1, .addVertex 2, .addVertex 3, .addEdge 1 2 101, .addEdge 1 3 102])
        1 2 103).value = some 103
    ∧ (edgeSet (after (AbstractBaseGraph.create false true true)
        [.addVertex 1, .addVertex 2, .addVertex 3, .addEdge 1 2 101, .addEdge 1 3 102,
          .addEdge 1 2 103])).length = 3
    ∧ (after (AbstractBaseGraph.create false true true)
        [.addVertex 1, .addVertex 2, .addVertex 3, .addEdge 1 2 101, .addEdge 1 3 102,
          .addEdge 1 2 103]).specifics.getVertexSet = [1, 2, 3]
    ∧ containsEdge (after (AbstractBaseGraph.create false true true)
        [.addVertex 1, .addVertex 2, .addVertex 3, .addEdge 1 2 101, .addEdge 1 3 102,
          .addEdge 1 2 103]) 103 = true := by
  decide

/-- C7: on an undirected container constructed with `allowMultipleEdges = false`
and `allowLoops = false`, with the member vertex 1, the behaviour of
`addEdge(1, 1)` is undefined: the call does not throw `invalid_argument`. -/
theorem loop_rejection_undefined_on_undirected_simple :
    containsVertex (after (AbstractBaseGraph.create false false false) [.addVertex 1]) 1 = true
    ∧ (after (AbstractBaseGraph.create false false false) [.addVertex 1]).allowingLoops = false
    ∧ addEdge (after (AbstractBaseGraph.create false false false) [.addVertex 1]) 1 1 101
        = .undefined := by
  decide

/-- C10: on an undirected container with the vertices 1, 2 and the edge 101
between them, `removeVertex(1)` returns true, and afterwards 1 is still a member
of the vertex set and the edge 101 with source 1 is still registered.  On the
directed container of Scenario A the behaviour of `removeVertex(1)` is
undefined. -/
theorem removeVertex_keeps_the_vertex :
    containsVertex (after (AbstractBaseGraph.create true true false)
        [.addVertex 1, .addVertex 2, .addEdge 1 2 101]) 1 = true
    ∧ (removeVertex (after (AbstractBaseGraph.create true true false)
        [.addVertex 1, .addVertex 2, .addEdge 1 2 101]) 1).value = some true
    ∧ (runCalls (AbstractBaseGraph.create true true false)
        [.addVertex 1, .addVertex 2, .addEdge 1 2 101, .removeVertex 1]).isSome = true
    ∧ containsVertex (after (AbstractBaseGraph.create true true false)
        [.addVertex 1, .addVertex 2, .addEdge 1 2 101, .removeVertex 1]) 1 = true
    ∧ containsEdge (after (AbstractBaseGraph.create true true false)
        [.addVertex 1, .addVertex 2, .addEdge 1 2 101, .removeVertex 1]) 101 = true
    ∧ getEdgeSource (after (AbstractBaseGraph.create true true false)
        [.addVertex 1, .addVertex 2, .addEdge 1 2 101, .removeVertex 1]) 101 = some 1
    ∧ removeVertex (after (AbstractBaseGraph.create false true true)
        [.addVertex 1, .addVertex 2, .addVertex 3, .addEdge 1 2 101, .addEdge 1 3 102]) 1
        = .undefined := by
  decide

/-! ## The edge containers are never stored -/

theorem stable_NoContainerStored : Stable NoContainerStored where
  of_core := by
    intro g g1 h hg p hp
    rw [core_specifics h] at hp
    exact hg p hp
  directedVertex := by
    intro g v hg p hp
    unfold DirectedSpecifics.addVertex at hp
    cases hs : g.specifics with
    | UndirectedSpecifics vm => rw [hs] at hp; exact hg p hp
    | DirectedSpecifics vm =>
      rw [hs] at hp
      rcases mem_mapInsert hp with h | h
      · rw [h]
      · exact hg p (by rw [hs]; exact h)
  undirectedVertex := by
    intro g v hg p hp
    unfold UndirectedSpecifics.addVertex at hp
    cases hs : g.specifics with
    | DirectedSpecifics vm => rw [hs] at hp; exact hg p hp
    | UndirectedSpecifics vm =>
      rw [hs] at hp
      rcases mem_mapInsert hp with h | h
      · rw [h]
      · exact hg p (by rw [hs]; exact h)
  register := by
    intro g e s t _ _ _ hg
    exact hg
  erase := by
    intro g e hg
    exact hg

theorem NoContainerStored_create (m l d : Bool) :
    NoContainerStored (AbstractBaseGraph.create m l d) := by
  intro p hp
  cases d <;> simp [AbstractBaseGraph.create, Specifics.vertexMap] at hp

theorem directed_getEdgeContainer_new {g : AbstractBaseGraph} {vm : List (Nat × Nat)}
    (hs : g.specifics = .DirectedSpecifics vm) (hn : NoContainerStored g) {v : Nat}
    (hv : containsVertex g v = true) :
    DirectedSpecifics.getEdgeContainer g v
      = .returns (g.directedContainers.length + 1)
          { g with directedContainers := g.directedContainers ++ [⟨[], []⟩] } := by
  have hkey : v ∈ vm.map Prod.fst := by
    have h := (containsVertex_iff g v).mp hv
    rw [hs] at h; exact h
  obtain ⟨a, ha⟩ := mapFind_of_key hkey
  have h0 : a = NULL := hn (v, a) (by rw [hs]; exact mapFind_mem ha)
  subst h0
  unfold DirectedSpecifics.getEdgeContainer
  rw [assertVertexExist_of_member hv]
  simp only [Outcome.bind, hs, ha, if_true, mapInsert_of_key hkey]

theorem undirected_getEdgeContainer_new {g : AbstractBaseGraph} {vm : List (Nat × Nat)}
    (hs : g.specifics = .UndirectedSpecifics vm) (hn : NoContainerStored g) {v : Nat}
    (hv : containsVertex g v = true) :
    UndirectedSpecifics.getEdgeContainer g v
      = .returns (g.undirectedContainers.length + 1)
          { g with undirectedContainers := g.undirectedContainers ++ [⟨[]⟩] } := by
  have hkey : v ∈ vm.map Prod.fst := by
    have h := (containsVertex_iff g v).mp hv
    rw [hs] at h; exact h
  obtain ⟨a, ha⟩ := mapFind_of_key hkey
  have h0 : a = NULL := hn (v, a) (by rw [hs]; exact mapFind_mem ha)
  subst h0
  unfold UndirectedSpecifics.getEdgeContainer
  rw [assertVertexExist_of_member hv]
  simp only [Outcome.bind, hs, ha, if_true, mapInsert_of_key hkey]

/-- In every state reached from a freshly constructed container, the adjacency
queries of every member vertex return empty sets, whatever edges are
registered: `outgoingEdgesOf` and `incomingEdgesOf` on a directed container,
`edgesOf` on an undirected one. -/
theorem adjacency_always_empty (allowMultipleEdges allowLoops directed : Bool)
    (calls : List Call) (g : AbstractBaseGraph)
    (hrun : runCalls (AbstractBaseGraph.create allowMultipleEdges allowLoops directed) calls
      = some g)
    (v : Nat) (hv : containsVertex g v = true) :
    (∀ vm, g.specifics = .DirectedSpecifics vm →
      elementsOf (outgoingEdgesOf g v) = some [] ∧ elementsOf (incomingEdgesOf g v) = some [])
    ∧ (∀ vm, g.specifics = .UndirectedSpecifics vm → elementsOf (edgesOf g v) = some []) := by
  have hn := stable_runCalls stable_NoContainerStored calls (NoContainerStored_create _ _ _) hrun
  constructor
  · intro vm hs
    have hc := directed_getEdgeContainer_new hs hn hv
    constructor
    · simp only [outgoingEdgesOf, hs, DirectedSpecifics.outgoingEdgesOf, hc, Outcome.bind,
        elementsOf, deref, load_new, Option.map_some']
    · simp only [incomingEdgesOf, hs, DirectedSpecifics.incomingEdgesOf, hc, Outcome.bind,
        elementsOf, deref, load_new, Option.map_some']
  · intro vm hs
    have hc := undirected_getEdgeContainer_new hs hn hv
    simp only [edgesOf, hs, UndirectedSpecifics.edgesOf, hc, Outcome.bind,
      elementsOf, deref, load_new, Option.map_some']

theorem adjacency_always_empty_witness :
    ∃ g, runCalls (AbstractBaseGraph.create false true true)
        [.addVertex 1, .addVertex 2, .addEdge 1 2 101] = some g
      ∧ containsVertex g 1 = true
      ∧ (∀ vm, g.specifics = .DirectedSpecifics vm →
          elementsOf (outgoingEdgesOf g 1) = some []
            ∧ elementsOf (incomingEdgesOf g 1) = some [])
      ∧ (∀ vm, g.specifics = .UndirectedSpecifics vm → elementsOf (edgesOf g 1) = some []) :=
  ⟨_, rfl, rfl, adjacency_always_empty false true true
    [.addVertex 1, .addVertex 2, .addEdge 1 2 101] _ rfl 1 rfl⟩

theorem stable_directed :
    Stable (fun g => ∃ vm, g.specifics = Specifics.DirectedSpecifics vm) where
  of_core := by
    intro g g1 h hg
    rw [core_specifics h]; exact hg
  directedVertex := by
    rintro g v ⟨vm, hvm⟩
    unfold DirectedSpecifics.addVertex
    rw [hvm]
    exact ⟨_, rfl⟩
  undirectedVertex := by
    rintro g v ⟨vm, hvm⟩
    unfold UndirectedSpecifics.addVertex
    rw [hvm]
    exact ⟨vm, hvm⟩
  register := by
    intro g e s t _ _ _ hg
    exact hg
  erase := by
    intro g e hg
    exact hg

theorem stable_undirected :
    Stable (fun g => ∃ vm, g.specifics = Specifics.UndirectedSpecifics vm) where
  of_core := by
    intro g g1 h hg
    rw [core_specifics h]; exact hg
  directedVertex := by
    rintro g v ⟨vm, hvm⟩
    unfold DirectedSpecifics.addVertex
    rw [hvm]
    exact ⟨vm, hvm⟩
  undirectedVertex := by
    rintro g v ⟨vm, hvm⟩
    unfold UndirectedSpecifics.addVertex
    rw [hvm]
    exact ⟨_, rfl⟩
  register := by
    intro g e s t _ _ _ hg
    exact hg
  erase := by
    intro g e hg
    exact hg

theorem stable_allowingMultipleEdges (m : Bool) :
    Stable (fun g => g.allowingMultipleEdges = m) where
  of_core := by
    intro g g1 h hg
    rw [core_allowingMultipleEdges h]; exact hg
  directedVertex := by
    intro g v hg
    unfold DirectedSpecifics.addVertex
    split <;> exact hg
  undirectedVertex := by
    intro g v hg
    unfold UndirectedSpecifics.addVertex
    split <;> exact hg
  register := by
    intro g e s t _ _ _ hg
    exact hg
  erase := by
    intro g e hg
    exact hg

theorem directed_getEdge_null {g : AbstractBaseGraph} {vm : List (Nat × Nat)}
    (hs : g.specifics = .DirectedSpecifics vm) (hn : NoContainerStored g) (s t : Nat) :
    ∃ g1, getEdge g s t = .returns NULL g1 ∧ g1.core = g.core := by
  unfold getEdge
  simp only [hs]
  unfold DirectedSpecifics.getEdge
  split_ifs with hc
  · simp only [Bool.and_eq_true] at hc
    rw [directed_getEdgeContainer_new hs hn hc.1]
    simp only [Outcome.bind, load_new, DirectedSpecifics.getEdgeLoop]
    exact ⟨_, rfl, rfl⟩
  · exact ⟨g, rfl, rfl⟩

theorem directed_lookup_null (allowMultipleEdges allowLoops : Bool)
    (calls : List Call) (g : AbstractBaseGraph)
    (hrun : runCalls (AbstractBaseGraph.create allowMultipleEdges allowLoops true) calls
      = some g)
    (s t : Nat) :
    (∃ g1, getEdge g s t = .returns NULL g1 ∧ g1.core = g.core)
    ∧ (∃ g1, containsEdgeV g s t = .returns false g1 ∧ g1.core = g.core) := by
  have hn := stable_runCalls stable_NoContainerStored calls (NoContainerStored_create _ _ _) hrun
  have hd : ∃ vm, g.specifics = .DirectedSpecifics vm :=
    stable_runCalls stable_directed calls ⟨[], rfl⟩ hrun
  obtain ⟨vm, hs⟩ := hd
  obtain ⟨g1, h1, h2⟩ := directed_getEdge_null hs hn s t
  refine ⟨⟨g1, h1, h2⟩, g1, ?_, h2⟩
  unfold containsEdgeV
  rw [h1]
  simp [Outcome.bind]

/-- In every state reached from a freshly constructed directed container,
`getEdge(s, t)` returns null for all vertices `s` and `t`, whatever edges are
registered, and changes nothing but unreferenced edge containers; so
`containsEdgeV(s, t)` is false. -/
theorem directed_getEdge_always_null (allowMultipleEdges allowLoops : Bool)
    (calls : List Call) (g : AbstractBaseGraph)
    (hrun : runCalls (AbstractBaseGraph.create allowMultipleEdges allowLoops true) calls
      = some g)
    (s t : Nat) :
    (∃ g1, getEdge g s t = .returns NULL g1 ∧ g1.core = g.core)
    ∧ (∃ g1, containsEdgeV g s t = .returns false g1 ∧ g1.core = g.core) :=
  directed_lookup_null allowMultipleEdges allowLoops calls g hrun s t

theorem directed_getEdge_always_null_witness :
    ∃ g, runCalls (AbstractBaseGraph.create false true true)
        [.addVertex 1, .addVertex 2, .addEdge 1 2 101] = some g
      ∧ (∃ g1, getEdge g 1 2 = .returns NULL g1 ∧ g1.core = g.core)
      ∧ (∃ g1, containsEdgeV g 1 2 = .returns false g1 ∧ g1.core = g.core) :=
  ⟨_, rfl, directed_getEdge_always_null false true
    [.addVertex 1, .addVertex 2, .addEdge 1 2 101] _ rfl 1 2⟩

/-- In every state reached from a container constructed with
`allowLoops = false` that is directed or allows multiple edges, `addEdge(v, v)`
on a member vertex `v` throws `invalid_argument` ("Loops not allowed") and
changes nothing but unreferenced edge containers: the edge map, the endpoint
records and the vertex map are as before. -/
theorem loop_rejected_on_directed_or_multi (allowMultipleEdges directed : Bool)
    (hmode : directed = true ∨ allowMultipleEdges = true)
    (calls : List Call) (g : AbstractBaseGraph)
    (hrun : runCalls (AbstractBaseGraph.create allowMultipleEdges false directed) calls
      = some g)
    (v created : Nat) (hv : containsVertex g v = true) :
    ∃ g1, addEdge g v v created = .throws (.invalid_argument "Loops not allowed") g1
      ∧ g1.core = g.core := by
  have hl : g.allowingLoops = false :=
    stable_runCalls (stable_allowingLoops false) calls rfl hrun
  have hm : g.allowingMultipleEdges = allowMultipleEdges :=
    stable_runCalls (stable_allowingMultipleEdges allowMultipleEdges) calls rfl hrun
  unfold addEdge
  rw [assertVertexExist_of_member hv]
  simp only [Outcome.bind]
  rw [assertVertexExist_of_member hv]
  cases hmm : g.allowingMultipleEdges with
  | true =>
    refine ⟨g, ?_, rfl⟩
    simp [hmm, hl]
  | false =>
    have hd : directed = true := by
      rcases hmode with h | h
      · exact h
      · rw [hm] at hmm; rw [h] at hmm; exact absurd hmm (by simp)
    subst hd
    obtain ⟨_, g1, h1, h2⟩ := directed_lookup_null _ _ calls g hrun v v
    refine ⟨g1, ?_, h2⟩
    simp [hmm, h1, core_allowingLoops h2, hl]

theorem loop_rejected_on_directed_or_multi_witness :
    ∃ g, runCalls (AbstractBaseGraph.create false false true)
        [.addVertex 1, .addVertex 2, .addEdge 1 2 101] = some g
      ∧ containsVertex g 1 = true
      ∧ ∃ g1, addEdge g 1 1 102 = .throws (.invalid_argument "Loops not allowed") g1
        ∧ g1.core = g.core :=
  ⟨_, rfl, rfl, loop_rejected_on_directed_or_multi false true (Or.inl rfl)
    [.addVertex 1, .addVertex 2, .addEdge 1 2 101] _ rfl 1 102 rfl⟩

/-! ## What `addEdge` does where its behaviour is defined -/

theorem mapFind_mapPlace {k : Nat} (v : Nat) {m : List (Nat × Nat)}
    (h : k ∉ m.map Prod.fst) : mapFind k (mapPlace k v m) = some v := by
  induction m with
  | nil => simp [mapPlace, mapFind]
  | cons p m ih =>
    simp only [List.map_cons, List.mem_cons, not_or] at h
    simp only [mapPlace]
    split_ifs with hlt
    · simp [mapFind]
    · simp only [mapFind]
      rw [if_neg (fun hp => h.1 hp.symm)]
      exact ih h.2

theorem mapFind_mapInsert {k : Nat} (v : Nat) {m : List (Nat × Nat)}
    (h : k ∉ m.map Prod.fst) : mapFind k (mapInsert k v m) = some v := by
  unfold mapInsert
  rw [if_neg (fun hc => h ((mapCount_eq_one_iff k m).mp hc))]
  exact mapFind_mapPlace v h

theorem values_mapInsert {k : Nat} (v : Nat) {m : List (Nat × Nat)}
    (h : k ∉ m.map Prod.fst) (y : Nat) :
    y ∈ (mapInsert k v m).map Prod.snd ↔ y = v ∨ y ∈ m.map Prod.snd := by
  unfold mapInsert
  rw [if_neg (fun hc => h ((mapCount_eq_one_iff k m).mp hc))]
  simp only [List.mem_map, mem_mapPlace]
  constructor
  · rintro ⟨p, hp | hp, rfl⟩
    · subst hp; exact Or.inl rfl
    · exact Or.inr ⟨p, hp, rfl⟩
  · rintro (h1 | ⟨p, hp, rfl⟩)
    · exact ⟨(k, v), Or.inl rfl, h1.symm⟩
    · exact ⟨p, Or.inr hp, rfl⟩

theorem setInsert_sorted (x : Nat) {l : List Nat} (h : l.Sorted (· < ·)) :
    (setInsert x l).Sorted (· < ·) := by
  induction l with
  | nil => simp [setInsert]
  | cons y ys ih =>
    have hy := List.sorted_cons.mp h
    simp only [setInsert]
    split_ifs with h1 h2
    · refine List.sorted_cons.mpr ⟨?_, h⟩
      intro z hz
      rcases List.mem_cons.mp hz with hz | hz
      · rw [hz]; exact h1
      · exact lt_trans h1 (hy.1 z hz)
    · exact h
    · refine List.sorted_cons.mpr ⟨?_, ih hy.2⟩
      intro z hz
      rcases (mem_setInsert x z ys).mp hz with hz | hz
      · rw [hz]; omega
      · exact hy.1 z hz

theorem collectValues_sorted (m : List (Nat × Nat)) {eset : List Nat}
    (h : eset.Sorted (· < ·)) : (collectValues m eset).Sorted (· < ·) := by
  induction m generalizing eset with
  | nil => exact h
  | cons p m ih => exact ih (setInsert_sorted p.2 h)

theorem mem_collectValues (m : List (Nat × Nat)) (eset : List Nat) (y : Nat) :
    y ∈ collectValues m eset ↔ y ∈ eset ∨ y ∈ m.map Prod.snd := by
  induction m generalizing eset with
  | nil => simp [collectValues]
  | cons p m ih =>
    simp only [collectValues, ih, mem_setInsert, List.map_cons, List.mem_cons]; tauto

theorem collectValues_length (m : List (Nat × Nat)) :
    (collectValues m []).length = (m.map Prod.snd).toFinset.card := by
  have hs : (collectValues m []).Sorted (· < ·) := collectValues_sorted m List.sorted_nil
  have hn : (collectValues m []).Nodup := hs.nodup
  rw [← List.toFinset_card_of_nodup hn]
  congr 1
  ext y
  simp [mem_collectValues]

theorem stable_ValuesAllocated : Stable ValuesAllocated where
  of_core := by
    intro g g1 h hg p hp
    rw [core_edgeMap h] at hp
    rw [core_intrusiveEdges h]
    exact hg p hp
  directedVertex := by
    intro g v hg
    unfold DirectedSpecifics.addVertex
    split <;> exact hg
  undirectedVertex := by
    intro g v hg
    unfold UndirectedSpecifics.addVertex
    split <;> exact hg
  register := by
    intro g e s t _ _ _ hg p hp
    simp only [List.length_append, List.length_singleton]
    rcases mem_mapInsert hp with h | h
    · rw [h]
    · exact Nat.le_succ_of_le (hg p h)
  erase := by
    intro g e hg p hp
    exact hg p (mem_mapErase hp)

theorem stable_noEdgeSetCache : Stable (fun g => g.unmodifiableEdgeSet = none) where
  of_core := by
    intro g g1 h hg
    have h2 := congrArg AbstractBaseGraph.unmodifiableEdgeSet h
    exact h2.trans hg
  directedVertex := by
    intro g v hg
    unfold DirectedSpecifics.addVertex
    split <;> exact hg
  undirectedVertex := by
    intro g v hg
    unfold UndirectedSpecifics.addVertex
    split <;> exact hg
  register := by
    intro g e s t _ _ _ hg
    exact hg
  erase := by
    intro g e hg
    exact hg

theorem directed_getEdgeContainer_on {g : AbstractBaseGraph} {vm : List (Nat × Nat)}
    (hs : g.specifics = .DirectedSpecifics vm) (hn : NoContainerStored g) {v : Nat}
    (hv : containsVertex g v = true) (heap : List DirectedEdgeContainer) :
    DirectedSpecifics.getEdgeContainer { g with directedContainers := heap } v
      = .returns (heap.length + 1) { g with directedContainers := heap ++ [⟨[], []⟩] } :=
  directed_getEdgeContainer_new (g := { g with directedContainers := heap }) hs hn hv

theorem undirected_getEdgeContainer_on {g : AbstractBaseGraph} {vm : List (Nat × Nat)}
    (hs : g.specifics = .UndirectedSpecifics vm) (hn : NoContainerStored g) {v : Nat}
    (hv : containsVertex g v = true) (heap : List UndirectedEdgeContainer) :
    UndirectedSpecifics.getEdgeContainer { g with undirectedContainers := heap } v
      = .returns (heap.length + 1) { g with undirectedContainers := heap ++ [⟨[]⟩] } :=
  undirected_getEdgeContainer_new (g := { g with undirectedContainers := heap }) hs hn hv

theorem addEdgeToTouchingVertices_returns {g : AbstractBaseGraph}
    (hn : NoContainerStored g) {e s t : Nat} (hsrc : getEdgeSource g e = some s)
    (htgt : getEdgeTarget g e = some t) (hs : containsVertex g s = true)
    (ht : containsVertex g t = true) :
    ∃ g1, addEdgeToTouchingVertices g e = .returns () g1 := by
  unfold addEdgeToTouchingVertices
  cases hsp : g.specifics with
  | DirectedSpecifics vm =>
    simp only
    unfold DirectedSpecifics.addEdgeToTouchingVertices
    rw [hsrc, htgt]
    simp only
    rw [directed_getEdgeContainer_new hsp hn hs]
    simp only [Outcome.bind, DirectedSpecifics.update, load_new]
    rw [directed_getEdgeContainer_on hsp hn ht]
    simp only [load_new]
    exact ⟨_, rfl⟩
  | UndirectedSpecifics vm =>
    simp only
    unfold UndirectedSpecifics.addEdgeToTouchingVertices
    rw [hsrc, htgt]
    simp only
    rw [undirected_getEdgeContainer_new hsp hn hs]
    simp only [Outcome.bind, UndirectedSpecifics.update, load_new]
    split_ifs with hst
    · rw [undirected_getEdgeContainer_on hsp hn ht]
      simp only [load_new]
      exact ⟨_, rfl⟩
    · exact ⟨_, rfl⟩

theorem register_returns {g : AbstractBaseGraph} (hn : NoContainerStored g)
    (hva : ValuesAllocated g) (hcache : g.unmodifiableEdgeSet = none) {e s t : Nat}
    (hs : containsVertex g s = true) (ht : containsVertex g t = true)
    (hnew : containsEdge g e = false) :
    ∃ g1, addEdgeToTouchingVertices
          { g with
            intrusiveEdges := g.intrusiveEdges ++ [⟨s, t⟩]
            edgeMap := mapInsert e (g.intrusiveEdges.length + 1) g.edgeMap } e
        = .returns () g1
      ∧ containsEdge g1 e = true
      ∧ getEdgeSource g1 e = some s ∧ getEdgeTarget g1 e = some t
      ∧ (edgeSet g1).length = (edgeSet g).length + 1
      ∧ g1.specifics = g.specifics := by
  have hkey : e ∉ g.edgeMap.map Prod.fst := by
    intro h
    rw [← containsEdge_iff, hnew] at h
    exact absurd h (by simp)
  have hfind := mapFind_mapInsert (g.intrusiveEdges.length + 1) hkey
  have hsrc : getEdgeSource { g with
      intrusiveEdges := g.intrusiveEdges ++ [⟨s, t⟩]
      edgeMap := mapInsert e (g.intrusiveEdges.length + 1) g.edgeMap } e = some s := by
    simp [getEdgeSource, getIntrusiveEdge, hfind, load_new]
  have htgt : getEdgeTarget { g with
      intrusiveEdges := g.intrusiveEdges ++ [⟨s, t⟩]
      edgeMap := mapInsert e (g.intrusiveEdges.length + 1) g.edgeMap } e = some t := by
    simp [getEdgeTarget, getIntrusiveEdge, hfind, load_new]
  obtain ⟨g1, hret⟩ := addEdgeToTouchingVertices_returns
    (g := { g with
      intrusiveEdges := g.intrusiveEdges ++ [⟨s, t⟩]
      edgeMap := mapInsert e (g.intrusiveEdges.length + 1) g.edgeMap })
    hn hsrc htgt hs ht
  have hcore := frame_addEdgeToTouchingVertices { g with
      intrusiveEdges := g.intrusiveEdges ++ [⟨s, t⟩]
      edgeMap := mapInsert e (g.intrusiveEdges.length + 1) g.edgeMap } e g1
      (by rw [hret]; rfl)
  have hmap : g1.edgeMap = mapInsert e (g.intrusiveEdges.length + 1) g.edgeMap := by
    have h2 := congrArg AbstractBaseGraph.edgeMap hcore
    exact h2
  have hheap : g1.intrusiveEdges = g.intrusiveEdges ++ [⟨s, t⟩] := by
    have h2 := congrArg AbstractBaseGraph.intrusiveEdges hcore
    exact h2
  have hspec : g1.specifics = g.specifics := by
    have h2 := congrArg AbstractBaseGraph.specifics hcore
    exact h2
  have hcache1 : g1.unmodifiableEdgeSet = none := by
    have h2 := congrArg AbstractBaseGraph.unmodifiableEdgeSet hcore
    exact h2.trans hcache
  refine ⟨g1, hret, ?_, ?_, ?_, ?_, hspec⟩
  · rw [containsEdge_iff, hmap]
    exact (keys_mapInsert e _ g.edgeMap e).mpr (Or.inl rfl)
  · simp [getEdgeSource, getIntrusiveEdge, hmap, hheap, hfind, load_new]
  · simp [getEdgeTarget, getIntrusiveEdge, hmap, hheap, hfind, load_new]
  · unfold edgeSet
    rw [hcache, hcache1, hmap]
    simp only [collectValues_length]
    have hfresh : g.intrusiveEdges.length + 1 ∉ (g.edgeMap.map Prod.snd).toFinset := by
      intro h
      obtain ⟨p, hp, hp2⟩ := List.mem_map.mp (List.mem_toFinset.mp h)
      have := hva p hp
      omega
    rw [← Finset.card_insert_of_not_mem hfresh]
    congr 1
    ext y
    simp [values_mapInsert _ hkey]

/-- In every state reached from a container that is directed or allows
multiple edges, for member vertices `s` and `t` that the loop policy admits and
an edge built by the factory that is not registered yet, `addEdge(s, t)` returns
that edge; afterwards the edge is registered with source `s` and target `t`,
`edgeSet()` has one more element, and the vertex map is the one before the
call. -/
theorem addEdge_registers_on_directed_or_multi (allowMultipleEdges allowLoops directed : Bool)
    (hmode : directed = true ∨ allowMultipleEdges = true)
    (calls : List Call) (g : AbstractBaseGraph)
    (hrun : runCalls (AbstractBaseGraph.create allowMultipleEdges allowLoops directed) calls
      = some g)
    (s t created : Nat) (hs : containsVertex g s = true) (ht : containsVertex g t = true)
    (hloop : allowLoops = true ∨ s ≠ t) (hnew : containsEdge g created = false) :
    ∃ g1, addEdge g s t created = .returns created g1
      ∧ containsEdge g1 created = true
      ∧ getEdgeSource g1 created = some s ∧ getEdgeTarget g1 created = some t
      ∧ (edgeSet g1).length = (edgeSet g).length + 1
      ∧ g1.specifics = g.specifics := by
  have hn := stable_runCalls stable_NoContainerStored calls (NoContainerStored_create _ _ _) hrun
  have hl : g.allowingLoops = allowLoops :=
    stable_runCalls (stable_allowingLoops allowLoops) calls rfl hrun
  have hm : g.allowingMultipleEdges = allowMultipleEdges :=
    stable_runCalls (stable_allowingMultipleEdges allowMultipleEdges) calls rfl hrun
  have hcache : g.unmodifiableEdgeSet = none :=
    stable_runCalls stable_noEdgeSetCache calls rfl hrun
  have hva : ValuesAllocated g :=
    stable_runCalls stable_ValuesAllocated calls
      (by intro p hp; simp [AbstractBaseGraph.create] at hp) hrun
  have hfirst : ∃ g0, (if !g.allowingMultipleEdges then containsEdgeV g s t
      else .returns false g) = .returns false g0 ∧ g0.core = g.core := by
    cases hmm : g.allowingMultipleEdges with
    | true => exact ⟨g, by simp, rfl⟩
    | false =>
      have hd : directed = true := by
        rcases hmode with h | h
        · exact h
        · rw [hm] at hmm; rw [h] at hmm; exact absurd hmm (by simp)
      subst hd
      obtain ⟨_, g0, h1, h2⟩ := directed_lookup_null _ _ calls g hrun s t
      exact ⟨g0, by simpa using h1, h2⟩
  obtain ⟨g0, h0, hcore0⟩ := hfirst
  have hn0 : NoContainerStored g0 := stable_NoContainerStored.of_core g g0 hcore0 hn
  have hva0 : ValuesAllocated g0 := stable_ValuesAllocated.of_core g g0 hcore0 hva
  have hcache0 : g0.unmodifiableEdgeSet = none :=
    stable_noEdgeSetCache.of_core g g0 hcore0 hcache
  have hs0 : containsVertex g0 s = true := by rw [core_containsVertex hcore0]; exact hs
  have ht0 : containsVertex g0 t = true := by rw [core_containsVertex hcore0]; exact ht
  have hnew0 : containsEdge g0 created = false := by rw [core_containsEdge hcore0]; exact hnew
  obtain ⟨g1, hret, k1, k2, k3, k4, k5⟩ := register_returns hn0 hva0 hcache0 hs0 ht0 hnew0
  have hlen : (edgeSet g0).length = (edgeSet g).length := by
    unfold edgeSet
    rw [hcache, hcache0, core_edgeMap hcore0]
  have hguard : (!g0.allowingLoops && s == t) = false := by
    rw [core_allowingLoops hcore0, hl]
    rcases hloop with h | h
    · simp [h]
    · simp [h]
  refine ⟨g1, ?_, k1, k2, k3, by rw [k4, hlen], by rw [k5, core_specifics hcore0]⟩
  unfold addEdge
  rw [assertVertexExist_of_member hs]
  simp only [Outcome.bind]
  rw [assertVertexExist_of_member ht]
  simp only [h0, hguard, hnew0, createIntrusiveEdge, hret]
  simp

theorem addEdge_registers_on_directed_or_multi_witness :
    ∃ g, runCalls (AbstractBaseGraph.create false true true)
        [.addVertex 1, .addVertex 2, .addVertex 3, .addEdge 1 2 101] = some g
      ∧ containsVertex g 1 = true ∧ containsVertex g 3 = true
      ∧ containsEdge g 102 = false
      ∧ ∃ g1, addEdge g 1 3 102 = .returns 102 g1
        ∧ containsEdge g1 102 = true
        ∧ getEdgeSource g1 102 = some 1 ∧ getEdgeTarget g1 102 = some 3
        ∧ (edgeSet g1).length = (edgeSet g).length + 1
        ∧ g1.specifics = g.specifics :=
  ⟨_, rfl, rfl, rfl, rfl, addEdge_registers_on_directed_or_multi false true true (Or.inl rfl)
    [.addVertex 1, .addVertex 2, .addVertex 3, .addEdge 1 2 101] _ rfl 1 3 102 rfl rfl
    (Or.inl rfl) rfl⟩

/-! ## The contract of `removeEdge` -/

theorem keys_mapPlace_perm (k v : Nat) (m : List (Nat × Nat)) :
    ((mapPlace k v m).map Prod.fst).Perm (k :: m.map Prod.fst) := by
  induction m with
  | nil => simp [mapPlace]
  | cons p m ih =>
    simp only [mapPlace]
    split_ifs with h
    · simp
    · simp only [List.map_cons]
      exact (List.Perm.cons p.1 ih).trans (List.Perm.swap k p.1 _)

theorem mapErase_sublist (k : Nat) (m : List (Nat × Nat)) : (mapErase k m).Sublist m := by
  induction m with
  | nil => simp [mapErase]
  | cons p m ih =>
    simp only [mapErase]
    split_ifs with h
    · exact List.sublist_cons_self p m
    · exact ih.cons₂ p

theorem key_not_mem_mapErase {k : Nat} {m : List (Nat × Nat)}
    (h : (m.map Prod.fst).Nodup) : k ∉ (mapErase k m).map Prod.fst := by
  induction m with
  | nil => simp [mapErase]
  | cons p m ih =>
    simp only [List.map_cons, List.nodup_cons] at h
    simp only [mapErase]
    split_ifs with hk
    · rw [← hk]; exact h.1
    · simp only [List.map_cons, List.mem_cons, not_or]
      exact ⟨fun hkp => hk hkp.symm, ih h.2⟩

theorem stable_KeysDistinct : Stable KeysDistinct where
  of_core := by
    intro g g1 h hg
    unfold KeysDistinct
    rw [core_edgeMap h]; exact hg
  directedVertex := by
    intro g v hg
    unfold DirectedSpecifics.addVertex
    split <;> exact hg
  undirectedVertex := by
    intro g v hg
    unfold UndirectedSpecifics.addVertex
    split <;> exact hg
  register := by
    intro g e s t _ _ _ hg
    unfold KeysDistinct at hg ⊢
    simp only
    unfold mapInsert
    split_ifs with hc
    · exact hg
    · rw [(keys_mapPlace_perm e _ g.edgeMap).nodup_iff]
      exact List.nodup_cons.mpr ⟨fun h => hc ((mapCount_eq_one_iff e g.edgeMap).mpr h), hg⟩
  erase := by
    intro g e hg
    exact hg.sublist ((mapErase_sublist e g.edgeMap).map Prod.fst)

theorem directed_getEdgeContainer_throws {g : AbstractBaseGraph} {v : Nat}
    (hv : containsVertex g v = false) :
    ∃ ex, DirectedSpecifics.getEdgeContainer g v = .throws ex g := by
  obtain ⟨ex, hex⟩ := assertVertexExist_of_not_member hv
  exact ⟨ex, by unfold DirectedSpecifics.getEdgeContainer; rw [hex]; rfl⟩

theorem undirected_getEdgeContainer_throws {g : AbstractBaseGraph} {v : Nat}
    (hv : containsVertex g v = false) :
    ∃ ex, UndirectedSpecifics.getEdgeContainer g v = .throws ex g := by
  obtain ⟨ex, hex⟩ := assertVertexExist_of_not_member hv
  exact ⟨ex, by unfold UndirectedSpecifics.getEdgeContainer; rw [hex]; rfl⟩

theorem directed_edgesOf_undefined {g : AbstractBaseGraph} {vm : List (Nat × Nat)}
    (hs : g.specifics = .DirectedSpecifics vm) (hn : NoContainerStored g) {v : Nat}
    (hv : containsVertex g v = true) : DirectedSpecifics.edgesOf g v = .undefined := by
  unfold DirectedSpecifics.edgesOf
  rw [directed_getEdgeContainer_new hs hn hv]
  simp only [Outcome.bind]
  rw [directed_getEdgeContainer_on hs hn hv]
  simp only [load_new, DirectedSpecifics.edgesOfLoop]
  rw [directed_getEdgeContainer_on hs hn hv]
  simp [Outcome.bind]

theorem adjacency_empty_of_none_stored {g : AbstractBaseGraph} (hn : NoContainerStored g)
    (v : Nat) (edges : List Nat) :
    (elementsOf (outgoingEdgesOf g v) = some edges → edges = [])
    ∧ (elementsOf (incomingEdgesOf g v) = some edges → edges = [])
    ∧ (elementsOf (edgesOf g v) = some edges → edges = []) := by
  cases hs : g.specifics with
  | DirectedSpecifics vm =>
    cases hv : containsVertex g v with
    | true =>
      have hc := directed_getEdgeContainer_new hs hn hv
      refine ⟨?_, ?_, ?_⟩
      · simp only [outgoingEdgesOf, hs, DirectedSpecifics.outgoingEdgesOf, hc, Outcome.bind,
          elementsOf, deref, load_new, Option.map_some', Option.some.injEq]
        exact fun h => h.symm
      · simp only [incomingEdgesOf, hs, DirectedSpecifics.incomingEdgesOf, hc, Outcome.bind,
          elementsOf, deref, load_new, Option.map_some', Option.some.injEq]
        exact fun h => h.symm
      · simp [edgesOf, hs, directed_edgesOf_undefined hs hn hv, elementsOf]
    | false =>
      obtain ⟨ex, hc⟩ := directed_getEdgeContainer_throws hv
      refine ⟨?_, ?_, ?_⟩
      · simp [outgoingEdgesOf, hs, DirectedSpecifics.outgoingEdgesOf, hc, Outcome.bind,
          elementsOf]
      · simp [incomingEdgesOf, hs, DirectedSpecifics.incomingEdgesOf, hc, Outcome.bind,
          elementsOf]
      · simp [edgesOf, hs, DirectedSpecifics.edgesOf, hc, Outcome.bind, elementsOf]
  | UndirectedSpecifics vm =>
    refine ⟨?_, ?_, ?_⟩
    · simp [outgoingEdgesOf, hs, UndirectedSpecifics.noSuchOperation, elementsOf]
    · simp [incomingEdgesOf, hs, UndirectedSpecifics.noSuchOperation, elementsOf]
    · cases hv : containsVertex g v with
      | true =>
        have hc := undirected_getEdgeContainer_new hs hn hv
        simp only [edgesOf, hs, UndirectedSpecifics.edgesOf, hc, Outcome.bind,
          elementsOf, deref, load_new, Option.map_some', Option.some.injEq]
        exact fun h => h.symm
      | false =>
        obtain ⟨ex, hc⟩ := undirected_getEdgeContainer_throws hv
        simp [edgesOf, hs, UndirectedSpecifics.edgesOf, hc, Outcome.bind, elementsOf]

theorem removeEdgeFromTouchingVertices_returns {g : AbstractBaseGraph}
    (hn : NoContainerStored g) {e s t : Nat} (hsrc : getEdgeSource g e = some s)
    (htgt : getEdgeTarget g e = some t) (hs : containsVertex g s = true)
    (ht : containsVertex g t = true) :
    ∃ g1, removeEdgeFromTouchingVertices g e = .returns () g1 := by
  unfold removeEdgeFromTouchingVertices
  cases hsp : g.specifics with
  | DirectedSpecifics vm =>
    simp only
    unfold DirectedSpecifics.removeEdgeFromTouchingVertices
    rw [hsrc, htgt]
    simp only
    rw [directed_getEdgeContainer_new hsp hn hs]
    simp only [Outcome.bind, DirectedSpecifics.update, load_new]
    rw [directed_getEdgeContainer_on hsp hn ht]
    simp only [load_new]
    exact ⟨_, rfl⟩
  | UndirectedSpecifics vm =>
    simp only
    unfold UndirectedSpecifics.removeEdgeFromTouchingVertices
    rw [hsrc, htgt]
    simp only
    rw [undirected_getEdgeContainer_new hsp hn hs]
    simp only [Outcome.bind, UndirectedSpecifics.update, load_new]
    split_ifs with hst
    · rw [undirected_getEdgeContainer_on hsp hn ht]
      simp only [load_new]
      exact ⟨_, rfl⟩
    · exact ⟨_, rfl⟩

theorem removeEdge_absent {g : AbstractBaseGraph} {e : Nat} (he : containsEdge g e = false) :
    removeEdge g e = .returns false g := by
  simp [removeEdge, he]

theorem removeEdge_registered {g : AbstractBaseGraph} (hn : NoContainerStored g)
    (hsound : EdgesSound g) (hk : KeysDistinct g) {e : Nat} (he : containsEdge g e = true) :
    ∃ g0, removeEdgeFromTouchingVertices g e = .returns () g0 ∧ g0.core = g.core
      ∧ removeEdge g e = .returns true { g0 with edgeMap := mapErase e g0.edgeMap }
      ∧ containsEdge { g0 with edgeMap := mapErase e g0.edgeMap } e = false := by
  obtain ⟨s, t, hsrc, htgt, hs, ht, _⟩ := endpoints_of_sound hsound e he
  obtain ⟨g0, hret⟩ := removeEdgeFromTouchingVertices_returns hn hsrc htgt hs ht
  have hcore : g0.core = g.core :=
    frame_removeEdgeFromTouchingVertices g e g0 (by rw [hret]; rfl)
  refine ⟨g0, hret, hcore, ?_, ?_⟩
  · simp [removeEdge, he, hret, Outcome.bind]
  · have hk0 : KeysDistinct g0 := stable_KeysDistinct.of_core g g0 hcore hk
    cases hc : containsEdge { g0 with edgeMap := mapErase e g0.edgeMap } e with
    | false => rfl
    | true =>
      rw [containsEdge_iff] at hc
      exact absurd hc (key_not_mem_mapErase hk0)

/-- C12: in every state reached from a freshly constructed container by calls
that return or throw, and for every edge `e`, `removeEdge(e)` returns true if
and only if `e` was registered before the call; afterwards `e` is not
registered and no adjacency query of any vertex returns a set that holds `e`;
a second call `removeEdge(e)` returns false and leaves the state as it is. -/
theorem removeEdge_contract (allowMultipleEdges allowLoops directed : Bool)
    (calls : List Call) (g : AbstractBaseGraph)
    (hrun : runCalls (AbstractBaseGraph.create allowMultipleEdges allowLoops directed) calls
      = some g)
    (e : Nat) :
    ∃ g1, removeEdge g e = .returns (containsEdge g e) g1
      ∧ containsEdge g1 e = false
      ∧ (∀ v edges, elementsOf (outgoingEdgesOf g1 v) = some edges → e ∉ edges)
      ∧ (∀ v edges, elementsOf (incomingEdgesOf g1 v) = some edges → e ∉ edges)
      ∧ (∀ v edges, elementsOf (edgesOf g1 v) = some edges → e ∉ edges)
      ∧ removeEdge g1 e = .returns false g1 := by
  have hn := stable_runCalls stable_NoContainerStored calls (NoContainerStored_create _ _ _) hrun
  have hsound := stable_runCalls stable_EdgesSound calls (EdgesSound_create _ _ _) hrun
  have hk : KeysDistinct g :=
    stable_runCalls stable_KeysDistinct calls
      (by simp [KeysDistinct, AbstractBaseGraph.create]) hrun
  have key : ∃ g1, removeEdge g e = .returns (containsEdge g e) g1
      ∧ containsEdge g1 e = false ∧ NoContainerStored g1 := by
    cases he : containsEdge g e with
    | false => exact ⟨g, removeEdge_absent he, he, hn⟩
    | true =>
      obtain ⟨g0, _, hcore, hrem, hgone⟩ := removeEdge_registered hn hsound hk he
      exact ⟨_, hrem, hgone,
        stable_NoContainerStored.erase g0 e (stable_NoContainerStored.of_core g g0 hcore hn)⟩
  obtain ⟨g1, h1, h2, hn1⟩ := key
  refine ⟨g1, h1, h2, ?_, ?_, ?_, removeEdge_absent h2⟩
  · intro v edges h
    rw [(adjacency_empty_of_none_stored hn1 v edges).1 h]
    exact List.not_mem_nil e
  · intro v edges h
    rw [(adjacency_empty_of_none_stored hn1 v edges).2.1 h]
    exact List.not_mem_nil e
  · intro v edges h
    rw [(adjacency_empty_of_none_stored hn1 v edges).2.2 h]
    exact List.not_mem_nil e

theorem removeEdge_contract_witness :
    ∃ g, runCalls (AbstractBaseGraph.create false true true)
        [.addVertex 1, .addVertex 2, .addEdge 1 2 101] = some g
      ∧ containsEdge g 101 = true
      ∧ ∃ g1, removeEdge g 101 = .returns (containsEdge g 101) g1
        ∧ containsEdge g1 101 = false
        ∧ (∀ v edges, elementsOf (outgoingEdgesOf g1 v) = some edges → 101 ∉ edges)
        ∧ (∀ v edges, elementsOf (incomingEdgesOf g1 v) = some edges → 101 ∉ edges)
        ∧ (∀ v edges, elementsOf (edgesOf g1 v) = some edges → 101 ∉ edges)
        ∧ removeEdge g1 101 = .returns false g1 :=
  ⟨_, rfl, rfl, removeEdge_contract false true true
    [.addVertex 1, .addVertex 2, .addEdge 1 2 101] _ rfl 101⟩

/-! ## The contract of `addEdge(V*, V*, E*)` -/

theorem assertVertexExist_invalid_argument {g : AbstractBaseGraph} {v : Nat}
    (h : containsVertex g v = false) :
    ∃ what, assertVertexExist g v = .throws (.invalid_argument what) g := by
  unfold assertVertexExist
  by_cases h0 : v = NULL
  · exact ⟨"Null pointer given", by rw [h, if_pos h0]; rfl⟩
  · exact ⟨"No such vertex in graph", by rw [h, if_neg h0]; rfl⟩

/-- C14: for every state of the container, every registered edge `e` (a
non-null pointer) and all `s`, `t`, `addEdge(s, t, e)` returns false and the
state after the call is the state before it: the edge map, the recorded
endpoints of `e` and all edge containers are as before. -/
theorem addEdgeE_registered (g : AbstractBaseGraph) (s t e : Nat) (he : e ≠ NULL)
    (hreg : containsEdge g e = true) : addEdgeE g s t e = .returns false g := by
  simp [addEdgeE, he, hreg]

theorem addEdgeE_registered_witness :
    (101 ≠ NULL)
    ∧ containsEdge (after (AbstractBaseGraph.create false true true)
        [.addVertex 1, .addVertex 2, .addEdge 1 2 101]) 101 = true
    ∧ addEdgeE (after (AbstractBaseGraph.create false true true)
        [.addVertex 1, .addVertex 2, .addEdge 1 2 101]) 2 1 101
      = .returns false (after (AbstractBaseGraph.create false true true)
        [.addVertex 1, .addVertex 2, .addEdge 1 2 101]) :=
  ⟨by decide, rfl, addEdgeE_registered (after (AbstractBaseGraph.create false true true)
    [.addVertex 1, .addVertex 2, .addEdge 1 2 101]) 2 1 101 (by decide) rfl⟩

/-- C15, the claim at a concrete input: on a directed container constructed
with `allowLoops = false`, with the member vertex 1 and the non-null
unregistered edge 101, `addEdge(1, 1, 101)` throws `invalid_argument` instead of
returning false. -/
theorem addEdgeE_loop_throws :
    containsVertex (after (AbstractBaseGraph.create true false true) [.addVertex 1]) 1 = true
    ∧ (101 ≠ NULL)
    ∧ containsEdge (after (AbstractBaseGraph.create true false true) [.addVertex 1]) 101 = false
    ∧ (after (AbstractBaseGraph.create true false true) [.addVertex 1]).allowingLoops = false
    ∧ addEdgeE (after (AbstractBaseGraph.create true false true) [.addVertex 1]) 1 1 101
      = .throws (.invalid_argument "Loops not allowed")
          (after (AbstractBaseGraph.create true false true) [.addVertex 1]) := by
  decide

/-- C15 as amended: in every state reached from a container constructed with
`allowLoops = false` that is directed or allows multiple edges, for a member
vertex `v` and a non-null unregistered edge `e`, `addEdge(v, v, e)` throws
`invalid_argument` ("Loops not allowed") and leaves the edge map, the endpoint
records, the policy and the vertex map as they were. -/
theorem addEdgeE_loop_rejected (allowMultipleEdges directed : Bool)
    (hmode : directed = true ∨ allowMultipleEdges = true)
    (calls : List Call) (g : AbstractBaseGraph)
    (hrun : runCalls (AbstractBaseGraph.create allowMultipleEdges false directed) calls
      = some g)
    (v e : Nat) (hv : containsVertex g v = true) (he : e ≠ NULL)
    (hnew : containsEdge g e = false) :
    ∃ g1, addEdgeE g v v e = .throws (.invalid_argument "Loops not allowed") g1
      ∧ g1.core = g.core := by
  have hl : g.allowingLoops = false :=
    stable_runCalls (stable_allowingLoops false) calls rfl hrun
  have hm : g.allowingMultipleEdges = allowMultipleEdges :=
    stable_runCalls (stable_allowingMultipleEdges allowMultipleEdges) calls rfl hrun
  unfold addEdgeE
  rw [if_neg he]
  simp only [hnew, Bool.false_eq_true, if_false]
  rw [assertVertexExist_of_member hv]
  simp only [Outcome.bind]
  rw [assertVertexExist_of_member hv]
  cases hmm : g.allowingMultipleEdges with
  | true =>
    refine ⟨g, ?_, rfl⟩
    simp [hmm, hl]
  | false =>
    have hd : directed = true := by
      rcases hmode with h | h
      · exact h
      · rw [hm] at hmm; rw [h] at hmm; exact absurd hmm (by simp)
    subst hd
    obtain ⟨_, g1, h1, h2⟩ := directed_lookup_null _ _ calls g hrun v v
    refine ⟨g1, ?_, h2⟩
    simp [hmm, h1, core_allowingLoops h2, hl]

theorem addEdgeE_loop_rejected_witness :
    ∃ g, runCalls (AbstractBaseGraph.create false false true)
        [.addVertex 1, .addVertex 2, .addEdge 1 2 101] = some g
      ∧ containsVertex g 1 = true ∧ (102 ≠ NULL) ∧ containsEdge g 102 = false
      ∧ ∃ g1, addEdgeE g 1 1 102 = .throws (.invalid_argument "Loops not allowed") g1
        ∧ g1.core = g.core :=
  ⟨_, rfl, rfl, by decide, rfl, addEdgeE_loop_rejected false true (Or.inl rfl)
    [.addVertex 1, .addVertex 2, .addEdge 1 2 101] _ rfl 1 102 rfl (by decide) rfl⟩

/-- C16, the claim at a concrete input: on a container with the vertices 1, 2
and the registered edge 101, of which 3 is not a member, `addEdge(1, 3, 101)`
returns false instead of throwing `invalid_argument`. -/
theorem addEdgeE_registered_edge_missing_vertex :
    (101 ≠ NULL)
    ∧ containsVertex (after (AbstractBaseGraph.create false true true)
        [.addVertex 1, .addVertex 2, .addEdge 1 2 101]) 3 = false
    ∧ containsEdge (after (AbstractBaseGraph.create false true true)
        [.addVertex 1, .addVertex 2, .addEdge 1 2 101]) 101 = true
    ∧ addEdgeE (after (AbstractBaseGraph.create false true true)
        [.addVertex 1, .addVertex 2, .addEdge 1 2 101]) 1 3 101
      = .returns false (after (AbstractBaseGraph.create false true true)
        [.addVertex 1, .addVertex 2, .addEdge 1 2 101]) := by
  decide

/-- C16 as amended: for every state of the container, every non-null edge `e`
that is not registered and all `s`, `t` of which at least one is not a member
of the vertex set, `addEdge(s, t, e)` throws `invalid_argument` and the state
after the call is the state before it. -/
theorem addEdgeE_missing_vertex (g : AbstractBaseGraph) (s t e : Nat) (he : e ≠ NULL)
    (hnew : containsEdge g e = false)
    (h : containsVertex g s = false ∨ containsVertex g t = false) :
    ∃ what, addEdgeE g s t e = .throws (.invalid_argument what) g := by
  unfold addEdgeE
  rw [if_neg he]
  simp only [hnew, Bool.false_eq_true, if_false]
  cases hs : containsVertex g s with
  | false =>
    obtain ⟨what, hex⟩ := assertVertexExist_invalid_argument hs
    exact ⟨what, by rw [hex]; rfl⟩
  | true =>
    have ht : containsVertex g t = false := by
      rcases h with h | h
      · rw [hs] at h; exact absurd h (by simp)
      · exact h
    rw [assertVertexExist_of_member hs]
    simp only [Outcome.bind]
    obtain ⟨what, hex⟩ := assertVertexExist_invalid_argument ht
    exact ⟨what, by rw [hex]⟩

theorem addEdgeE_missing_vertex_witness :
    (102 ≠ NULL)
    ∧ containsEdge (after (AbstractBaseGraph.create false true true)
        [.addVertex 1, .addVertex 2, .addEdge 1 2 101]) 102 = false
    ∧ (containsVertex (after (AbstractBaseGraph.create false true true)
          [.addVertex 1, .addVertex 2, .addEdge 1 2 101]) 1 = false
        ∨ containsVertex (after (AbstractBaseGraph.create false true true)
          [.addVertex 1, .addVertex 2, .addEdge 1 2 101]) 3 = false)
    ∧ ∃ what, addEdgeE (after (AbstractBaseGraph.create false true true)
          [.addVertex 1, .addVertex 2, .addEdge 1 2 101]) 1 3 102
        = .throws (.invalid_argument what) (after (AbstractBaseGraph.create false true true)
          [.addVertex 1, .addVertex 2, .addEdge 1 2 101]) :=
  ⟨by decide, rfl, Or.inr rfl, addEdgeE_missing_vertex
    (after (AbstractBaseGraph.create false true true)
      [.addVertex 1, .addVertex 2, .addEdge 1 2 101]) 1 3 102 (by decide) rfl (Or.inr rfl)⟩

/-! ## Where the removals and the lookups depart from the contract -/

/-- C11: on an undirected container without vertices, `addVertex(1)` returns
true and the following `removeVertex(1)` returns true, yet afterwards 1 is
still a member and the vertex set is `{1}`, not the empty set from before the
two calls.  On a directed container the behaviour of that `removeVertex(1)`
is undefined. -/
theorem addVertex_removeVertex_keeps_the_vertex :
    containsVertex (AbstractBaseGraph.create true true false) 1 = false
    ∧ (AbstractBaseGraph.create true true false).specifics.getVertexSet = []
    ∧ (addVertex (AbstractBaseGraph.create true true false) 1).value = some true
    ∧ (removeVertex (after (AbstractBaseGraph.create true true false) [.addVertex 1]) 1).value
        = some true
    ∧ (runCalls (AbstractBaseGraph.create true true false)
        [.addVertex 1, .removeVertex 1]).isSome = true
    ∧ containsVertex (after (AbstractBaseGraph.create true true false)
        [.addVertex 1, .removeVertex 1]) 1 = true
    ∧ (after (AbstractBaseGraph.create true true false)
        [.addVertex 1, .removeVertex 1]).specifics.getVertexSet = [1]
    ∧ (vertexSet (after (AbstractBaseGraph.create true true false)
        [.addVertex 1, .removeVertex 1])).value = some [1]
    ∧ removeVertex (after (AbstractBaseGraph.create false true true) [.addVertex 1]) 1
        = .undefined := by
  decide

/-- C13: on a directed container with the vertices 1, 2 and the registered
edge 101 from 1 to 2, `removeEdge(1, 2)` returns null and the edge 101 is still
registered afterwards.  On an undirected container with the same vertices and
edge the behaviour of `removeEdge(1, 2)` is undefined. -/
theorem removeEdgeV_misses_the_edge :
    containsEdge (after (AbstractBaseGraph.create false true true)
        [.addVertex 1, .addVertex 2, .addEdge 1 2 101]) 101 = true
    ∧ getEdgeSource (after (AbstractBaseGraph.create false true true)
        [.addVertex 1, .addVertex 2, .addEdge 1 2 101]) 101 = some 1
    ∧ getEdgeTarget (after (AbstractBaseGraph.create false true true)
        [.addVertex 1, .addVertex 2, .addEdge 1 2 101]) 101 = some 2
    ∧ (removeEdgeV (after (AbstractBaseGraph.create false true true)
        [.addVertex 1, .addVertex 2, .addEdge 1 2 101]) 1 2).value = some NULL
    ∧ (runCalls (AbstractBaseGraph.create false true true)
        [.addVertex 1, .addVertex 2, .addEdge 1 2 101, .removeEdgeV 1 2]).isSome = true
    ∧ containsEdge (after (AbstractBaseGraph.create false true true)
        [.addVertex 1, .addVertex 2, .addEdge 1 2 101, .removeEdgeV 1 2]) 101 = true
    ∧ containsEdge (after (AbstractBaseGraph.create true true false)
        [.addVertex 1, .addVertex 2, .addEdge 1 2 101]) 101 = true
    ∧ removeEdgeV (after (AbstractBaseGraph.create true true false)
        [.addVertex 1, .addVertex 2, .addEdge 1 2 101]) 1 2 = .undefined := by
  decide

/-- C17: on a directed container with the vertices 1, 2 and the registered
edge 101 with source 1 and target 2, `getAllEdges(1, 2)` returns an empty
set. -/
theorem directed_getAllEdges_misses_the_edge :
    containsEdge (after (AbstractBaseGraph.create false true true)
        [.addVertex 1, .addVertex 2, .addEdge 1 2 101]) 101 = true
    ∧ getEdgeSource (after (AbstractBaseGraph.create false true true)
        [.addVertex 1, .addVertex 2, .addEdge 1 2 101]) 101 = some 1
    ∧ getEdgeTarget (after (AbstractBaseGraph.create false true true)
        [.addVertex 1, .addVertex 2, .addEdge 1 2 101]) 101 = some 2
    ∧ elementsOf (getAllEdges (after (AbstractBaseGraph.create false true true)
        [.addVertex 1, .addVertex 2, .addEdge 1 2 101]) 1 2) = some [] := by
  decide

/-- C18: on an undirected container with the member vertices 1, 2 and the
registered edge 101 between them, the behaviour of `getAllEdges(1, 2)` and of
`getAllEdges(2, 1)` is undefined: neither call returns the set that holds
101. -/
theorem undirected_getAllEdges_undefined :
    containsVertex (after (AbstractBaseGraph.create true true false)
        [.addVertex 1, .addVertex 2, .addEdge 1 2 101]) 1 = true
    ∧ containsVertex (after (AbstractBaseGraph.create true true false)
        [.addVertex 1, .addVertex 2, .addEdge 1 2 101]) 2 = true
    ∧ containsEdge (after (AbstractBaseGraph.create true true false)
        [.addVertex 1, .addVertex 2, .addEdge 1 2 101]) 101 = true
    ∧ getAllEdges (after (AbstractBaseGraph.create true true false)
        [.addVertex 1, .addVertex 2, .addEdge 1 2 101]) 1 2 = .undefined
    ∧ getAllEdges (after (AbstractBaseGraph.create true true false)
        [.addVertex 1, .addVertex 2, .addEdge 1 2 101]) 2 1 = .undefined := by
  decide

/-- C19: on an undirected container with the member vertices 1, 2 and the
registered edge 101 between them, the behaviour of `getEdge(1, 2)`, of
`getEdge(2, 1)` and of `containsEdgeV(1, 2)` is undefined: the calls give no
result to compare. -/
theorem undirected_getEdge_undefined :
    containsVertex (after (AbstractBaseGraph.create true true false)
        [.addVertex 1, .addVertex 2, .addEdge 1 2 101]) 1 = true
    ∧ containsVertex (after (AbstractBaseGraph.create true true false)
        [.addVertex 1, .addVertex 2, .addEdge 1 2 101]) 2 = true
    ∧ containsEdge (after (AbstractBaseGraph.create true true false)
        [.addVertex 1, .addVertex 2, .addEdge 1 2 101]) 101 = true
    ∧ getEdge (after (AbstractBaseGraph.create true true false)
        [.addVertex 1, .addVertex 2, .addEdge 1 2 101]) 1 2 = .undefined
    ∧ getEdge (after (AbstractBaseGraph.create true true false)
        [.addVertex 1, .addVertex 2, .addEdge 1 2 101]) 2 1 = .undefined
    ∧ containsEdgeV (after (AbstractBaseGraph.create true true false)
        [.addVertex 1, .addVertex 2, .addEdge 1 2 101]) 1 2 = .undefined := by
  decide

/-- C20: on a directed container with the member vertices 1, 2 and the
registered edge 101 from 1 to 2, the behaviour of `edgesOf(1)` and of
`edgesOf(2)` is undefined: neither call returns the set that holds 101. -/
theorem directed_edgesOf_undefined_on_members :
    containsVertex (after (AbstractBaseGraph.create false true true)
        [.addVertex 1, .addVertex 2, .addEdge 1 2 101]) 1 = true
    ∧ containsVertex (after (AbstractBaseGraph.create false true true)
        [.addVertex 1, .addVertex 2, .addEdge 1 2 101]) 2 = true
    ∧ containsEdge (after (AbstractBaseGraph.create false true true)
        [.addVertex 1, .addVertex 2, .addEdge 1 2 101]) 101 = true
    ∧ edgesOf (after (AbstractBaseGraph.create false true true)
        [.addVertex 1, .addVertex 2, .addEdge 1 2 101]) 1 = .undefined
    ∧ edgesOf (after (AbstractBaseGraph.create false true true)
        [.addVertex 1, .addVertex 2, .addEdge 1 2 101]) 2 = .undefined := by
  decide

/-! ## The lookups in every reachable state -/

theorem directed_getAllEdges_new {g : AbstractBaseGraph} {vm : List (Nat × Nat)}
    (hs : g.specifics = .DirectedSpecifics vm) (hn : NoContainerStored g) {s t : Nat}
    (hsm : containsVertex g s = true) (htm : containsVertex g t = true) :
    DirectedSpecifics.getAllEdges g s t
      = .returns (.fresh [])
          { g with directedContainers := g.directedContainers ++ [⟨[], []⟩] } := by
  unfold DirectedSpecifics.getAllEdges
  rw [hsm, htm, directed_getEdgeContainer_new hs hn hsm]
  simp [Outcome.bind, load_new, DirectedSpecifics.getAllEdgesLoop]

theorem undirected_getEdge_mismatch {g : AbstractBaseGraph} {vm : List (Nat × Nat)}
    (hs : g.specifics = .UndirectedSpecifics vm) (hn : NoContainerStored g) {s t : Nat}
    (hsm : containsVertex g s = true) (htm : containsVertex g t = true) :
    UndirectedSpecifics.getEdge g s t = .undefined := by
  unfold UndirectedSpecifics.getEdge
  rw [hsm, htm, undirected_getEdgeContainer_new hs hn hsm]
  simp only [Bool.and_self, if_true, Outcome.bind, load_new,
    UndirectedSpecifics.getEdgeLoop]
  rw [undirected_getEdgeContainer_on hs hn hsm]
  simp

theorem undirected_getAllEdges_mismatch {g : AbstractBaseGraph} {vm : List (Nat × Nat)}
    (hs : g.specifics = .UndirectedSpecifics vm) (hn : NoContainerStored g) {s t : Nat}
    (hsm : containsVertex g s = true) (htm : containsVertex g t = true) :
    UndirectedSpecifics.getAllEdges g s t = .undefined := by
  unfold UndirectedSpecifics.getAllEdges
  rw [hsm, htm, undirected_getEdgeContainer_new hs hn hsm]
  simp only [Bool.and_self, if_true, Outcome.bind, load_new,
    UndirectedSpecifics.getAllEdgesLoop]
  rw [undirected_getEdgeContainer_on hs hn hsm]
  simp

theorem directed_of_create {allowMultipleEdges allowLoops : Bool} {calls : List Call}
    {g : AbstractBaseGraph}
    (hrun : runCalls (AbstractBaseGraph.create allowMultipleEdges allowLoops true) calls
      = some g) :
    NoContainerStored g ∧ ∃ vm, g.specifics = .DirectedSpecifics vm :=
  ⟨stable_runCalls stable_NoContainerStored calls (NoContainerStored_create _ _ _) hrun,
    stable_runCalls stable_directed calls ⟨[], rfl⟩ hrun⟩

theorem undirected_of_create {allowMultipleEdges allowLoops : Bool} {calls : List Call}
    {g : AbstractBaseGraph}
    (hrun : runCalls (AbstractBaseGraph.create allowMultipleEdges allowLoops false) calls
      = some g) :
    NoContainerStored g ∧ ∃ vm, g.specifics = .UndirectedSpecifics vm :=
  ⟨stable_runCalls stable_NoContainerStored calls (NoContainerStored_create _ _ _) hrun,
    stable_runCalls stable_undirected calls ⟨[], rfl⟩ hrun⟩

/-- In every state reached from a freshly constructed directed container,
`getAllEdges(s, t)` returns an empty set for all member vertices `s` and `t`,
whatever edges are registered, and `edgesOf(v)` has undefined behaviour for
every member vertex `v`. -/
theorem directed_queries_in_reachable_states (allowMultipleEdges allowLoops : Bool)
    (calls : List Call) (g : AbstractBaseGraph)
    (hrun : runCalls (AbstractBaseGraph.create allowMultipleEdges allowLoops true) calls
      = some g)
    (s t : Nat) (hsm : containsVertex g s = true) (htm : containsVertex g t = true) :
    elementsOf (getAllEdges g s t) = some [] ∧ edgesOf g s = .undefined := by
  obtain ⟨hn, vm, hs⟩ := directed_of_create hrun
  constructor
  · simp [getAllEdges, hs, directed_getAllEdges_new hs hn hsm htm, elementsOf, deref]
  · simp [edgesOf, hs, directed_edgesOf_undefined hs hn hsm]

theorem directed_queries_in_reachable_states_witness :
    ∃ g, runCalls (AbstractBaseGraph.create false true true)
        [.addVertex 1, .addVertex 2, .addEdge 1 2 101] = some g
      ∧ containsVertex g 1 = true ∧ containsVertex g 2 = true
      ∧ elementsOf (getAllEdges g 1 2) = some [] ∧ edgesOf g 1 = .undefined :=
  ⟨_, rfl, rfl, rfl, directed_queries_in_reachable_states false true
    [.addVertex 1, .addVertex 2, .addEdge 1 2 101] _ rfl 1 2 rfl rfl⟩

/-- In every state reached from a freshly constructed undirected container,
`getEdge(s, t)`, `containsEdgeV(s, t)` and `getAllEdges(s, t)` have undefined
behaviour for all member vertices `s` and `t`. -/
theorem undirected_lookups_in_reachable_states (allowMultipleEdges allowLoops : Bool)
    (calls : List Call) (g : AbstractBaseGraph)
    (hrun : runCalls (AbstractBaseGraph.create allowMultipleEdges allowLoops false) calls
      = some g)
    (s t : Nat) (hsm : containsVertex g s = true) (htm : containsVertex g t = true) :
    getEdge g s t = .undefined ∧ containsEdgeV g s t = .undefined
      ∧ getAllEdges g s t = .undefined := by
  obtain ⟨hn, vm, hs⟩ := undirected_of_create hrun
  have h1 : getEdge g s t = .undefined := by
    simp [getEdge, hs, undirected_getEdge_mismatch hs hn hsm htm]
  refine ⟨h1, ?_, ?_⟩
  · simp [containsEdgeV, h1, Outcome.bind]
  · simp [getAllEdges, hs, undirected_getAllEdges_mismatch hs hn hsm htm]

theorem undirected_lookups_in_reachable_states_witness :
    ∃ g, runCalls (AbstractBaseGraph.create true true false)
        [.addVertex 1, .addVertex 2, .addEdge 1 2 101] = some g
      ∧ containsVertex g 1 = true ∧ containsVertex g 2 = true
      ∧ getEdge g 1 2 = .undefined ∧ containsEdgeV g 1 2 = .undefined
      ∧ getAllEdges g 1 2 = .undefined :=
  ⟨_, rfl, rfl, rfl, undirected_lookups_in_reachable_states true true
    [.addVertex 1, .addVertex 2, .addEdge 1 2 101] _ rfl 1 2 rfl rfl⟩

theorem stable_member (v : Nat) : Stable (fun g => containsVertex g v = true) where
  of_core := by
    intro g g1 h hg
    rw [core_containsVertex h]; exact hg
  directedVertex := by
    intro g w hg
    unfold DirectedSpecifics.addVertex
    cases hs : g.specifics with
    | UndirectedSpecifics vm => exact hg
    | DirectedSpecifics vm =>
      rw [containsVertex_iff] at hg ⊢
      rw [hs] at hg
      exact (keys_mapInsert w NULL vm v).mpr (Or.inr hg)
  undirectedVertex := by
    intro g w hg
    unfold UndirectedSpecifics.addVertex
    cases hs : g.specifics with
    | DirectedSpecifics vm => exact hg
    | UndirectedSpecifics vm =>
      rw [containsVertex_iff] at hg ⊢
      rw [hs] at hg
      exact (keys_mapInsert w NULL vm v).mpr (Or.inr hg)
  register := by
    intro g e s t _ _ _ hg
    exact hg
  erase := by
    intro g e hg
    exact hg

/-- A member of the vertex set stays a member across every sequence of calls
that return or throw, `removeVertex` included: no call removes a key from the
vertex map. -/
theorem vertex_never_removed (g g1 : AbstractBaseGraph) (calls : List Call)
    (hrun : runCalls g calls = some g1) (v : Nat) (hv : containsVertex g v = true) :
    containsVertex g1 v = true :=
  stable_runCalls (stable_member v) calls hv hrun

theorem vertex_never_removed_witness :
    runCalls (after (AbstractBaseGraph.create true true false) [.addVertex 1, .addVertex 2])
        [.addEdge 1 2 101, .removeVertex 1, .removeVertex 2]
      = some (after (AbstractBaseGraph.create true true false)
        [.addVertex 1, .addVertex 2, .addEdge 1 2 101, .removeVertex 1, .removeVertex 2])
    ∧ containsVertex (after (AbstractBaseGraph.create true true false)
        [.addVertex 1, .addVertex 2]) 1 = true
    ∧ containsVertex (after (AbstractBaseGraph.create true true false)
        [.addVertex 1, .addVertex 2, .addEdge 1 2 101, .removeVertex 1, .removeVertex 2]) 1
      = true :=
  ⟨rfl, rfl, vertex_never_removed
    (after (AbstractBaseGraph.create true true false) [.addVertex 1, .addVertex 2])
    (after (AbstractBaseGraph.create true true false)
      [.addVertex 1, .addVertex 2, .addEdge 1 2 101, .removeVertex 1, .removeVertex 2])
    [.addEdge 1 2 101, .removeVertex 1, .removeVertex 2] rfl 1 rfl⟩

/-! ## Degrees, wrong-mode queries and the two set views -/

/-- C21: on an undirected container constructed with `allowLoops = true`, with
the member vertex 1 and the registered loop 101 at 1, `degreeOf(1)` returns 0
and `edgesOf(1)` returns an empty set: the degree is not the size of
`edgesOf(1)` plus the one registered loop at 1. -/
theorem undirected_degree_misses_the_loop :
    (after (AbstractBaseGraph.create true true false)
        [.addVertex 1, .addEdge 1 1 101]).allowingLoops = true
    ∧ containsVertex (after (AbstractBaseGraph.create true true false)
        [.addVertex 1, .addEdge 1 1 101]) 1 = true
    ∧ containsEdge (after (AbstractBaseGraph.create true true false)
        [.addVertex 1, .addEdge 1 1 101]) 101 = true
    ∧ getEdgeSource (after (AbstractBaseGraph.create true true false)
        [.addVertex 1, .addEdge 1 1 101]) 101 = some 1
    ∧ getEdgeTarget (after (AbstractBaseGraph.create true true false)
        [.addVertex 1, .addEdge 1 1 101]) 101 = some 1
    ∧ (degreeOf (after (AbstractBaseGraph.create true true false)
        [.addVertex 1, .addEdge 1 1 101]) 1).value = some 0
    ∧ elementsOf (edgesOf (after (AbstractBaseGraph.create true true false)
        [.addVertex 1, .addEdge 1 1 101]) 1) = some [] := by
  decide

/-- C22: on a directed container with the member vertex 1 and the registered
loop 101 at 1, `inDegreeOf(1)` and `outDegreeOf(1)` both return 0 and the
behaviour of `edgesOf(1)` is undefined: the two degrees do not add up to the
size of `edgesOf(1)` plus the one registered loop at 1. -/
theorem directed_degrees_miss_the_loop :
    containsVertex (after (AbstractBaseGraph.create false true true)
        [.addVertex 1, .addEdge 1 1 101]) 1 = true
    ∧ containsEdge (after (AbstractBaseGraph.create false true true)
        [.addVertex 1, .addEdge 1 1 101]) 101 = true
    ∧ getEdgeSource (after (AbstractBaseGraph.create false true true)
        [.addVertex 1, .addEdge 1 1 101]) 101 = some 1
    ∧ getEdgeTarget (after (AbstractBaseGraph.create false true true)
        [.addVertex 1, .addEdge 1 1 101]) 101 = some 1
    ∧ (inDegreeOf (after (AbstractBaseGraph.create false true true)
        [.addVertex 1, .addEdge 1 1 101]) 1).value = some 0
    ∧ (outDegreeOf (after (AbstractBaseGraph.create false true true)
        [.addVertex 1, .addEdge 1 1 101]) 1).value = some 0
    ∧ edgesOf (after (AbstractBaseGraph.create false true true)
        [.addVertex 1, .addEdge 1 1 101]) 1 = .undefined := by
  decide

/-- C23: a query of the other direction mode throws `logic_error` and leaves
the state as it was, for every state and every vertex argument: `degreeOf` on a
container with the directed strategy, and `inDegreeOf`, `outDegreeOf`,
`incomingEdgesOf` and `outgoingEdgesOf` on a container with the undirected
strategy. -/
theorem wrong_mode_query_throws (g : AbstractBaseGraph) (v : Nat) :
    match g.specifics with
    | .DirectedSpecifics _ =>
      degreeOf g v = .throws (.logic_error "No such operation in a directed graph") g
    | .UndirectedSpecifics _ =>
      inDegreeOf g v = .throws (.logic_error "No such operation in an undirected graph") g
      ∧ outDegreeOf g v = .throws (.logic_error "No such operation in an undirected graph") g
      ∧ incomingEdgesOf g v
        = .throws (.logic_error "No such operation in an undirected graph") g
      ∧ outgoingEdgesOf g v
        = .throws (.logic_error "No such operation in an undirected graph") g := by
  cases h : g.specifics with
  | DirectedSpecifics vm =>
    simp only [degreeOf, h, DirectedSpecifics.degreeOf]
  | UndirectedSpecifics vm =>
    simp only [inDegreeOf, outDegreeOf, incomingEdgesOf, outgoingEdgesOf, h,
      UndirectedSpecifics.noSuchOperation, and_self]

/-- C24: on a container with the vertex 1, the calls `vertexSet()`,
`addVertex(2)`, `vertexSet()` in this order: the second `vertexSet()` returns
the set with the single element 1, although `containsVertex(2)` is true.
Without the first call, `vertexSet()` returns the set of 1 and 2. -/
theorem vertexSet_is_stale_after_addVertex :
    ((vertexSet (after (AbstractBaseGraph.create false true true) [.addVertex 1])).bind
        fun _ g => (addVertex g 2).bind fun _ g => vertexSet g).value = some [1]
    ∧ ((vertexSet (after (AbstractBaseGraph.create false true true) [.addVertex 1])).bind
        fun _ g => (addVertex g 2).bind fun _ g => .returns (containsVertex g 2) g).value
      = some true
    ∧ (vertexSet (after (AbstractBaseGraph.create false true true)
        [.addVertex 1, .addVertex 2])).value = some [1, 2] := by
  decide

/-- C25: on a directed container with the vertices 1, 2 and the edge 101 from
1 to 2, registered with the `IntrusiveEdge` object at address 1, `edgeSet()`
returns the set whose single element is the address 1 of that object: the
registered edge 101 is not an element, and the element is not a registered
edge. -/
theorem edgeSet_holds_the_endpoint_records :
    (after (AbstractBaseGraph.create false true true)
        [.addVertex 1, .addVertex 2, .addEdge 1 2 101]).edgeMap = [(101, 1)]
    ∧ containsEdge (after (AbstractBaseGraph.create false true true)
        [.addVertex 1, .addVertex 2, .addEdge 1 2 101]) 101 = true
    ∧ edgeSet (after (AbstractBaseGraph.create false true true)
        [.addVertex 1, .addVertex 2, .addEdge 1 2 101]) = [1]
    ∧ 101 ∉ edgeSet (after (AbstractBaseGraph.create false true true)
        [.addVertex 1, .addVertex 2, .addEdge 1 2 101])
    ∧ containsEdge (after (AbstractBaseGraph.create false true true)
        [.addVertex 1, .addVertex 2, .addEdge 1 2 101]) 1 = false := by
  decide

/-- C30: on a directed container constructed with `allowMultipleEdges = true`,
with the vertices 1 and 2, the calls `addEdge(1, 2, 101)` and
`addEdge(1, 2, 102)` both return true, both edges are registered and
`edgeSet()` grows from 0 to 2 elements, but `getAllEdges(1, 2)` returns an
empty set. -/
theorem directed_multigraph_getAllEdges_misses_both :
    (after (AbstractBaseGraph.create true true true)
        [.addVertex 1, .addVertex 2]).allowingMultipleEdges = true
    ∧ (addEdgeE (after (AbstractBaseGraph.create true true true)
        [.addVertex 1, .addVertex 2]) 1 2 101).value = some true
    ∧ (addEdgeE (after (AbstractBaseGraph.create true true true)
        [.addVertex 1, .addVertex 2, .addEdgeE 1 2 101]) 1 2 102).value = some true
    ∧ containsEdge (after (AbstractBaseGraph.create true true true)
        [.addVertex 1, .addVertex 2, .addEdgeE 1 2 101, .addEdgeE 1 2 102]) 101 = true
    ∧ containsEdge (after (AbstractBaseGraph.create true true true)
        [.addVertex 1, .addVertex 2, .addEdgeE 1 2 101, .addEdgeE 1 2 102]) 102 = true
    ∧ (edgeSet (after (AbstractBaseGraph.create true true true)
        [.addVertex 1, .addVertex 2])).length = 0
    ∧ (edgeSet (after (AbstractBaseGraph.create true true true)
        [.addVertex 1, .addVertex 2, .addEdgeE 1 2 101, .addEdgeE 1 2 102])).length = 2
    ∧ elementsOf (getAllEdges (after (AbstractBaseGraph.create true true true)
        [.addVertex 1, .addVertex 2, .addEdgeE 1 2 101, .addEdgeE 1 2 102]) 1 2)
      = some [] := by
  decide

/-! ## The delegator and the undirected projection -/

theorem delegator_removeAllEdgesLoop (edges : SetRef) (rest : List Nat) :
    ∀ (modified : Bool) (g : AbstractBaseGraph),
      GraphDelegator.removeAllEdgesLoop edges rest modified g
        = removeAllEdgesLoop edges rest modified g := by
  induction rest with
  | nil => intro modified g; rfl
  | cons e rest ih =>
    intro modified g
    simp only [GraphDelegator.removeAllEdgesLoop, removeAllEdgesLoop,
      GraphDelegator.removeEdge, ih]

theorem delegator_removeAllEdges (g : AbstractBaseGraph) (edges : SetRef) :
    GraphDelegator.removeAllEdges g edges = removeAllEdges g edges := by
  simp only [GraphDelegator.removeAllEdges, removeAllEdges, delegator_removeAllEdgesLoop]

theorem delegator_removeAllVerticesLoop (rest : List Nat) :
    ∀ (modified : Bool) (g : AbstractBaseGraph),
      GraphDelegator.removeAllVerticesLoop rest modified g
        = removeAllVerticesLoop rest modified g := by
  induction rest with
  | nil => intro modified g; rfl
  | cons v rest ih =>
    intro modified g
    simp only [GraphDelegator.removeAllVerticesLoop, removeAllVerticesLoop,
      GraphDelegator.removeVertex, ih]

theorem throughCast_undefined {α : Type} (backing : GraphClass) (call : Outcome α) :
    GraphDelegator.throughCast .DirectedGraph backing call = .undefined
    ∧ GraphDelegator.throughCast .UndirectedGraph backing call = .undefined
    ∧ GraphDelegator.throughCast .WeightedGraph backing call = .undefined :=
  ⟨rfl, rfl, rfl⟩

theorem delegator_forwards (env : Environment) (backing : GraphClass) (g : AbstractBaseGraph)
    (op : Operation) (h : op.declaredByGraph = true) :
    op.runOnDelegator env backing g = op.run env g := by
  cases op with
  | removeAllEdges edges =>
    simp only [Operation.runOnDelegator, Operation.run, delegator_removeAllEdges]
  | removeAllEdgesV s t =>
    simp only [Operation.runOnDelegator, Operation.run, GraphDelegator.removeAllEdgesV,
      removeAllEdgesV, GraphDelegator.getAllEdges, delegator_removeAllEdges]
  | removeAllVertices vertices =>
    cases vertices with
    | none => rfl
    | some elements =>
      simp only [Operation.runOnDelegator, Operation.run, GraphDelegator.removeAllVertices,
        removeAllVertices, delegator_removeAllVerticesLoop]
  | degreeOf v => exact absurd h (by simp [Operation.declaredByGraph])
  | inDegreeOf v => exact absurd h (by simp [Operation.declaredByGraph])
  | incomingEdgesOf v => exact absurd h (by simp [Operation.declaredByGraph])
  | outDegreeOf v => exact absurd h (by simp [Operation.declaredByGraph])
  | outgoingEdgesOf v => exact absurd h (by simp [Operation.declaredByGraph])
  | setEdgeWeight e weight => exact absurd h (by simp [Operation.declaredByGraph])
  | _ => rfl

theorem delegator_cast_undefined (env : Environment) (backing : GraphClass)
    (g : AbstractBaseGraph) (op : Operation) (h : op.declaredByGraph = false) :
    op.runOnDelegator env backing g = .undefined := by
  cases op <;> first | rfl | exact absurd h (by simp [Operation.declaredByGraph])

theorem runOperations_forwards (env : Environment) (backing : GraphClass)
    (ops : List (Bool × Operation)) :
    (∀ p ∈ ops, p.2.declaredByGraph = true) →
    ∀ g : AbstractBaseGraph,
      runOperations env backing g ops
        = runOperations env backing g (ops.map fun p => (false, p.2)) := by
  induction ops with
  | nil => intro _ g; rfl
  | cons p rest ih =>
    intro hall g
    have hp : p.2.declaredByGraph = true := hall p (List.mem_cons_self p rest)
    have hrest : ∀ q ∈ rest, q.2.declaredByGraph = true :=
      fun q hq => hall q (List.mem_cons_of_mem p hq)
    obtain ⟨onDelegator, op⟩ := p
    cases onDelegator with
    | false =>
      simp only [runOperations, List.map_cons, Bool.false_eq_true, if_false]
      cases op.run env g with
      | returns a g1 => simp only [ih hrest g1]
      | throws ex g1 => simp only [ih hrest g1]
      | undefined => rfl
    | true =>
      simp only [runOperations, List.map_cons, Bool.false_eq_true, if_false, if_true,
        delegator_forwards env backing g op hp]
      cases op.run env g with
      | returns a g1 => simp only [ih hrest g1]
      | throws ex g1 => simp only [ih hrest g1]
      | undefined => rfl

theorem directed_degrees_zero {g : AbstractBaseGraph} {vm : List (Nat × Nat)}
    (hs : g.specifics = .DirectedSpecifics vm) (hn : NoContainerStored g) {v : Nat}
    (hv : containsVertex g v = true) :
    inDegreeOf g v
        = .returns 0 { g with directedContainers := g.directedContainers ++ [⟨[], []⟩] }
    ∧ outDegreeOf g v
        = .returns 0 { g with directedContainers := g.directedContainers ++ [⟨[], []⟩] } := by
  have hc := directed_getEdgeContainer_new hs hn hv
  constructor
  · simp only [inDegreeOf, hs, DirectedSpecifics.inDegreeOf, hc, Outcome.bind, load_new,
      List.length_nil]
  · simp only [outDegreeOf, hs, DirectedSpecifics.outDegreeOf, hc, Outcome.bind, load_new,
      List.length_nil]

theorem directed_degrees_zero_on {g : AbstractBaseGraph} {vm : List (Nat × Nat)}
    (hs : g.specifics = .DirectedSpecifics vm) (hn : NoContainerStored g) {v : Nat}
    (hv : containsVertex g v = true) (heap : List DirectedEdgeContainer) :
    inDegreeOf { g with directedContainers := heap } v
        = .returns 0 { g with directedContainers := heap ++ [⟨[], []⟩] }
    ∧ outDegreeOf { g with directedContainers := heap } v
        = .returns 0 { g with directedContainers := heap ++ [⟨[], []⟩] } :=
  directed_degrees_zero (g := { g with directedContainers := heap }) hs hn hv

theorem undirected_degree_zero {g : AbstractBaseGraph} {vm : List (Nat × Nat)}
    (hs : g.specifics = .UndirectedSpecifics vm) (hn : NoContainerStored g) {v : Nat}
    (hv : containsVertex g v = true) :
    degreeOf g v
      = .returns 0 { g with undirectedContainers := g.undirectedContainers ++ [⟨[]⟩] } := by
  simp only [degreeOf, hs, UndirectedSpecifics.degreeOf,
    undirected_getEdgeContainer_new hs hn hv, Outcome.bind, load_new,
    UndirectedSpecifics.degreeOfLoop, UndirectedEdgeContainer.edgeCount, List.length_nil,
    ite_self]

/-- C26: the delegator does not forward `inDegreeOf`, `outDegreeOf`,
`incomingEdgesOf`, `outgoingEdgesOf`, `degreeOf` and `setEdgeWeight`.  Each of
them casts `delegate`, a `Graph<V, E>*` that points into the backing container,
to `DirectedGraph<V, E>*`, `UndirectedGraph<V, E>*` or `WeightedGraph<V, E>*`,
and none of these casts yields the container: for every class and state of the
backing container and all arguments the behaviour of the call is undefined.  On
the directed container with the vertices 1, 2 and the edge 101 from 1 to 2 the
container's own `inDegreeOf(2)` and `outDegreeOf(1)` return 0, its
`incomingEdgesOf(2)` and `outgoingEdgesOf(1)` return empty sets and its
`degreeOf(1)` throws `logic_error`. -/
theorem delegator_casts_miss_the_backing_graph (env : Environment) (backing : GraphClass)
    (g : AbstractBaseGraph) (v e : Nat) (weight : ℚ) :
    GraphDelegator.throughCast .DirectedGraph backing (GraphDelegator.inDegreeOf g v)
      = .undefined
    ∧ GraphDelegator.throughCast .DirectedGraph backing (GraphDelegator.outDegreeOf g v)
      = .undefined
    ∧ GraphDelegator.throughCast .DirectedGraph backing (GraphDelegator.incomingEdgesOf g v)
      = .undefined
    ∧ GraphDelegator.throughCast .DirectedGraph backing (GraphDelegator.outgoingEdgesOf g v)
      = .undefined
    ∧ GraphDelegator.throughCast .UndirectedGraph backing (GraphDelegator.degreeOf g v)
      = .undefined
    ∧ GraphDelegator.throughCast .WeightedGraph backing
        (GraphDelegator.setEdgeWeight env g e weight) = .undefined
    ∧ (inDegreeOf (after (AbstractBaseGraph.create false true true)
        [.addVertex 1, .addVertex 2, .addEdge 1 2 101]) 2).value = some 0
    ∧ (outDegreeOf (after (AbstractBaseGraph.create false true true)
        [.addVertex 1, .addVertex 2, .addEdge 1 2 101]) 1).value = some 0
    ∧ elementsOf (incomingEdgesOf (after (AbstractBaseGraph.create false true true)
        [.addVertex 1, .addVertex 2, .addEdge 1 2 101]) 2) = some []
    ∧ elementsOf (outgoingEdgesOf (after (AbstractBaseGraph.create false true true)
        [.addVertex 1, .addVertex 2, .addEdge 1 2 101]) 1) = some []
    ∧ degreeOf (after (AbstractBaseGraph.create false true true)
        [.addVertex 1, .addVertex 2, .addEdge 1 2 101]) 1
      = .throws (.logic_error "No such operation in a directed graph")
          (after (AbstractBaseGraph.create false true true)
            [.addVertex 1, .addVertex 2, .addEdge 1 2 101]) := by
  refine ⟨rfl, rfl, rfl, rfl, rfl, rfl, ?_⟩
  decide

/-- With `delegate.f(...)` read as `delegate->f(...)`, a delegator forwards the
21 functions that the class `Graph` declares: each has the same outcome on the
delegator as on the backing container, with the same resulting state, and in a
sequence of such calls it makes no difference which are issued on the delegator
and which on the container.  Each of the six functions that go through a cast
has undefined behaviour on the delegator. -/
theorem delegator_forwards_the_functions_of_Graph (env : Environment) (backing : GraphClass)
    (g : AbstractBaseGraph) (op : Operation) (ops : List (Bool × Operation))
    (hops : ∀ p ∈ ops, p.2.declaredByGraph = true) :
    (if op.declaredByGraph then op.runOnDelegator env backing g = op.run env g
      else op.runOnDelegator env backing g = .undefined)
    ∧ runOperations env backing g ops
      = runOperations env backing g (ops.map fun p => (false, p.2)) := by
  refine ⟨?_, runOperations_forwards env backing ops hops g⟩
  cases h : op.declaredByGraph with
  | true => simpa using delegator_forwards env backing g op h
  | false => simpa using delegator_cast_undefined env backing g op h

theorem delegator_forwards_the_functions_of_Graph_witness :
    (∀ p ∈ [(true, Operation.addVertex 1), (false, Operation.containsVertex 1)],
      p.2.declaredByGraph = true)
    ∧ (if (Operation.addVertex 1).declaredByGraph then
        (Operation.addVertex 1).runOnDelegator ⟨7, false, fun _ => none⟩ .DefaultDirectedGraph
            (AbstractBaseGraph.create false true true)
          = (Operation.addVertex 1).run ⟨7, false, fun _ => none⟩
            (AbstractBaseGraph.create false true true)
      else (Operation.addVertex 1).runOnDelegator ⟨7, false, fun _ => none⟩
            .DefaultDirectedGraph (AbstractBaseGraph.create false true true) = .undefined)
    ∧ runOperations ⟨7, false, fun _ => none⟩ .DefaultDirectedGraph
        (AbstractBaseGraph.create false true true)
        [(true, Operation.addVertex 1), (false, Operation.containsVertex 1)]
      = runOperations ⟨7, false, fun _ => none⟩ .DefaultDirectedGraph
        (AbstractBaseGraph.create false true true)
        ([(true, Operation.addVertex 1), (false, Operation.containsVertex 1)].map
          fun p => (false, p.2)) :=
  ⟨by decide, delegator_forwards_the_functions_of_Graph ⟨7, false, fun _ => none⟩
    .DefaultDirectedGraph (AbstractBaseGraph.create false true true) (.addVertex 1)
    [(true, .addVertex 1), (false, .containsVertex 1)] (by decide)⟩

/-- C27: Scenario D, the undirected projection of a directed container with
the vertices 1, 2 and the single edge 101 from 1 to 2: `inDegreeOf` and
`outDegreeOf` of the backing container return 0 for both vertices, and
`degreeOf(1)` and `degreeOf(2)` on the projection return 0, not 1. -/
theorem projection_degree_is_zero_in_scenario_D :
    containsEdge (after (AbstractBaseGraph.create false true true)
        [.addVertex 1, .addVertex 2, .addEdge 1 2 101]) 101 = true
    ∧ getEdgeSource (after (AbstractBaseGraph.create false true true)
        [.addVertex 1, .addVertex 2, .addEdge 1 2 101]) 101 = some 1
    ∧ getEdgeTarget (after (AbstractBaseGraph.create false true true)
        [.addVertex 1, .addVertex 2, .addEdge 1 2 101]) 101 = some 2
    ∧ (inDegreeOf (after (AbstractBaseGraph.create false true true)
        [.addVertex 1, .addVertex 2, .addEdge 1 2 101]) 2).value = some 0
    ∧ (outDegreeOf (after (AbstractBaseGraph.create false true true)
        [.addVertex 1, .addVertex 2, .addEdge 1 2 101]) 1).value = some 0
    ∧ (AsUndirectedGraph.degreeOf (after (AbstractBaseGraph.create false true true)
        [.addVertex 1, .addVertex 2, .addEdge 1 2 101]) 1).value = some 0
    ∧ (AsUndirectedGraph.degreeOf (after (AbstractBaseGraph.create false true true)
        [.addVertex 1, .addVertex 2, .addEdge 1 2 101]) 2).value = some 0 := by
  decide

/-- C28: on the undirected projection both forms of `addEdge` throw
`domain_error` with the text of `NO_EDGE_ADD`, for every state of the backing
container and all arguments, and the state of the backing container is the one
before the call. -/
theorem projection_addEdge_unsupported (g : AbstractBaseGraph) (s t e : Nat) :
    AsUndirectedGraph.addEdge g s t
        = .throws (.domain_error "this graph does not support edge addition") g
    ∧ AsUndirectedGraph.addEdgeE g s t e
        = .throws (.domain_error "this graph does not support edge addition") g :=
  ⟨rfl, rfl⟩

/-- C29: the undirected projection of a directed container with the vertices
1, 2 and the single edge 101 from 1 to 2: `getEdge(1, 2)` and `getEdge(2, 1)`
on the projection return null although the backing container has an edge from
1 to 2, and the behaviour of `getAllEdges(1, 2)` and `getAllEdges(2, 1)` on the
projection is undefined. -/
theorem projection_lookups_miss_the_edge :
    containsEdge (after (AbstractBaseGraph.create false true true)
        [.addVertex 1, .addVertex 2, .addEdge 1 2 101]) 101 = true
    ∧ getEdgeSource (after (AbstractBaseGraph.create false true true)
        [.addVertex 1, .addVertex 2, .addEdge 1 2 101]) 101 = some 1
    ∧ getEdgeTarget (after (AbstractBaseGraph.create false true true)
        [.addVertex 1, .addVertex 2, .addEdge 1 2 101]) 101 = some 2
    ∧ (AsUndirectedGraph.getEdge (after (AbstractBaseGraph.create false true true)
        [.addVertex 1, .addVertex 2, .addEdge 1 2 101]) 1 2).value = some NULL
    ∧ (AsUndirectedGraph.getEdge (after (AbstractBaseGraph.create false true true)
        [.addVertex 1, .addVertex 2, .addEdge 1 2 101]) 2 1).value = some NULL
    ∧ AsUndirectedGraph.getAllEdges (after (AbstractBaseGraph.create false true true)
        [.addVertex 1, .addVertex 2, .addEdge 1 2 101]) 1 2 = .undefined
    ∧ AsUndirectedGraph.getAllEdges (after (AbstractBaseGraph.create false true true)
        [.addVertex 1, .addVertex 2, .addEdge 1 2 101]) 2 1 = .undefined := by
  decide

/-- In every state reached from a freshly constructed container the degree of
every member vertex is 0, whatever edges are registered: `inDegreeOf`,
`outDegreeOf` and the `degreeOf` of the undirected projection on a directed
container, `degreeOf` on an undirected container. -/
theorem degrees_always_zero (allowMultipleEdges allowLoops directed : Bool)
    (calls : List Call) (g : AbstractBaseGraph)
    (hrun : runCalls (AbstractBaseGraph.create allowMultipleEdges allowLoops directed) calls
      = some g)
    (v : Nat) (hv : containsVertex g v = true) :
    (∀ vm, g.specifics = .DirectedSpecifics vm →
      (inDegreeOf g v).value = some 0 ∧ (outDegreeOf g v).value = some 0
      ∧ (AsUndirectedGraph.degreeOf g v).value = some 0)
    ∧ (∀ vm, g.specifics = .UndirectedSpecifics vm → (degreeOf g v).value = some 0) := by
  have hn := stable_runCalls stable_NoContainerStored calls (NoContainerStored_create _ _ _) hrun
  constructor
  · intro vm hs
    have h1 := directed_degrees_zero hs hn hv
    have h2 := directed_degrees_zero_on hs hn hv (g.directedContainers ++ [⟨[], []⟩])
    refine ⟨?_, ?_, ?_⟩
    · rw [h1.1]; rfl
    · rw [h1.2]; rfl
    · simp only [AsUndirectedGraph.degreeOf, GraphDelegator.inDegreeOf,
        GraphDelegator.outDegreeOf]
      rw [h1.1]
      simp only [Outcome.bind]
      rw [h2.2]
      rfl
  · intro vm hs
    rw [undirected_degree_zero hs hn hv]; rfl

theorem degrees_always_zero_witness :
    ∃ g, runCalls (AbstractBaseGraph.create false true true)
        [.addVertex 1, .addVertex 2, .addEdge 1 2 101] = some g
      ∧ containsVertex g 1 = true
      ∧ (∀ vm, g.specifics = .DirectedSpecifics vm →
        (inDegreeOf g 1).value = some 0 ∧ (outDegreeOf g 1).value = some 0
        ∧ (AsUndirectedGraph.degreeOf g 1).value = some 0)
      ∧ (∀ vm, g.specifics = .UndirectedSpecifics vm → (degreeOf g 1).value = some 0) :=
  ⟨_, rfl, rfl, degrees_always_zero false true true
    [.addVertex 1, .addVertex 2, .addEdge 1 2 101] _ rfl 1 rfl⟩

/-- A delegator and its backing container show each other's changes: a vertex
added on the delegator is a member for the container, an edge added on the
container is registered for the delegator, and after the edge is removed on the
delegator it is not registered for the container. -/
theorem delegator_and_container_share_changes :
    ((GraphDelegator.addVertex (AbstractBaseGraph.create false true true) 1).bind
        fun _ g => .returns (containsVertex g 1) g).value = some true
    ∧ ((addVertex (AbstractBaseGraph.create false true true) 1).bind
        fun _ g => .returns (GraphDelegator.containsVertex g 1) g).value = some true
    ∧ ((addEdge (after (AbstractBaseGraph.create false true true)
        [.addVertex 1, .addVertex 2]) 1 2 101).bind
        fun _ g => .returns (GraphDelegator.containsEdge g 101) g).value = some true
    ∧ ((GraphDelegator.removeEdge (after (AbstractBaseGraph.create false true true)
        [.addVertex 1, .addVertex 2, .addEdge 1 2 101]) 101).bind
        fun removed g => .returns (removed, containsEdge g 101) g).value
      = some (true, false) := by
  decide

/-! ## What the two set views do hold -/

theorem values_mapPlace_perm (k v : Nat) (m : List (Nat × Nat)) :
    ((mapPlace k v m).map Prod.snd).Perm (v :: m.map Prod.snd) := by
  induction m with
  | nil => simp [mapPlace]
  | cons p m ih =>
    simp only [mapPlace]
    split_ifs with h
    · simp
    · simp only [List.map_cons]
      exact (List.Perm.cons p.2 ih).trans (List.Perm.swap v p.2 _)

theorem stable_ValuesDistinct : Stable ValuesDistinct where
  of_core := by
    intro g g1 h hg
    refine ⟨stable_ValuesAllocated.of_core g g1 h hg.1, ?_⟩
    rw [core_edgeMap h]; exact hg.2
  directedVertex := by
    intro g v hg
    unfold DirectedSpecifics.addVertex
    split <;> exact hg
  undirectedVertex := by
    intro g v hg
    unfold UndirectedSpecifics.addVertex
    split <;> exact hg
  register := by
    intro g e s t hs ht hl hg
    refine ⟨stable_ValuesAllocated.register g e s t hs ht hl hg.1, ?_⟩
    show ((mapInsert e (g.intrusiveEdges.length + 1) g.edgeMap).map Prod.snd).Nodup
    unfold mapInsert
    split_ifs with hc
    · exact hg.2
    · refine (values_mapPlace_perm e _ g.edgeMap).nodup_iff.mpr (List.nodup_cons.mpr ⟨?_, hg.2⟩)
      intro hmem
      obtain ⟨p, hp, hpv⟩ := List.mem_map.mp hmem
      have hle := hg.1 p hp
      rw [hpv] at hle
      exact Nat.not_succ_le_self _ hle
  erase := by
    intro g e hg
    refine ⟨stable_ValuesAllocated.erase g e hg.1, ?_⟩
    exact hg.2.sublist ((mapErase_sublist e g.edgeMap).map Prod.snd)

/-- In every state reached from a freshly constructed container, `edgeSet()`
has as many elements as the edge map has entries, and no edge is the key of
two entries: the size of `edgeSet()` is the number of registered edges. -/
theorem edgeSet_size_is_number_of_registered_edges
    (allowMultipleEdges allowLoops directed : Bool) (calls : List Call)
    (g : AbstractBaseGraph)
    (hrun : runCalls (AbstractBaseGraph.create allowMultipleEdges allowLoops directed) calls
      = some g) :
    (edgeSet g).length = g.edgeMap.length ∧ (g.edgeMap.map Prod.fst).Nodup := by
  have hd : ValuesDistinct g :=
    stable_runCalls stable_ValuesDistinct calls
      ⟨by intro p hp; simp [AbstractBaseGraph.create] at hp,
        by simp [AbstractBaseGraph.create]⟩ hrun
  have hcache : g.unmodifiableEdgeSet = none :=
    stable_runCalls stable_noEdgeSetCache calls rfl hrun
  have hk : KeysDistinct g :=
    stable_runCalls stable_KeysDistinct calls (by simp [KeysDistinct, AbstractBaseGraph.create])
      hrun
  refine ⟨?_, hk⟩
  unfold edgeSet
  rw [hcache]
  simp only [collectValues_length, List.toFinset_card_of_nodup hd.2, List.length_map]

theorem edgeSet_size_is_number_of_registered_edges_witness :
    ∃ g, runCalls (AbstractBaseGraph.create true true true)
        [.addVertex 1, .addVertex 2, .addEdgeE 1 2 101, .addEdgeE 1 2 102] = some g
      ∧ g.edgeMap.length = 2
      ∧ (edgeSet g).length = g.edgeMap.length ∧ (g.edgeMap.map Prod.fst).Nodup :=
  ⟨_, rfl, rfl, edgeSet_size_is_number_of_registered_edges true true true
    [.addVertex 1, .addVertex 2, .addEdgeE 1 2 101, .addEdgeE 1 2 102] _ rfl⟩

/-- While `vertexSet()` has not been called before, it returns the current
vertex set: a vertex is an element exactly when `containsVertex` is true. -/
theorem first_vertexSet_is_current (g : AbstractBaseGraph)
    (hcache : g.unmodifiableVertexSet = none) :
    ∃ vset g1, vertexSet g = .returns vset g1
      ∧ ∀ v, v ∈ vset ↔ containsVertex g v = true := by
  unfold vertexSet
  rw [hcache]
  refine ⟨_, _, rfl, fun v => ?_⟩
  rw [containsVertex_iff]
  cases g.specifics with
  | DirectedSpecifics vm =>
    simp [Specifics.getVertexSet, Specifics.vertexMap, mem_collectKeys]
  | UndirectedSpecifics vm =>
    simp [Specifics.getVertexSet, Specifics.vertexMap, mem_collectKeys]

theorem first_vertexSet_is_current_witness :
    (after (AbstractBaseGraph.create false true true)
        [.addVertex 1, .addVertex 2]).unmodifiableVertexSet = none
    ∧ ∃ vset g1, vertexSet (after (AbstractBaseGraph.create false true true)
          [.addVertex 1, .addVertex 2]) = .returns vset g1
        ∧ ∀ v, v ∈ vset ↔ containsVertex (after (AbstractBaseGraph.create false true true)
          [.addVertex 1, .addVertex 2]) v = true :=
  ⟨rfl, first_vertexSet_is_current _ rfl⟩

/-! ## Weights -/

theorem setEdgeWeight_throws (env : Environment) (g : AbstractBaseGraph) (e : Nat)
    (weight : ℚ) :
    setEdgeWeight env g e weight
      = .throws (.invalid_argument "Given edge is not a valid DefaultWeightedEdge") g := by
  simp [setEdgeWeight]

theorem weightEvent_keeps_default (g : AbstractBaseGraph) (env : Environment)
    (event : WeightEvent)
    (h : ∀ x w, env.weight x = some w → w = WeightedGraph.DEFAULT_EDGE_WEIGHT) :
    (event.run g env).weightedEdges = env.weightedEdges
    ∧ (∀ x, (env.weight x).isSome → ((event.run g env).weight x).isSome)
    ∧ ∀ x w, (event.run g env).weight x = some w → w = WeightedGraph.DEFAULT_EDGE_WEIGHT := by
  cases event with
  | construct e =>
    refine ⟨rfl, ?_, ?_⟩
    · intro x hx
      simp only [WeightEvent.run, DefaultWeightedEdge.create]
      split_ifs
      · rfl
      · exact hx
    · intro x w hw
      simp only [WeightEvent.run, DefaultWeightedEdge.create] at hw
      split_ifs at hw
      · exact (Option.some.inj hw).symm
      · exact h x w hw
  | setEdgeWeight e weight =>
    have hrun : WeightEvent.run g env (.setEdgeWeight e weight) = env := by
      simp only [WeightEvent.run, setEdgeWeight_throws]
    rw [hrun]
    exact ⟨rfl, fun x hx => hx, h⟩

theorem runWeightEvents_keeps_default (g : AbstractBaseGraph) (events : List WeightEvent) :
    ∀ env : Environment,
      (∀ x w, env.weight x = some w → w = WeightedGraph.DEFAULT_EDGE_WEIGHT) →
      (runWeightEvents g env events).weightedEdges = env.weightedEdges
      ∧ (∀ x, (env.weight x).isSome → ((runWeightEvents g env events).weight x).isSome)
      ∧ ∀ x w, (runWeightEvents g env events).weight x = some w
          → w = WeightedGraph.DEFAULT_EDGE_WEIGHT := by
  induction events with
  | nil => intro env h; exact ⟨rfl, fun x hx => hx, h⟩
  | cons event rest ih =>
    intro env h
    obtain ⟨h1, h2, h3⟩ := weightEvent_keeps_default g env event h
    obtain ⟨k1, k2, k3⟩ := ih (event.run g env) h3
    exact ⟨k1.trans h1, fun x hx => k2 x (h2 x hx), k3⟩

/-- C31: `setEdgeWeight(e, w)` throws `invalid_argument` for every edge class,
every edge `e` and every weight `w`, also when the edge class is
`DefaultWeightedEdge<V>`; for a newly constructed weighted edge `e` the
following `getEdgeWeight(e)` therefore returns `DEFAULT_EDGE_WEIGHT`, not
`w`. -/
theorem setEdgeWeight_always_throws (env : Environment) (g : AbstractBaseGraph) (e : Nat)
    (weight : ℚ) :
    setEdgeWeight env g e weight
      = .throws (.invalid_argument "Given edge is not a valid DefaultWeightedEdge") g
    ∧ setEdgeWeight (DefaultWeightedEdge.create { env with weightedEdges := true } e) g e weight
      = .throws (.invalid_argument "Given edge is not a valid DefaultWeightedEdge") g
    ∧ getEdgeWeight
        (WeightEvent.run g (DefaultWeightedEdge.create { env with weightedEdges := true } e)
          (.setEdgeWeight e weight)) g e
      = .returns WeightedGraph.DEFAULT_EDGE_WEIGHT g := by
  refine ⟨setEdgeWeight_throws _ _ _ _, setEdgeWeight_throws _ _ _ _, ?_⟩
  simp [WeightEvent.run, setEdgeWeight_throws, getEdgeWeight, DefaultWeightedEdge.create]

/-- C32: `getEdgeWeight(e)` returns `DEFAULT_EDGE_WEIGHT`, which is 1, for every
edge `e` when the edge class is not `DefaultWeightedEdge<V>`, and for every
`DefaultWeightedEdge` object `e` after its construction and any later sequence
of constructions of edges and `setEdgeWeight` calls, when all edge objects were
made by the constructor. -/
theorem getEdgeWeight_default (env : Environment) (g : AbstractBaseGraph) (e : Nat)
    (events : List WeightEvent) :
    WeightedGraph.DEFAULT_EDGE_WEIGHT = 1
    ∧ getEdgeWeight { env with weightedEdges := false } g e
      = .returns WeightedGraph.DEFAULT_EDGE_WEIGHT g
    ∧ getEdgeWeight
        (runWeightEvents g
          (DefaultWeightedEdge.create
            { env with weightedEdges := true, weight := fun _ => none } e) events) g e
      = .returns WeightedGraph.DEFAULT_EDGE_WEIGHT g := by
  refine ⟨rfl, by simp [getEdgeWeight], ?_⟩
  obtain ⟨h1, h2, h3⟩ := runWeightEvents_keeps_default g events
    (DefaultWeightedEdge.create { env with weightedEdges := true, weight := fun _ => none } e)
    (by
      intro x w hw
      simp only [DefaultWeightedEdge.create] at hw
      split_ifs at hw
      exact (Option.some.inj hw).symm)
  have hsome := h2 e (by simp [DefaultWeightedEdge.create])
  obtain ⟨w, hw⟩ := Option.isSome_iff_exists.mp hsome
  have hwd := h3 e w hw
  subst hwd
  unfold getEdgeWeight
  rw [h1, hw]
  simp [DefaultWeightedEdge.create]

/-! ## The utilities of `Graphs` -/

/-- C33: in every state reached from a freshly constructed container and for
every registered edge `e`, with recorded source `s` and target `t`, and every
vertex `v`: `getOppositeVertex(g, e, v)` returns `t` when `v` is `s`, returns
`s` when `v` is `t`, and throws `invalid_argument` exactly when
`testIncidence(g, e, v)` returns false; `testIncidence` returns whether `v` is
`s` or `t`.  No call changes the state. -/
theorem getOppositeVertex_contract (allowMultipleEdges allowLoops directed : Bool)
    (calls : List Call) (g : AbstractBaseGraph)
    (hrun : runCalls (AbstractBaseGraph.create allowMultipleEdges allowLoops directed) calls
      = some g)
    (e v : Nat) (he : containsEdge g e = true) :
    ∃ s t, getEdgeSource g e = some s ∧ getEdgeTarget g e = some t
      ∧ (v = s → Graphs.getOppositeVertex g e v = .returns t g)
      ∧ (v = t → Graphs.getOppositeVertex g e v = .returns s g)
      ∧ Graphs.testIncidence g e v = .returns (decide (s = v ∨ t = v)) g
      ∧ (Graphs.getOppositeVertex g e v = .throws (.invalid_argument "no such vertex") g
        ↔ Graphs.testIncidence g e v = .returns false g) := by
  have hsound := stable_runCalls stable_EdgesSound calls (EdgesSound_create _ _ _) hrun
  obtain ⟨s, t, hsrc, htgt, _, _, _⟩ := endpoints_of_sound hsound e he
  refine ⟨s, t, hsrc, htgt, ?_, ?_, ?_, ?_⟩
  · intro hv
    simp [Graphs.getOppositeVertex, hsrc, htgt, Outcome.ofOption, Outcome.bind, hv]
  · intro hv
    by_cases hvs : v = s
    · have hst : s = t := hvs.symm.trans hv
      simp [Graphs.getOppositeVertex, hsrc, htgt, Outcome.ofOption, Outcome.bind, hvs, hst]
    · simp [Graphs.getOppositeVertex, hsrc, htgt, Outcome.ofOption, Outcome.bind, hvs, hv]
  · by_cases hsv : s = v
    · simp [Graphs.testIncidence, hsrc, htgt, Outcome.ofOption, Outcome.bind, hsv]
    · simp [Graphs.testIncidence, hsrc, htgt, Outcome.ofOption, Outcome.bind, hsv]
  · by_cases hsv : v = s
    · simp [Graphs.getOppositeVertex, Graphs.testIncidence, hsrc, htgt, Outcome.ofOption,
        Outcome.bind, hsv]
    · have hsv2 : ¬ s = v := fun h => hsv h.symm
      by_cases htv : v = t
      · subst htv
        simp [Graphs.getOppositeVertex, Graphs.testIncidence, hsrc, htgt, Outcome.ofOption,
          Outcome.bind, hsv, hsv2]
      · have htv2 : ¬ t = v := fun h => htv h.symm
        simp [Graphs.getOppositeVertex, Graphs.testIncidence, hsrc, htgt, Outcome.ofOption,
          Outcome.bind, hsv, hsv2, htv, htv2]

theorem getOppositeVertex_contract_witness :
    ∃ g, runCalls (AbstractBaseGraph.create false true true)
        [.addVertex 1, .addVertex 2, .addEdge 1 2 101] = some g
      ∧ containsEdge g 101 = true
      ∧ ∃ s t, getEdgeSource g 101 = some s ∧ getEdgeTarget g 101 = some t
        ∧ (1 = s → Graphs.getOppositeVertex g 101 1 = .returns t g)
        ∧ (1 = t → Graphs.getOppositeVertex g 101 1 = .returns s g)
        ∧ Graphs.testIncidence g 101 1 = .returns (decide (s = 1 ∨ t = 1)) g
        ∧ (Graphs.getOppositeVertex g 101 1 = .throws (.invalid_argument "no such vertex") g
          ↔ Graphs.testIncidence g 101 1 = .returns false g) :=
  ⟨_, rfl, rfl, getOppositeVertex_contract false true true
    [.addVertex 1, .addVertex 2, .addEdge 1 2 101] _ rfl 101 1 rfl⟩

/-- C34: with an empty directed container as destination and, as source, a
directed container with the vertices 1, 2 and the edge 101 from 1 to 2, the
behaviour of `addGraph(destination, source)` is undefined: `edgeSet()` of the
source holds the address 1 of the endpoint record, which is not a key of the
edge map of the source, so `getEdgeSource` dereferences `end()`.  With a source
that has the two vertices and no edge, `addGraph` returns true. -/
theorem addGraph_undefined_when_source_has_an_edge :
    edgeSet (after (AbstractBaseGraph.create false true true)
        [.addVertex 1, .addVertex 2, .addEdge 1 2 101]) = [1]
    ∧ getEdgeSource (after (AbstractBaseGraph.create false true true)
        [.addVertex 1, .addVertex 2, .addEdge 1 2 101]) 1 = none
    ∧ Graphs.addGraph (AbstractBaseGraph.create false true true)
        (after (AbstractBaseGraph.create false true true)
          [.addVertex 1, .addVertex 2, .addEdge 1 2 101]) = .undefined
    ∧ (Graphs.addGraph (AbstractBaseGraph.create false true true)
        (after (AbstractBaseGraph.create false true true)
          [.addVertex 1, .addVertex 2])).value = some true := by
  decide

/-- C35: on a directed container with the single vertex 1, `getAllEdges(1, 2)`
returns null and the behaviour of `removeAllEdges(1, 2)` is undefined: it
passes the null pointer to `removeAllEdges(set<E*>*)`, which dereferences it.
With both vertices members and the edge 101 from 1 to 2 registered,
`removeAllEdges(1, 2)` returns an empty set and 101 stays registered. -/
theorem removeAllEdges_undefined_for_a_missing_vertex :
    containsVertex (after (AbstractBaseGraph.create false true true) [.addVertex 1]) 2 = false
    ∧ (getAllEdges (after (AbstractBaseGraph.create false true true) [.addVertex 1]) 1 2).value
      = some .null
    ∧ removeAllEdgesV (after (AbstractBaseGraph.create false true true) [.addVertex 1]) 1 2
      = .undefined
    ∧ removeAllEdgesV (after (AbstractBaseGraph.create true true false) [.addVertex 1]) 1 2
      = .undefined
    ∧ elementsOf (removeAllEdgesV (after (AbstractBaseGraph.create false true true)
        [.addVertex 1, .addVertex 2, .addEdge 1 2 101]) 1 2) = some []
    ∧ ((removeAllEdgesV (after (AbstractBaseGraph.create false true true)
        [.addVertex 1, .addVertex 2, .addEdge 1 2 101]) 1 2).bind
        fun _ g => .returns (containsEdge g 101) g).value = some true := by
  decide

/-- C36: on a directed container with the vertices 1, 2 and the edge 101 from
1 to 2 added by a successful `addEdge(1, 2)`, two calls of `getEdgeContainer(1)`
in a row return two different containers and the vertex map still holds the
null pointer for both vertices; `outDegreeOf(1)` and `inDegreeOf(2)` return 0
and `getEdge(1, 2)` returns null.  On an undirected container two calls of
`getEdgeContainer(1)` return two different containers as well. -/
theorem getEdgeContainer_builds_a_new_container_each_time :
    (addEdge (after (AbstractBaseGraph.create false true true) [.addVertex 1, .addVertex 2])
        1 2 101).value = some 101
    ∧ ((DirectedSpecifics.getEdgeContainer (after (AbstractBaseGraph.create false true true)
        [.addVertex 1, .addVertex 2, .addEdge 1 2 101]) 1).bind fun first g =>
        (DirectedSpecifics.getEdgeContainer g 1).bind fun second g =>
          .returns (decide (first = second)) g).value = some false
    ∧ (after (AbstractBaseGraph.create false true true)
        [.addVertex 1, .addVertex 2, .addEdge 1 2 101]).specifics
      = .DirectedSpecifics [(1, NULL), (2, NULL)]
    ∧ (outDegreeOf (after (AbstractBaseGraph.create false true true)
        [.addVertex 1, .addVertex 2, .addEdge 1 2 101]) 1).value = some 0
    ∧ (inDegreeOf (after (AbstractBaseGraph.create false true true)
        [.addVertex 1, .addVertex 2, .addEdge 1 2 101]) 2).value = some 0
    ∧ (getEdge (after (AbstractBaseGraph.create false true true)
        [.addVertex 1, .addVertex 2, .addEdge 1 2 101]) 1 2).value = some NULL
    ∧ ((UndirectedSpecifics.getEdgeContainer (after (AbstractBaseGraph.create true true false)
        [.addVertex 1, .addVertex 2, .addEdge 1 2 101]) 1).bind fun first g =>
        (UndirectedSpecifics.getEdgeContainer g 1).bind fun second g =>
          .returns (decide (first = second)) g).value = some false
    ∧ (after (AbstractBaseGraph.create true true false)
        [.addVertex 1, .addVertex 2, .addEdge 1 2 101]).specifics
      = .UndirectedSpecifics [(1, NULL), (2, NULL)] := by
  decide

/-- C37: on a directed container with the member vertex 1, with loops allowed
or not, the behaviour of `edgesOf(1)` is undefined: there is no returned set,
and no defined state in which a following `inDegreeOf(1)` or a second
`edgesOf(1)` could be evaluated. -/
theorem directed_edgesOf_is_no_query :
    containsVertex (after (AbstractBaseGraph.create false true true)
        [.addVertex 1, .addVertex 2, .addEdge 1 2 101]) 1 = true
    ∧ edgesOf (after (AbstractBaseGraph.create false true true)
        [.addVertex 1, .addVertex 2, .addEdge 1 2 101]) 1 = .undefined
    ∧ edgesOf (after (AbstractBaseGraph.create false false true)
        [.addVertex 1, .addVertex 2, .addEdge 1 2 101]) 1 = .undefined
    ∧ edgesOf (after (AbstractBaseGraph.create false true true)
        [.addVertex 1, .addEdge 1 1 101]) 1 = .undefined
    ∧ ((edgesOf (after (AbstractBaseGraph.create false true true)
        [.addVertex 1, .addVertex 2, .addEdge 1 2 101]) 1).bind
        fun _ g => inDegreeOf g 1) = .undefined
    ∧ ((edgesOf (after (AbstractBaseGraph.create false true true)
        [.addVertex 1, .addVertex 2, .addEdge 1 2 101]) 1).bind
        fun _ g => edgesOf g 1) = .undefined := by
  decide

/-- C38: on an undirected container with the member vertices 1, 2 and the
registered edge 101 between them, the behaviour of both `getEdge(1, 2)` and
`getAllEdges(1, 2)` is undefined.  On a directed container with the edge 101
from 1 to 2, `getEdge(1, 2)` returns null and `getAllEdges(1, 2)` returns an
empty set. -/
theorem getEdge_and_getAllEdges_on_both_modes :
    containsVertex (after (AbstractBaseGraph.create true true false)
        [.addVertex 1, .addVertex 2, .addEdge 1 2 101]) 1 = true
    ∧ containsVertex (after (AbstractBaseGraph.create true true false)
        [.addVertex 1, .addVertex 2, .addEdge 1 2 101]) 2 = true
    ∧ getEdge (after (AbstractBaseGraph.create true true false)
        [.addVertex 1, .addVertex 2, .addEdge 1 2 101]) 1 2 = .undefined
    ∧ getAllEdges (after (AbstractBaseGraph.create true true false)
        [.addVertex 1, .addVertex 2, .addEdge 1 2 101]) 1 2 = .undefined
    ∧ containsEdge (after (AbstractBaseGraph.create false true true)
        [.addVertex 1, .addVertex 2, .addEdge 1 2 101]) 101 = true
    ∧ (getEdge (after (AbstractBaseGraph.create false true true)
        [.addVertex 1, .addVertex 2, .addEdge 1 2 101]) 1 2).value = some NULL
    ∧ elementsOf (getAllEdges (after (AbstractBaseGraph.create false true true)
        [.addVertex 1, .addVertex 2, .addEdge 1 2 101]) 1 2) = some [] := by
  decide

/-! ## `addEdge` followed by `removeEdge`, and what `removeEdge` leaves alone -/

theorem mapErase_mapPlace {k : Nat} (v : Nat) {m : List (Nat × Nat)}
    (h : k ∉ m.map Prod.fst) : mapErase k (mapPlace k v m) = m := by
  induction m with
  | nil => simp [mapPlace, mapErase]
  | cons p m ih =>
    simp only [List.map_cons, List.mem_cons, not_or] at h
    simp only [mapPlace]
    split_ifs with hlt
    · simp [mapErase]
    · simp only [mapErase]
      rw [if_neg (fun hp => h.1 hp.symm), ih h.2]

theorem mapErase_mapInsert {k : Nat} (v : Nat) {m : List (Nat × Nat)}
    (h : k ∉ m.map Prod.fst) : mapErase k (mapInsert k v m) = m := by
  unfold mapInsert
  rw [if_neg (fun hc => h ((mapCount_eq_one_iff k m).mp hc))]
  exact mapErase_mapPlace v h

theorem mapFind_mapErase_of_ne {k j : Nat} (h : j ≠ k) (m : List (Nat × Nat)) :
    mapFind j (mapErase k m) = mapFind j m := by
  induction m with
  | nil => rfl
  | cons p m ih =>
    simp only [mapErase]
    split_ifs with hk
    · simp only [mapFind]
      rw [if_neg (fun hj => h (hj.symm.trans hk))]
    · simp only [mapFind, ih]

theorem key_mem_mapErase_of_ne {k j : Nat} (h : j ≠ k) {m : List (Nat × Nat)}
    (hj : j ∈ m.map Prod.fst) : j ∈ (mapErase k m).map Prod.fst := by
  induction m with
  | nil => simp at hj
  | cons p m ih =>
    simp only [List.map_cons, List.mem_cons] at hj
    simp only [mapErase]
    split_ifs with hk
    · rcases hj with hj | hj
      · exact absurd (hj.trans hk) h
      · exact hj
    · simp only [List.map_cons, List.mem_cons]
      rcases hj with hj | hj
      · exact Or.inl hj
      · exact Or.inr (ih hj)

theorem directed_adjacency_values {g : AbstractBaseGraph} {vm : List (Nat × Nat)}
    (hs : g.specifics = .DirectedSpecifics vm) (hn : NoContainerStored g) {v : Nat}
    (hv : containsVertex g v = true) :
    elementsOf (incomingEdgesOf g v) = some [] ∧ elementsOf (outgoingEdgesOf g v) = some []
    ∧ (inDegreeOf g v).value = some 0 ∧ (outDegreeOf g v).value = some 0 := by
  have hc := directed_getEdgeContainer_new hs hn hv
  have hd := directed_degrees_zero hs hn hv
  refine ⟨?_, ?_, ?_, ?_⟩
  · simp only [incomingEdgesOf, hs, DirectedSpecifics.incomingEdgesOf, hc, Outcome.bind,
      elementsOf, deref, load_new, Option.map_some']
  · simp only [outgoingEdgesOf, hs, DirectedSpecifics.outgoingEdgesOf, hc, Outcome.bind,
      elementsOf, deref, load_new, Option.map_some']
  · rw [hd.1]; rfl
  · rw [hd.2]; rfl

theorem undirected_adjacency_values {g : AbstractBaseGraph} {vm : List (Nat × Nat)}
    (hs : g.specifics = .UndirectedSpecifics vm) (hn : NoContainerStored g) {v : Nat}
    (hv : containsVertex g v = true) :
    elementsOf (edgesOf g v) = some [] ∧ (degreeOf g v).value = some 0 := by
  have hc := undirected_getEdgeContainer_new hs hn hv
  refine ⟨?_, ?_⟩
  · simp only [edgesOf, hs, UndirectedSpecifics.edgesOf, hc, Outcome.bind,
      elementsOf, deref, load_new, Option.map_some']
  · rw [undirected_degree_zero hs hn hv]; rfl

theorem sameAdjacency_of_none_stored {g g1 : AbstractBaseGraph} (hn : NoContainerStored g)
    (hn1 : NoContainerStored g1) (hspec : g1.specifics = g.specifics) {v : Nat}
    (hv : containsVertex g v = true) : SameAdjacency g g1 v := by
  have hv1 : containsVertex g1 v = true := by
    unfold containsVertex at hv ⊢
    rw [hspec]; exact hv
  unfold SameAdjacency
  cases hs : g.specifics with
  | DirectedSpecifics vm =>
    obtain ⟨a1, a2, a3, a4⟩ := directed_adjacency_values hs hn hv
    obtain ⟨b1, b2, b3, b4⟩ := directed_adjacency_values (hspec.trans hs) hn1 hv1
    simp only [a1, a2, a3, a4, b1, b2, b3, b4, Option.isSome_some, and_self]
  | UndirectedSpecifics vm =>
    obtain ⟨a1, a2⟩ := undirected_adjacency_values hs hn hv
    obtain ⟨b1, b2⟩ := undirected_adjacency_values (hspec.trans hs) hn1 hv1
    simp only [a1, a2, b1, b2, Option.isSome_some, and_self]

theorem register_true {g g1 : AbstractBaseGraph} {s t e : Nat}
    (h : ((createIntrusiveEdge g e s t).bind fun intrusiveEdge g =>
      (addEdgeToTouchingVertices
        { g with edgeMap := mapInsert e intrusiveEdge g.edgeMap } e).bind fun _ g =>
        Outcome.returns true g) = .returns true g1) :
    g1.core = AbstractBaseGraph.core { g with
      intrusiveEdges := g.intrusiveEdges ++ [⟨s, t⟩]
      edgeMap := mapInsert e (g.intrusiveEdges.length + 1) g.edgeMap } := by
  simp only [createIntrusiveEdge, Outcome.bind] at h
  have hf := frame_addEdgeToTouchingVertices { g with
      intrusiveEdges := g.intrusiveEdges ++ [⟨s, t⟩]
      edgeMap := mapInsert e (g.intrusiveEdges.length + 1) g.edgeMap } e
  cases hadd : addEdgeToTouchingVertices { g with
      intrusiveEdges := g.intrusiveEdges ++ [⟨s, t⟩]
      edgeMap := mapInsert e (g.intrusiveEdges.length + 1) g.edgeMap } e with
  | returns u g2 =>
    rw [hadd] at h
    simp only [Outcome.returns.injEq, true_and] at h
    subst h
    exact hf g2 (by rw [hadd]; rfl)
  | throws ex g2 => rw [hadd] at h; simp at h
  | undefined => rw [hadd] at h; simp at h

theorem register_true_facts {g g0 g1 : AbstractBaseGraph} {s t e : Nat}
    (hcore0 : g0.core = g.core)
    (h : ((createIntrusiveEdge g0 e s t).bind fun intrusiveEdge g =>
      (addEdgeToTouchingVertices
        { g with edgeMap := mapInsert e intrusiveEdge g.edgeMap } e).bind fun _ g =>
        Outcome.returns true g) = .returns true g1) :
    g1.edgeMap = mapInsert e (g.intrusiveEdges.length + 1) g.edgeMap
    ∧ g1.specifics = g.specifics
    ∧ g1.unmodifiableEdgeSet = g.unmodifiableEdgeSet := by
  have hreg := register_true h
  refine ⟨?_, ?_, ?_⟩
  · have h1 := core_edgeMap hreg
    rw [h1]
    show mapInsert e (g0.intrusiveEdges.length + 1) g0.edgeMap = _
    rw [core_intrusiveEdges hcore0, core_edgeMap hcore0]
  · have h1 : g1.specifics = g0.specifics := by
      have h2 := congrArg AbstractBaseGraph.specifics hreg
      exact h2
    exact h1.trans (core_specifics hcore0)
  · have h1 := congrArg AbstractBaseGraph.unmodifiableEdgeSet hreg
    have h2 := congrArg AbstractBaseGraph.unmodifiableEdgeSet hcore0
    exact h1.trans h2

theorem addEdgeE_true {g g1 : AbstractBaseGraph} {s t e : Nat}
    (h : addEdgeE g s t e = .returns true g1) :
    containsEdge g e = false
    ∧ g1.edgeMap = mapInsert e (g.intrusiveEdges.length + 1) g.edgeMap
    ∧ g1.specifics = g.specifics
    ∧ g1.unmodifiableEdgeSet = g.unmodifiableEdgeSet := by
  unfold addEdgeE at h
  split_ifs at h with h0 hc
  · simp at h
  · refine ⟨by simpa using hc, ?_⟩
    cases hs : containsVertex g s with
    | false =>
      obtain ⟨ex, hex⟩ := assertVertexExist_of_not_member hs
      rw [hex] at h
      simp [Outcome.bind] at h
    | true =>
      rw [assertVertexExist_of_member hs] at h
      simp only [Outcome.bind] at h
      cases ht : containsVertex g t with
      | false =>
        obtain ⟨ex, hex⟩ := assertVertexExist_of_not_member ht
        rw [hex] at h
        simp [Outcome.bind] at h
      | true =>
        rw [assertVertexExist_of_member ht] at h
        simp only at h
        cases hm : g.allowingMultipleEdges with
        | true =>
          simp only [hm, Bool.not_true, Bool.false_eq_true, if_false] at h
          split_ifs at h with hloop
          exact register_true_facts rfl h
        | false =>
          simp only [hm, Bool.not_false, if_true] at h
          cases hcv : containsEdgeV g s t with
          | returns connected g0 =>
            rw [hcv] at h
            simp only at h
            have hcore0 : g0.core = g.core := frame_containsEdgeV g s t g0 (by rw [hcv]; rfl)
            split_ifs at h with hconn hloop
            · simp at h
            · exact register_true_facts hcore0 h
          | throws ex g0 => rw [hcv] at h; simp at h
          | undefined => rw [hcv] at h; simp at h

/-- C39: in every state reached from a freshly constructed container, when
`addEdge(s, t, e)` returns true (which it does only for member vertices and an
unregistered edge), the following `removeEdge(e)` returns true and afterwards
the vertex set, the edge map with the registered edges, and `edgeSet()` are
what they were before the `addEdge`, and for every member vertex the adjacency
queries of the active strategy return the same sets and degrees as before. -/
theorem addEdge_then_removeEdge_restores (allowMultipleEdges allowLoops directed : Bool)
    (calls : List Call) (g : AbstractBaseGraph)
    (hrun : runCalls (AbstractBaseGraph.create allowMultipleEdges allowLoops directed) calls
      = some g)
    (s t e : Nat) (g1 : AbstractBaseGraph)
    (hadd : addEdgeE g s t e = .returns true g1) :
    ∃ g2, removeEdge g1 e = .returns true g2
      ∧ g2.specifics.getVertexSet = g.specifics.getVertexSet
      ∧ g2.edgeMap = g.edgeMap
      ∧ (∀ e1, containsEdge g2 e1 = containsEdge g e1)
      ∧ edgeSet g2 = edgeSet g
      ∧ ∀ v, containsVertex g v = true → SameAdjacency g g2 v := by
  have hn := stable_runCalls stable_NoContainerStored calls (NoContainerStored_create _ _ _) hrun
  have hsound := stable_runCalls stable_EdgesSound calls (EdgesSound_create _ _ _) hrun
  have hk : KeysDistinct g :=
    stable_runCalls stable_KeysDistinct calls
      (by simp [KeysDistinct, AbstractBaseGraph.create]) hrun
  have hstate : (addEdgeE g s t e).state = some g1 := by rw [hadd]; rfl
  have hn1 := stable_addEdgeE stable_NoContainerStored s t e hn g1 hstate
  have hsound1 := stable_addEdgeE stable_EdgesSound s t e hsound g1 hstate
  have hk1 := stable_addEdgeE stable_KeysDistinct s t e hk g1 hstate
  obtain ⟨hnew, hmap1, hspec1, hcache1⟩ := addEdgeE_true hadd
  have hkey : e ∉ g.edgeMap.map Prod.fst := by
    intro h
    rw [← containsEdge_iff, hnew] at h
    exact absurd h (by simp)
  have he1 : containsEdge g1 e = true := by
    rw [containsEdge_iff, hmap1]
    exact (keys_mapInsert e _ g.edgeMap e).mpr (Or.inl rfl)
  obtain ⟨g0, _, hcore, hrem, _⟩ := removeEdge_registered hn1 hsound1 hk1 he1
  have hmap2 : mapErase e g0.edgeMap = g.edgeMap := by
    rw [core_edgeMap hcore, hmap1]
    exact mapErase_mapInsert _ hkey
  have hspec2 : g0.specifics = g.specifics := (core_specifics hcore).trans hspec1
  have hcache2 : g0.unmodifiableEdgeSet = g.unmodifiableEdgeSet := by
    have h2 := congrArg AbstractBaseGraph.unmodifiableEdgeSet hcore
    exact h2.trans hcache1
  have hn2 : NoContainerStored { g0 with edgeMap := mapErase e g0.edgeMap } :=
    stable_NoContainerStored.erase g0 e (stable_NoContainerStored.of_core g1 g0 hcore hn1)
  refine ⟨_, hrem, ?_, hmap2, ?_, ?_, ?_⟩
  · show g0.specifics.getVertexSet = g.specifics.getVertexSet
    rw [hspec2]
  · intro e1
    show (mapCount e1 (mapErase e g0.edgeMap) == 1) = containsEdge g e1
    rw [hmap2]; rfl
  · show (match g0.unmodifiableEdgeSet with
      | none => collectValues (mapErase e g0.edgeMap) []
      | some eset => eset) = edgeSet g
    rw [hcache2, hmap2]; rfl
  · intro v hv
    exact sameAdjacency_of_none_stored hn hn2 hspec2 hv

theorem addEdge_then_removeEdge_restores_witness :
    ∃ g, runCalls (AbstractBaseGraph.create false true true) [.addVertex 1, .addVertex 2]
        = some g
      ∧ addEdgeE g 1 2 101 = .returns true (after (AbstractBaseGraph.create false true true)
          [.addVertex 1, .addVertex 2, .addEdgeE 1 2 101])
      ∧ ∃ g2, removeEdge (after (AbstractBaseGraph.create false true true)
            [.addVertex 1, .addVertex 2, .addEdgeE 1 2 101]) 101 = .returns true g2
        ∧ g2.specifics.getVertexSet = g.specifics.getVertexSet
        ∧ g2.edgeMap = g.edgeMap
        ∧ (∀ e1, containsEdge g2 e1 = containsEdge g e1)
        ∧ edgeSet g2 = edgeSet g
        ∧ ∀ v, containsVertex g v = true → SameAdjacency g g2 v :=
  ⟨_, rfl, rfl, addEdge_then_removeEdge_restores false true true
    [.addVertex 1, .addVertex 2] _ rfl 1 2 101 _ rfl⟩

/-- C40: in every state reached from a freshly constructed container and for
every registered edge `e`, `removeEdge(e)` returns true and leaves the vertex
set as it was; every other registered edge stays registered with the recorded
source and target it had; and for every member vertex, the endpoints of `e`
included, the adjacency queries of the active strategy return the same sets and
degrees as before the call. -/
theorem removeEdge_leaves_the_rest (allowMultipleEdges allowLoops directed : Bool)
    (calls : List Call) (g : AbstractBaseGraph)
    (hrun : runCalls (AbstractBaseGraph.create allowMultipleEdges allowLoops directed) calls
      = some g)
    (e : Nat) (he : containsEdge g e = true) :
    ∃ g1, removeEdge g e = .returns true g1
      ∧ g1.specifics.getVertexSet = g.specifics.getVertexSet
      ∧ (∀ e1, e1 ≠ e → containsEdge g e1 = true →
          containsEdge g1 e1 = true
          ∧ getEdgeSource g1 e1 = getEdgeSource g e1
          ∧ getEdgeTarget g1 e1 = getEdgeTarget g e1
          ∧ (getEdgeSource g e1).isSome = true ∧ (getEdgeTarget g e1).isSome = true)
      ∧ ∀ v, containsVertex g v = true → SameAdjacency g g1 v := by
  have hn := stable_runCalls stable_NoContainerStored calls (NoContainerStored_create _ _ _) hrun
  have hsound := stable_runCalls stable_EdgesSound calls (EdgesSound_create _ _ _) hrun
  have hk : KeysDistinct g :=
    stable_runCalls stable_KeysDistinct calls
      (by simp [KeysDistinct, AbstractBaseGraph.create]) hrun
  obtain ⟨g0, _, hcore, hrem, _⟩ := removeEdge_registered hn hsound hk he
  have hspec : g0.specifics = g.specifics := core_specifics hcore
  have hn1 : NoContainerStored { g0 with edgeMap := mapErase e g0.edgeMap } :=
    stable_NoContainerStored.erase g0 e (stable_NoContainerStored.of_core g g0 hcore hn)
  refine ⟨_, hrem, ?_, ?_, ?_⟩
  · show g0.specifics.getVertexSet = g.specifics.getVertexSet
    rw [hspec]
  · intro e1 hne he1
    obtain ⟨s1, t1, hsrc, htgt, _, _, _⟩ := endpoints_of_sound hsound e1 he1
    have hfind : mapFind e1 (mapErase e g0.edgeMap) = mapFind e1 g.edgeMap := by
      rw [core_edgeMap hcore]
      exact mapFind_mapErase_of_ne hne _
    have hintr : getIntrusiveEdge { g0 with edgeMap := mapErase e g0.edgeMap } e1
        = getIntrusiveEdge g e1 := by
      unfold getIntrusiveEdge
      show (match mapFind e1 (mapErase e g0.edgeMap) with
        | none => none
        | some ie => load g0.intrusiveEdges ie) = _
      rw [hfind, core_intrusiveEdges hcore]
    refine ⟨?_, ?_, ?_, ?_, ?_⟩
    · rw [containsEdge_iff] at he1 ⊢
      show e1 ∈ (mapErase e g0.edgeMap).map Prod.fst
      rw [core_edgeMap hcore]
      exact key_mem_mapErase_of_ne hne he1
    · unfold getEdgeSource
      rw [hintr]
    · unfold getEdgeTarget
      rw [hintr]
    · rw [hsrc]; rfl
    · rw [htgt]; rfl
  · intro v hv
    exact sameAdjacency_of_none_stored hn hn1 hspec hv

theorem removeEdge_leaves_the_rest_witness :
    ∃ g, runCalls (AbstractBaseGraph.create false true true)
        [.addVertex 1, .addVertex 2, .addVertex 3, .addEdge 1 2 101, .addEdge 2 3 102] = some g
      ∧ containsEdge g 101 = true
      ∧ ∃ g1, removeEdge g 101 = .returns true g1
        ∧ g1.specifics.getVertexSet = g.specifics.getVertexSet
        ∧ (∀ e1, e1 ≠ 101 → containsEdge g e1 = true →
            containsEdge g1 e1 = true
            ∧ getEdgeSource g1 e1 = getEdgeSource g e1
            ∧ getEdgeTarget g1 e1 = getEdgeTarget g e1
            ∧ (getEdgeSource g e1).isSome = true ∧ (getEdgeTarget g e1).isSome = true)
        ∧ ∀ v, containsVertex g v = true → SameAdjacency g g1 v :=
  ⟨_, rfl, rfl, removeEdge_leaves_the_rest false true true
    [.addVertex 1, .addVertex 2, .addVertex 3, .addEdge 1 2 101, .addEdge 2 3 102] _ rfl 101 rfl⟩

/-! ## Further facts about `removeAllEdges(V*, V*)` and the directed `edgesOf` -/

/-- In every state of a container, `removeAllEdges(s, t)` has undefined
behaviour when `s` or `t` is not a member: `getAllEdges(s, t)` returns null and
`removeAllEdges(set<E*>*)` dereferences it. -/
theorem removeAllEdgesV_undefined_without_members (g : AbstractBaseGraph) (s t : Nat)
    (h : (containsVertex g s && containsVertex g t) = false) :
    removeAllEdgesV g s t = .undefined := by
  unfold removeAllEdgesV getAllEdges
  cases g.specifics with
  | DirectedSpecifics vm =>
    simp [DirectedSpecifics.getAllEdges, h, Outcome.bind, removeAllEdges, deref]
  | UndirectedSpecifics vm =>
    simp [UndirectedSpecifics.getAllEdges, h, Outcome.bind, removeAllEdges, deref]

theorem removeAllEdgesV_undefined_without_members_witness :
    (containsVertex (after (AbstractBaseGraph.create false true true) [.addVertex 1]) 1
      && containsVertex (after (AbstractBaseGraph.create false true true) [.addVertex 1]) 2)
      = false
    ∧ removeAllEdgesV (after (AbstractBaseGraph.create false true true) [.addVertex 1]) 1 2
      = .undefined :=
  ⟨rfl, removeAllEdgesV_undefined_without_members _ 1 2 rfl⟩

/-- In a state in which the vertex map does hold the containers of the vertices
1 and 2 (a state written down by hand: no sequence of calls stores a
container), with the edge 101 from 1 to 2 in the outgoing set of 1 and the
incoming set of 2, `edgesOf(1)` returns the live incoming set of 1 after
inserting 101 into it: `inDegreeOf(1)` is 0 before the call and 1 after it. -/
theorem directed_edgesOf_writes_into_the_incoming_set :
    (inDegreeOf
        { AbstractBaseGraph.create false false true with
          specifics := .DirectedSpecifics [(1, 1), (2, 2)]
          directedContainers := [⟨[], [101]⟩, ⟨[101], []⟩]
          edgeMap := [(101, 1)]
          intrusiveEdges := [⟨1, 2⟩] } 1).value = some 0
    ∧ elementsOf (edgesOf
        { AbstractBaseGraph.create false false true with
          specifics := .DirectedSpecifics [(1, 1), (2, 2)]
          directedContainers := [⟨[], [101]⟩, ⟨[101], []⟩]
          edgeMap := [(101, 1)]
          intrusiveEdges := [⟨1, 2⟩] } 1) = some [101]
    ∧ ((edgesOf
        { AbstractBaseGraph.create false false true with
          specifics := .DirectedSpecifics [(1, 1), (2, 2)]
          directedContainers := [⟨[], [101]⟩, ⟨[101], []⟩]
          edgeMap := [(101, 1)]
          intrusiveEdges := [⟨1, 2⟩] } 1).bind fun _ g => inDegreeOf g 1).value = some 1 := by
  decide

end VPC
